import Mathlib

/-!
# Nano Composer: request / availability orchestration

A shallow embedding of `src/lib/ai-manager.js` (class `AiManager`) and of
`src/background/service-worker.js` (warmup state and the unified message
handler), followed by theorems about them.

Modelling conventions.

* JavaScript strings are Lean `String`s.  `trim`, `toLowerCase` and `includes`
  are embedded by `jsTrim`, `jsToLowerCase` and `jsIncludes`.
* Asynchronous code is run sequentially: every `await` completes before the
  next statement.  An effectful function is a state transformer that returns
  either a value or a thrown value, and the state keeps every side effect made
  before a throw, as in JavaScript.
* The globals the code talks to (`LanguageModel`, a `Session`,
  `chrome.storage`) are a `World`: each call is appended to a log and the
  answer of the world is an arbitrary function of the log so far, so a world
  may answer differently each time it is asked.
* Abort signals and timers are not modelled.
-/

namespace NanoComposer

/-! ## JavaScript strings -/

/-- Code points that `String.prototype.trim` strips (WhiteSpace and LineTerminator). -/
def isJsWhitespace (c : Char) : Bool :=
  c.toNat = 0x09 || c.toNat = 0x0A || c.toNat = 0x0B || c.toNat = 0x0C || c.toNat = 0x0D ||
  c.toNat = 0x20 || c.toNat = 0xA0 || c.toNat = 0x1680 ||
  (0x2000 ≤ c.toNat && c.toNat ≤ 0x200A) ||
  c.toNat = 0x2028 || c.toNat = 0x2029 || c.toNat = 0x202F || c.toNat = 0x205F ||
  c.toNat = 0x3000 || c.toNat = 0xFEFF

/-- Embedding of `s.trim()`. -/
def jsTrim (s : String) : String :=
  ⟨((s.data.dropWhile isJsWhitespace).reverse.dropWhile isJsWhitespace).reverse⟩

/-- Lower-casing of one character.  ASCII capitals go to their small letters;
the two non-ASCII characters whose lower case contains an ASCII letter are
mapped as Unicode does (KELVIN SIGN to `k`, LATIN CAPITAL LETTER I WITH DOT
ABOVE to `i` followed by COMBINING DOT ABOVE).  Every other character is kept:
its lower case is again a non-ASCII character, and the code only ever compares
lower-cased strings with ASCII literals. -/
def jsLowerChar (c : Char) : List Char :=
  if c.toNat = 0x212A then ['k']
  else if c.toNat = 0x0130 then ['i', Char.ofNat 0x0307]
  else [c.toLower]

/-- Embedding of `s.toLowerCase()`. -/
def jsToLowerCase (s : String) : String :=
  ⟨s.data.flatMap jsLowerChar⟩

/-- Whether the list `p` occurs as a contiguous block of `l`. -/
def isInfixOf (p : List Char) : List Char → Bool
  | [] => p.isEmpty
  | c :: cs => p.isPrefixOf (c :: cs) || isInfixOf p cs

/-- Embedding of `s.includes(sub)`. -/
def jsIncludes (s sub : String) : Bool :=
  isInfixOf sub.data s.data

/-- Embedding of `!text || !text.trim()` for a string `text`. -/
def isBlank (s : String) : Bool :=
  s = "" || jsTrim s = ""

/-- Embedding of `lines.join("\n")`. -/
def joinLines (lines : List String) : String :=
  "\n".intercalate lines

/-! ## JavaScript values that come back from the outside -/

/-- A value handed to the code by a provider call.  The code inspects such a
value only through `typeof v === "string"`, its truthiness and `String(v)`, so
a value that is neither a string nor `undefined` nor `null` (a number, a
boolean, an object) is given by its truthiness and its string conversion. -/
inductive JsVal where
  | undefined
  | null
  | str (s : String)
  | other (truthy : Bool) (repr : String)
  deriving DecidableEq, Repr

/-- Truthiness of a value. -/
def JsVal.truthy : JsVal → Bool
  | .undefined => false
  | .null => false
  | .str s => s ≠ ""
  | .other t _ => t

/-- Embedding of `String(v)`. -/
def JsVal.toStr : JsVal → String
  | .undefined => "undefined"
  | .null => "null"
  | .str s => s
  | .other _ r => r

/-- A thrown value: an Error-like object with a `name` and a `message`, or any
other value. -/
inductive Thrown where
  | error (name message : String)
  | value (v : JsVal)
  deriving DecidableEq, Repr

/-- Embedding of `new Error(message)`. -/
def mkError (message : String) : Thrown := .error "Error" message

/-- Embedding of `String(err)`; for an Error-like object this is
`Error.prototype.toString`. -/
def Thrown.toStr : Thrown → String
  | .error name message =>
      if name = "" then message
      else if message = "" then name
      else name ++ ": " ++ message
  | .value v => v.toStr

/-- Truthiness of a thrown value (an object is truthy). -/
def Thrown.truthy : Thrown → Bool
  | .error _ _ => true
  | .value v => v.truthy

/-- The `message` property read by `err?.message`; `none` is `undefined`. -/
def Thrown.message : Thrown → Option String
  | .error _ message => some message
  | .value _ => none

/-- Embedding of `String(err?.message || err || "")` (`_prompt`, line 141). -/
def promptErrMsg (err : Thrown) : String :=
  match err.message with
  | some m => if m ≠ "" then m else err.toStr
  | none => if err.truthy then err.toStr else ""

/-- Embedding of `String(err?.message || err)` (service worker, lines 56 and 167). -/
def errMsg (err : Thrown) : String :=
  match err.message with
  | some m => if m ≠ "" then m else err.toStr
  | none => err.toStr

/-! ## Data model -/

/-- The four availability states. -/
inductive Status where
  | unknown
  | available
  | downloadable
  | unavailable
  deriving DecidableEq, Repr

/-- The availability snapshot `this._avail`; `raw` is `none` for `{}` and
`some lm` for `{ lm }`. -/
structure Avail where
  status : Status
  languageModel : Status
  writer : Status
  rewriter : Status
  raw : Option JsVal
  deriving DecidableEq, Repr

/-- A live Session with the two sampling fields the code writes. -/
structure Session where
  id : Nat
  topK : Option Rat
  temperature : Option Rat
  deriving DecidableEq, Repr

/-- The response envelope's `result`. -/
inductive ResultVal where
  | text (s : String)
  | avail (a : Avail)
  | ok (b : Bool)
  deriving DecidableEq, Repr

/-- The response envelope; an absent field is `none`. -/
structure Envelope where
  success : Bool
  result : Option ResultVal
  error : Option String
  deriving DecidableEq, Repr

/-- The fixed system prompt a Session is created with (`_ensureSession`, lines 107-109). -/
def systemPrompt : String :=
  "You are Nano Composer. Keep outputs concise, faithful to the user text, " ++
  "and free of extra commentary. Return only the final text."

/-- The calls the code makes to the outside. -/
inductive Call where
  | availability
  | params
  | create (system : String) (topK temperature : Option Rat)
  | prompt (session : Session) (text : String) (language : String)
  | destroy (session : Session)
  | syncGetLanguage
  | syncGetDebugMode
  | sessionSetWarmup
  deriving DecidableEq, Repr

/-- The outside: the `LanguageModel` global, the sessions it creates and
`chrome.storage`.  Each answer is a function of the log of calls made so far,
the call being answered included as its last entry.  Every call settles: it
resolves (`ok`) or rejects (`error`); a call that stays pending is not a
behaviour of a `World`. -/
structure World where
  hasLanguageModel : Bool
  hasAvailability : Bool
  hasCreate : Bool
  hasParams : Bool
  availability : List Call → Except Thrown JsVal
  params : List Call → Except Thrown (Option Rat × Option Rat)
  create : List Call → Except Thrown Unit
  prompt : List Call → Except Thrown JsVal
  sessionWritable : Bool
  hasDestroy : Bool
  destroy : List Call → Except Thrown Unit
  syncGetLanguage : List Call → Except Thrown JsVal
  syncGetDebugMode : List Call → Except Thrown Bool
  sessionSetWarmup : List Call → Except Thrown Unit

/-- The whole mutable state: the `AiManager` instance, the service worker's
warmup variables, the log of outside calls and the responses sent. -/
structure St where
  lang : String
  topK : Option Rat
  temperature : Option Rat
  session : Option Session
  avail : Avail
  warmupComplete : Bool
  warmupAttempts : Nat
  log : List Call
  sent : List Envelope
  deriving DecidableEq, Repr

/-! ## Effects -/

/-- Outcome of running an effectful function. -/
inductive Res (α : Type) where
  | ok (a : α)
  | throw (e : Thrown)
  deriving DecidableEq, Repr

/-- An effectful function: it reads and writes the state and returns or throws. -/
def M (α : Type) : Type := St → Res α × St

/-- Return a value. -/
def M.pure {α : Type} (a : α) : M α := fun s => (.ok a, s)

/-- Sequencing; a throw skips the rest and keeps the state. -/
def M.bind {α β : Type} (x : M α) (f : α → M β) : M β := fun s =>
  match x s with
  | (.ok a, s1) => f a s1
  | (.throw e, s1) => (.throw e, s1)

instance : Monad M where
  pure := M.pure
  bind := M.bind

/-- Embedding of `throw e`. -/
def throwJs {α : Type} (e : Thrown) : M α := fun s => (.throw e, s)

/-- Embedding of `try { x } catch (err) { h(err) }`. -/
def tryCatchJs {α : Type} (x : M α) (h : Thrown → M α) : M α := fun s =>
  match x s with
  | (.ok a, s1) => (.ok a, s1)
  | (.throw e, s1) => h e s1

/-- Read the state. -/
def getSt : M St := fun s => (.ok s, s)

/-- Update the state. -/
def modifySt (f : St → St) : M Unit := fun s => (.ok (), f s)

/-- Make an outside call: log it, then take the world's answer for the log. -/
def callWorld {α : Type} (c : Call) (answer : List Call → Except Thrown α) : M α := fun s =>
  let log1 := s.log ++ [c]
  match answer log1 with
  | .ok a => (.ok a, { s with log := log1 })
  | .error e => (.throw e, { s with log := log1 })

/-! ## `AiManager` (src/lib/ai-manager.js) -/

/-- The snapshot set by the constructor (lines 13-19). -/
def initialAvail : Avail :=
  { status := .unknown, languageModel := .unknown, writer := .unknown, rewriter := .unknown,
    raw := none }

/-- Embedding of `_normalizeStatus` (lines 28-34): `String(s || "").toLowerCase()`
compared with the five literals. -/
def _normalizeStatus (s : JsVal) : Status :=
  let v := jsToLowerCase (if s.truthy then s.toStr else "")
  if v = "available" then .available
  else if v = "after-download" || v = "downloadable" then .downloadable
  else if v = "unavailable" || v = "blocked" then .unavailable
  else .unknown

/-- Embedding of `refreshAvailability` (lines 36-66). -/
def refreshAvailability (W : World) : M Avail := do
  if !W.hasLanguageModel || !W.hasAvailability then
    let a : Avail :=
      { status := .unavailable, languageModel := .unavailable, writer := .unknown,
        rewriter := .unknown, raw := none }
    modifySt (fun s => { s with avail := a })
    return a
  else
    let lm ← tryCatchJs (callWorld .availability W.availability)
      (fun _ => pure (JsVal.str "unavailable"))
    let languageModel := _normalizeStatus lm
    let status := languageModel
    let a : Avail :=
      { status := status, languageModel := languageModel, writer := .unknown,
        rewriter := .unknown, raw := some lm }
    modifySt (fun s => { s with avail := a })
    return a

/-- Embedding of `getAvailability` (lines 68-70). -/
def getAvailability : M Avail := do
  let s ← getSt
  return s.avail

/-- Embedding of `setLanguage` (lines 22-24): only a non-empty string is taken. -/
def setLanguage (lang : JsVal) : M Unit :=
  match lang with
  | .str l => if l ≠ "" then modifySt (fun s => { s with lang := l }) else pure ()
  | _ => pure ()

/-- The block "Respect device defaults if exposed" of `_ensureSession` (lines
96-105): `LanguageModel.params()` is read when it is there, a default is taken
only for a sampling value that is still `null` or `undefined`, and any failure
is ignored. -/
def readDeviceDefaults (W : World) : M Unit :=
  tryCatchJs
    (if W.hasParams then do
      let (defaultTopK, defaultTemperature) ← callWorld .params W.params
      let s1 ← getSt
      if s1.topK = none && defaultTopK.isSome then
        modifySt (fun t => { t with topK := defaultTopK })
      let s2 ← getSt
      if s2.temperature = none && defaultTemperature.isSome then
        modifySt (fun t => { t with temperature := defaultTemperature })
    else pure ())
    (fun _ => pure ())

/-- Embedding of `_ensureSession` (lines 89-119).  A Session that `create`
resolves to is identified by the number of calls logged before it and starts
with the sampling values it was created with. -/
def _ensureSession (W : World) : M Session := do
  let s ← getSt
  match s.session with
  | some sess => return sess
  | none =>
    if !W.hasLanguageModel || !W.hasCreate then
      throwJs (mkError "Prompt API not found. Ensure Chrome 128 or newer with Built-in AI enabled.")
    else
      readDeviceDefaults W
      let s3 ← getSt
      callWorld (.create systemPrompt s3.topK s3.temperature) W.create
      let sess : Session := { id := s3.log.length, topK := s3.topK, temperature := s3.temperature }
      modifySt (fun t => { t with session := some sess })
      return sess

/-- Embedding of `init` (lines 74-87). -/
def init (W : World) : M Bool := do
  let _ ← refreshAvailability W
  let s ← getSt
  if s.avail.languageModel = .unavailable then
    throwJs (mkError "Language model is unavailable in this browser.")
  else if s.avail.languageModel = .downloadable then
    return false
  else
    let _ ← _ensureSession W
    return true

/-- The optional third argument of `_prompt`. -/
structure PromptParams where
  topK : Option Rat
  temperature : Option Rat
  deriving DecidableEq, Repr

/-- The default `params = {}`. -/
def noParams : PromptParams := { topK := none, temperature := none }

/-- Embedding of the two guarded writes `sess.topK = params.topK` and
`sess.temperature = params.temperature`, each inside `try { } catch { }` (lines
127-132): a write is made when the parameter is a number, and it takes effect
when the Session lets its fields be written. -/
def applyParams (W : World) (params : PromptParams) (sess : Session) : Session :=
  let sess1 :=
    if params.topK.isSome && W.sessionWritable then { sess with topK := params.topK } else sess
  if params.temperature.isSome && W.sessionWritable then
    { sess1 with temperature := params.temperature }
  else sess1

/-- What the `try` body of `_prompt` does with the value the Session returned
(lines 136-139). -/
def checkOutput (out : JsVal) : M String :=
  match out with
  | .str o =>
      if jsTrim o = "" then throwJs (mkError "Empty response from the language model.")
      else pure (jsTrim o)
  | _ => throwJs (mkError "Empty response from the language model.")

/-- The `catch` block of `_prompt` (lines 140-146). -/
def remapPromptError (err : Thrown) : Thrown :=
  let msg := promptErrMsg err
  if jsIncludes (jsToLowerCase msg) "abort" || jsIncludes (jsToLowerCase msg) "timeout" then
    mkError "Request timed out. Please try again."
  else mkError (if msg ≠ "" then msg else "Prompt failed.")

/-- Embedding of `_prompt` (lines 121-147).  The local `sess` and
`this._session` are one object, so the Session with the writes of lines 127-132
is stored back into the state before it is prompted. -/
def _prompt (W : World) (text : String) (params : PromptParams) : M String := do
  if isBlank text then throwJs (mkError "No text provided.")
  else
    let sess0 ← _ensureSession W
    let sess := applyParams W params sess0
    modifySt (fun s => { s with session := some sess })
    tryCatchJs
      (do
        let s ← getSt
        let out ← callWorld (.prompt sess text s.lang) W.prompt
        checkOutput out)
      (fun err => throwJs (remapPromptError err))

/-! ### Task builders -/

/-- Embedding of `_rewritePrompt` (lines 151-184); `mode` is `none` for `undefined`. -/
def _rewritePrompt (mode : Option String) (text : String) : String :=
  let fenceStart := "<<<TEXT"
  let fenceEnd := ">>>"
  let m := jsToLowerCase (match mode with
    | some x => x
    | none => "")
  if m = "formal" then
    joinLines [
      "Rewrite the text in a professional and formal tone.",
      "Preserve meaning, facts, and intent.",
      "Return only the rewritten text.",
      fenceStart, text, fenceEnd]
  else if m = "casual" then
    joinLines [
      "Rewrite the text in a relaxed, natural tone suitable for friendly conversation.",
      "Preserve meaning, facts, and intent.",
      "Return only the rewritten text.",
      fenceStart, text, fenceEnd]
  else if m = "grammar" then
    joinLines [
      "Fix grammar, spelling, and clarity.",
      "Do not change tone or meaning.",
      "Return only the corrected text.",
      fenceStart, text, fenceEnd]
  else
    joinLines [
      "Rewrite the text to improve clarity and flow without changing its meaning.",
      "Return only the rewritten text.",
      fenceStart, text, fenceEnd]

/-- Embedding of `_shortenPrompt` (lines 186-193). -/
def _shortenPrompt (text : String) : String :=
  joinLines [
    "Shorten the text conservatively while preserving all key meaning.",
    "Avoid bullet lists unless the original used them.",
    "Return only the shortened text.",
    "<<<TEXT", text, ">>>"]

/-- Embedding of `_expandPrompt` (lines 195-202). -/
def _expandPrompt (text : String) : String :=
  joinLines [
    "Expand the text by roughly 20 to 40 percent while keeping the same meaning and tone.",
    "Avoid inventing new facts.",
    "Return only the expanded text.",
    "<<<TEXT", text, ">>>"]

/-- Embedding of `_proofreadPrompt` (lines 204-211). -/
def _proofreadPrompt (text : String) : String :=
  joinLines [
    "Proofread and correct grammar, punctuation, and word choice.",
    "Preserve the original tone and structure as much as possible.",
    "Return only the corrected text.",
    "<<<TEXT", text, ">>>"]

/-- Embedding of `_writePrompt` (lines 213-229). -/
def _writePrompt (instruction : String) (context : String) : String :=
  let lines := [
    "Follow the instruction and draft a concise response.",
    "Use clear, direct language.",
    "Return only the draft."]
  let lines :=
    if !isBlank context then
      lines ++ [
        "You may use the context to tailor wording without adding new facts.",
        "<<<CONTEXT",
        context,
        ">>>"]
    else lines
  joinLines (lines ++ ["<<<INSTRUCTION", instruction, ">>>"])

/-! ### Public operations -/

/-- Embedding of `!text || !text.trim()` for an argument that may be `undefined`. -/
def isMissingOrBlank (text : Option String) : Bool :=
  match text with
  | none => true
  | some t => isBlank t

/-- The guard every public operation runs on the stored snapshot before `init`
(lines 235-237 and its four copies). -/
def throwIfDownloading : M Unit := do
  let s ← getSt
  if s.avail.languageModel = .downloadable then
    throwJs (mkError "Local model is still downloading. Please try again shortly.")
  else pure ()

/-- Embedding of `rewrite` (lines 233-241); `mode` defaults to `"formal"`. -/
def rewrite (W : World) (text : Option String) (mode : Option String) : M String := do
  if isMissingOrBlank text then throwJs (mkError "No text provided for rewrite.")
  else
    throwIfDownloading
    let _ ← init W
    let prompt := _rewritePrompt (some (mode.getD "formal")) (text.getD "")
    _prompt W prompt noParams

/-- Embedding of `shorten` (lines 243-250). -/
def shorten (W : World) (text : Option String) : M String := do
  if isMissingOrBlank text then throwJs (mkError "No text provided for shorten.")
  else
    throwIfDownloading
    let _ ← init W
    _prompt W (_shortenPrompt (text.getD "")) noParams

/-- Embedding of `expand` (lines 252-259). -/
def expand (W : World) (text : Option String) : M String := do
  if isMissingOrBlank text then throwJs (mkError "No text provided for expand.")
  else
    throwIfDownloading
    let _ ← init W
    _prompt W (_expandPrompt (text.getD "")) noParams

/-- Embedding of `proofread` (lines 261-268). -/
def proofread (W : World) (text : Option String) : M String := do
  if isMissingOrBlank text then throwJs (mkError "No text provided for proofread.")
  else
    throwIfDownloading
    let _ ← init W
    _prompt W (_proofreadPrompt (text.getD ""))
      { topK := some 3, temperature := some (3 / 10) }

/-- Embedding of `write` (lines 270-277); `context` defaults to `""`. -/
def write (W : World) (instruction : Option String) (context : Option String) : M String := do
  if isMissingOrBlank instruction then throwJs (mkError "No instruction provided for write.")
  else
    throwIfDownloading
    let _ ← init W
    _prompt W (_writePrompt (instruction.getD "") (context.getD "")) noParams

/-- Embedding of `destroy` (lines 281-289). -/
def destroy (W : World) : M Unit := do
  let s ← getSt
  tryCatchJs
    (match s.session with
      | some sess => if W.hasDestroy then callWorld (.destroy sess) W.destroy else pure ()
      | none => pure ())
    (fun _ => pure ())
  modifySt (fun t => { t with session := none })

/-- Embedding of `new AiManager(opts)` (lines 7-20) together with the module
variables of the service worker (lines 10-12). -/
def initialState (lang : Option String) (topK temperature : Option Rat) : St :=
  { lang := match lang with
      | some l => if l ≠ "" then l else "en"
      | none => "en",
    topK := some (topK.getD 3),
    temperature := some (temperature.getD 1),
    session := none,
    avail := initialAvail,
    warmupComplete := false,
    warmupAttempts := 0,
    log := [],
    sent := [] }

/-! ## The service worker (src/background/service-worker.js) -/

/-- Embedding of `MAX_WARMUP_ATTEMPTS` (line 11). -/
def MAX_WARMUP_ATTEMPTS : Nat := 3

/-- Embedding of `applyPreferredLanguage` (lines 14-17). -/
def applyPreferredLanguage (W : World) : M Unit := do
  let preferred_language ← callWorld .syncGetLanguage W.syncGetLanguage
  setLanguage (if preferred_language.truthy then preferred_language else .str "en")

/-- Embedding of `warmupModels` (lines 28-62). -/
def warmupModels (W : World) : M Bool := do
  let s ← getSt
  if s.warmupComplete then return true
  else if s.warmupAttempts ≥ MAX_WARMUP_ATTEMPTS then return false
  else
    modifySt (fun t => { t with warmupAttempts := t.warmupAttempts + 1 })
    tryCatchJs
      (do
        applyPreferredLanguage W
        let _ ← init W
        modifySt (fun t => { t with warmupComplete := true })
        callWorld .sessionSetWarmup W.sessionSetWarmup
        let debugMode ← callWorld .syncGetDebugMode W.syncGetDebugMode
        if debugMode then
          tryCatchJs
            (do
              let _ ← rewrite W (some "test") (some "grammar")
              pure ())
            (fun _ => pure ())
        return true)
      (fun err => do
        modifySt (fun t => { t with warmupComplete := false })
        let msg := errMsg err
        if jsIncludes msg "downloadable" || jsIncludes msg "timeout" then
          modifySt (fun t => { t with warmupAttempts := 0 })
        return false)

/-- Embedding of the `onStartup` listener (lines 75-79). -/
def onStartup (W : World) : M Unit := do
  modifySt (fun t => { t with warmupComplete := false, warmupAttempts := 0 })
  let _ ← warmupModels W
  pure ()

/-- The `data` object of a request; an absent field is `none`. -/
structure Data where
  text : Option String
  tone : Option String
  mode : Option String
  instruction : Option String
  context : Option String
  deriving DecidableEq, Repr

/-- The default `data = {}`. -/
def emptyData : Data :=
  { text := none, tone := none, mode := none, instruction := none, context := none }

/-- A request message. -/
structure Request where
  action : Option String
  data : Option Data
  deriving DecidableEq, Repr

/-- Embedding of `!x` for a field that is a string or absent. -/
def falsy (x : Option String) : Bool :=
  match x with
  | none => true
  | some t => t = ""

/-- Embedding of `a || b` for a field `a` that is a string or absent. -/
def orElseStr (a : Option String) (b : String) : String :=
  if falsy a then b else a.getD b

/-- Embedding of `sendResponse(e)`. -/
def sendResponse (e : Envelope) : M Unit :=
  modifySt (fun s => { s with sent := s.sent ++ [e] })

/-- The envelope `{ success: false, error }`. -/
def failure (error : String) : Envelope :=
  { success := false, result := none, error := some error }

/-- The envelope `{ success: true, result }`. -/
def success (result : ResultVal) : Envelope :=
  { success := true, result := some result, error := none }

/-- The message of the fail-fast envelope (lines 95-96). -/
def unavailableMessage : String :=
  "AI models unavailable. Ensure Chrome 128+ with Built-in AI enabled, Optimization Guide On Device Model installed, and try again."

/-- Embedding of the `switch (action)` of the handler (lines 110-162). -/
def dispatch (W : World) (action : String) (data : Data) : M ResultVal := do
  if action = "rewrite" then
    let text := data.text
    let tone := orElseStr data.tone (orElseStr data.mode "formal")
    if falsy text then throwJs (mkError "No text provided for rewrite")
    else
      let r ← rewrite W text (some tone)
      return .text r
  else if action = "shorten" then
    let text := data.text
    if falsy text then throwJs (mkError "No text provided for shorten")
    else
      let r ← shorten W text
      return .text r
  else if action = "expand" then
    let text := data.text
    if falsy text then throwJs (mkError "No text provided for expand")
    else
      let r ← expand W text
      return .text r
  else if action = "proofread" then
    let text := data.text
    if falsy text then throwJs (mkError "No text provided for proofread")
    else
      let r ← proofread W text
      return .text r
  else if action = "write" then
    let instruction := data.instruction
    let context := data.context.getD ""
    if falsy instruction then throwJs (mkError "No instruction provided for write")
    else
      let r ← write W instruction (some context)
      return .text r
  else if action = "explain" then
    let text := data.text
    if falsy text then throwJs (mkError "Nothing to explain")
    else
      let r ← write W
        (some "Explain the following clearly and objectively for a general audience. Avoid extra formatting.")
        text
      return .text r
  else if action = "availability" then
    let a ← getAvailability
    return .avail a
  else if action = "warmup" then
    let ok ← warmupModels W
    return .ok ok
  else
    throwJs (mkError ("Unknown action: " ++ action))

/-- Embedding of the body of `self.handler` (lines 83-169). -/
def handler (W : World) (request : Option Request) : M Unit :=
  tryCatchJs
    (match request with
      | none => sendResponse (failure "Invalid request: missing action")
      | some req =>
        if falsy req.action then sendResponse (failure "Invalid request: missing action")
        else do
          let s ← getSt
          let ok ← if !s.warmupComplete then warmupModels W else pure true
          if !ok then sendResponse (failure unavailableMessage)
          else
            let _ ← refreshAvailability W
            let result ← dispatch W (req.action.getD "") (req.data.getD emptyData)
            sendResponse (success result))
    (fun err => sendResponse (failure (errMsg err)))

/-! ## Worlds used in the examples -/

/-- A stub world: the provider is present with every primitive, reports the raw
status `raw`, creates Sessions, and every Session answers each prompt with
`out`; the settings store holds no preferred language and `debugMode` off. -/
def stubWorld (raw : JsVal) (out : Except Thrown JsVal) : World :=
  { hasLanguageModel := true
    hasAvailability := true
    hasCreate := true
    hasParams := false
    availability := fun _ => .ok raw
    params := fun _ => .ok (none, none)
    create := fun _ => .ok ()
    prompt := fun _ => out
    sessionWritable := true
    hasDestroy := true
    destroy := fun _ => .ok ()
    syncGetLanguage := fun _ => .ok (.str "en")
    syncGetDebugMode := fun _ => .ok false
    sessionSetWarmup := fun _ => .ok () }

/-- The state of a freshly loaded service worker: `new AiManager({ lang: "en" })`. -/
def coldState : St := initialState (some "en") none none

/-! ## Notions used in the statements -/

/-- The string `_normalizeStatus` compares with its literals: `String(s || "").toLowerCase()`. -/
def normalizedKey (raw : JsVal) : String :=
  jsToLowerCase (if raw.truthy then raw.toStr else "")

/-- Whether a logged call is `LanguageModel.create`. -/
def Call.isCreate : Call → Bool
  | .create _ _ _ => true
  | _ => false

/-- Whether a logged call is a Session's `prompt`. -/
def Call.isPrompt : Call → Bool
  | .prompt _ _ _ => true
  | _ => false

/-- The outside calls made between the state `s` and the later state `s1`. -/
def callsSince (s s1 : St) : List Call :=
  s1.log.drop s.log.length

/-- An effectful function keeps the part `p` of the state, whether it returns or throws. -/
def Keeps {α β : Type} (p : St → β) (x : M α) : Prop :=
  ∀ s, p (x s).2 = p s

/-- An effectful function only appends to the log, and every call it appends satisfies `Q`. -/
def Emits {α : Type} (Q : Call → Prop) (x : M α) : Prop :=
  ∀ s, ∃ l, (x s).2.log = s.log ++ l ∧ ∀ c ∈ l, Q c

/-- The part of the state that belongs to the service worker: the responses
sent and the two warmup variables. -/
def outer (s : St) : List Envelope × Bool × Nat :=
  (s.sent, s.warmupComplete, s.warmupAttempts)

/-- What each public operation does after its input check: the guard on the
stored snapshot, `init`, and `_prompt` on the prompt that was built. -/
def taskBody (W : World) (prompt : String) (params : PromptParams) : M String := do
  throwIfDownloading
  let _ ← init W
  _prompt W prompt params

/-- The guard under which an operation `x`, started in the state `s`, prompts
the Session: if a prompt call is among the calls it makes, then the snapshot
held before the operation is not `downloadable`, the snapshot left behind is the
one computed by the refresh the operation runs first, and that snapshot is not
`unavailable`. -/
def PromptGuard (W : World) (s : St) (x : M String) : Prop :=
  (callsSince s (x s).2).any Call.isPrompt = true →
    s.avail.languageModel ≠ .downloadable ∧
    (x s).2.avail = (refreshAvailability W s).2.avail ∧
    (x s).2.avail.status ≠ .unavailable

/-- A stub provider that answers every prompt with the string `out`: the
`LanguageModel` global has its primitives, every availability query is answered
with a raw status that normalises to `available`, every `create` resolves,
every Session answers every prompt with `out`, and the settings store answers. -/
structure StubProvider (W : World) (out : String) : Prop where
  hasLanguageModel : W.hasLanguageModel = true
  hasAvailability : W.hasAvailability = true
  hasCreate : W.hasCreate = true
  available : ∀ l, ∃ v, W.availability l = .ok v ∧ _normalizeStatus v = .available
  create : ∀ l, W.create l = .ok ()
  prompt : ∀ l, W.prompt l = .ok (.str out)
  language : ∀ l, ∃ v, W.syncGetLanguage l = .ok v
  debugMode : ∀ l, ∃ b, W.syncGetDebugMode l = .ok b
  sessionSet : ∀ l, W.sessionSetWarmup l = .ok ()

/-- The primary text of a request: `data.instruction` for `write`, `data.text`
for the other actions. -/
def primaryText (r : Request) : Option String :=
  if r.action = some "write" then (r.data.getD emptyData).instruction
  else (r.data.getD emptyData).text

/-- The six actions that run a task against the model. -/
def taskActions : List String :=
  ["rewrite", "shorten", "expand", "proofread", "write", "explain"]

/-- The raw status a refresh works with when it queries with the log `log`: the
answer of `LanguageModel.availability()`, or "unavailable" when the query
throws (lines 48-53). -/
def rawStatus (W : World) (log : List Call) : JsVal :=
  match W.availability log with
  | .ok v => v
  | .error _ => .str "unavailable"

/-- What `warmupModels` does once `warmupComplete` is set (lines 40-51): the
warmup marker is persisted, the debug flag is read, the smoke test is run under
the flag with its failure swallowed, and true is returned. -/
def warmupFinish (W : World) : M Bool := do
  callWorld .sessionSetWarmup W.sessionSetWarmup
  let debugMode ← callWorld .syncGetDebugMode W.syncGetDebugMode
  if debugMode then
    tryCatchJs
      (do
        let _ ← rewrite W (some "test") (some "grammar")
        pure ())
      (fun _ => pure ())
  return true

/-- The `try` block of `warmupModels` (lines 36-51). -/
def warmupTry (W : World) : M Bool := do
  applyPreferredLanguage W
  let _ ← init W
  modifySt (fun t => { t with warmupComplete := true })
  warmupFinish W

/-- The test of the `catch` block of `warmupModels` for a transient failure
(lines 56-57). -/
def isTransient (err : Thrown) : Bool :=
  jsIncludes (errMsg err) "downloadable" || jsIncludes (errMsg err) "timeout"

/-- The `catch` block of `warmupModels` (lines 52-61). -/
def warmupCatch (err : Thrown) : M Bool := do
  modifySt (fun t => { t with warmupComplete := false })
  if isTransient err then
    modifySt (fun t => { t with warmupAttempts := 0 })
  return false

/-- The state in which the `try` block of a warmup cycle starts: the attempt is counted. -/
def countAttempt (s : St) : St :=
  { s with warmupAttempts := s.warmupAttempts + 1 }

/-- A warmup cycle started in `s` runs and fails with a non-transient error:
the worker is not warm, attempts are left, and the `try` block throws an error
whose message contains neither "downloadable" nor "timeout". -/
def FailsHard (W : World) (s : St) : Prop :=
  s.warmupComplete = false ∧ s.warmupAttempts < MAX_WARMUP_ATTEMPTS ∧
    ∃ e, (warmupTry W (countAttempt s)).1 = .throw e ∧ isTransient e = false

/-- The state after `n` consecutive calls of `warmupModels`. -/
def warmupTimes (W : World) : Nat → St → St
  | 0, s => s
  | n + 1, s => warmupTimes W n (warmupModels W s).2

/-- An effectful function keeps the invariant `I`, whether it returns or throws. -/
def Preserves {α : Type} (I : St → Prop) (x : M α) : Prop :=
  ∀ s, I s → I (x s).2

/-- When an effectful function throws, it has only appended to the log, and
every call it appended satisfies `Q`. -/
def EmitsOnThrow {α : Type} (Q : Call → Prop) (x : M α) : Prop :=
  ∀ s e, (x s).1 = .throw e → ∃ l, (x s).2.log = s.log ++ l ∧ ∀ c ∈ l, Q c

/-- The states the service worker can reach from a cold start, whatever the
rest of the cold state is: by a call of `warmupModels`, by a handled request
and by a start event. -/
inductive Reachable (W : World) : St → Prop where
  | cold (s : St) (hc : s.warmupComplete = false) (ha : s.warmupAttempts = 0) : Reachable W s
  | warmup (s : St) (h : Reachable W s) : Reachable W (warmupModels W s).2
  | request (s : St) (request : Option Request) (h : Reachable W s) :
      Reachable W (handler W request s).2
  | start (s : St) (h : Reachable W s) : Reachable W (onStartup W s).2

/-- The invariant of the warmup state: the attempt counter is within its budget. -/
def AttemptsInBudget (s : St) : Prop :=
  s.warmupAttempts ≤ MAX_WARMUP_ATTEMPTS

/-- The fixed instruction of the `explain` action (line 146). -/
def explainInstruction : String :=
  "Explain the following clearly and objectively for a general audience. Avoid extra formatting."

/-- The request `{ action: "explain", data: { text: t } }`. -/
def explainRequest (t : String) : Request :=
  { action := some "explain", data := some { emptyData with text := some t } }

/-- The request `{ action: "write", data: { instruction, context: t } }` with
the fixed instruction of `explain`. -/
def writeRequestFor (t : String) : Request :=
  { action := some "write",
    data := some { emptyData with instruction := some explainInstruction, context := some t } }

/-- The lines of a text: the pieces between its line feeds. -/
def splitLines : List Char → List (List Char)
  | [] => [[]]
  | c :: cs =>
    if c = '\n' then [] :: splitLines cs
    else
      match splitLines cs with
      | [] => [[c]]
      | l :: ls => (c :: l) :: ls

/-- The lines of a prompt. -/
def promptLines (s : String) : List String :=
  (splitLines s.data).map String.mk

/-- The instruction lines of the `formal` rewrite (lines 158-160). -/
def formalLines : List String :=
  ["Rewrite the text in a professional and formal tone.",
   "Preserve meaning, facts, and intent.",
   "Return only the rewritten text."]

/-- The instruction lines of the `casual` rewrite (lines 165-167). -/
def casualLines : List String :=
  ["Rewrite the text in a relaxed, natural tone suitable for friendly conversation.",
   "Preserve meaning, facts, and intent.",
   "Return only the rewritten text."]

/-- The instruction lines of the `grammar` rewrite (lines 172-174). -/
def grammarLines : List String :=
  ["Fix grammar, spelling, and clarity.",
   "Do not change tone or meaning.",
   "Return only the corrected text."]

/-- The instruction lines of the default rewrite (lines 179-180). -/
def defaultLines : List String :=
  ["Rewrite the text to improve clarity and flow without changing its meaning.",
   "Return only the rewritten text."]

/-- The instruction lines of `shorten` (lines 188-190). -/
def shortenLines : List String :=
  ["Shorten the text conservatively while preserving all key meaning.",
   "Avoid bullet lists unless the original used them.",
   "Return only the shortened text."]

/-- The instruction lines of `expand` (lines 197-199). -/
def expandLines : List String :=
  ["Expand the text by roughly 20 to 40 percent while keeping the same meaning and tone.",
   "Avoid inventing new facts.",
   "Return only the expanded text."]

/-- The instruction lines of `proofread` (lines 206-208). -/
def proofreadLines : List String :=
  ["Proofread and correct grammar, punctuation, and word choice.",
   "Preserve the original tone and structure as much as possible.",
   "Return only the corrected text."]

/-- The instruction lines of `write` (lines 215-217). -/
def writeLines : List String :=
  ["Follow the instruction and draft a concise response.",
   "Use clear, direct language.",
   "Return only the draft."]

/-- The line that opens the context block of `write` (line 220). -/
def contextNote : String :=
  "You may use the context to tailor wording without adding new facts."

/-- The string a rewrite mode is compared with: `String(mode || "").toLowerCase()`. -/
def rewriteModeKey (mode : Option String) : String :=
  jsToLowerCase (mode.getD "")

/-- The prompt `prompt` is the instruction lines `instr` followed by one payload
block for `text`: it is the join of the instruction lines, the line "<<<TEXT",
the text verbatim and the line ">>>"; read line by line it is the instruction
lines, "<<<TEXT", the lines of the text, and ">>>" as the last line; and it has
one line equal to "<<<TEXT" more than the text has. -/
def OnePayloadBlock (instr : List String) (text prompt : String) : Prop :=
  prompt = joinLines (instr ++ ["<<<TEXT", text, ">>>"]) ∧
  promptLines prompt = instr ++ ["<<<TEXT"] ++ promptLines text ++ [">>>"] ∧
  (promptLines prompt).getLast? = some ">>>" ∧
  (promptLines prompt).count "<<<TEXT" = 1 + (promptLines text).count "<<<TEXT"


/-- The sampling values `proofread` passes to `_prompt` (line 267). -/
def proofreadParams : PromptParams := { topK := some 3, temperature := some (3 / 10) }

/-- A Session whose sampling fields hold the values of `proofread`. -/
def Tuned (sess : Session) : Prop :=
  sess.topK = some 3 ∧ sess.temperature = some (3 / 10)

/-- The engine holds a Session, and it satisfies `J`. -/
def SessionIs (J : Session → Prop) (s : St) : Prop :=
  ∃ sess, s.session = some sess ∧ J sess

/-- The engine holds a Session with the sampling values of `proofread`. -/
def TunedState (s : St) : Prop := SessionIs Tuned s

/-- A logged call that, if it is a Session's `prompt`, was made on a Session
with the sampling values of `proofread`. -/
def TunedCall (c : Call) : Prop :=
  match c with
  | .prompt sess _ _ => Tuned sess
  | _ => True

/-- One call of a public operation of the engine, with its arguments. -/
inductive TaskCall where
  | rewrite (text mode : Option String)
  | shorten (text : Option String)
  | expand (text : Option String)
  | proofread (text : Option String)
  | write (instruction context : Option String)

/-- Whether a call is a call of `proofread`. -/
def TaskCall.isProofread : TaskCall → Bool
  | .proofread _ => true
  | _ => false

/-- Running one call of a public operation. -/
def runTask (W : World) : TaskCall → M String
  | .rewrite text mode => rewrite W text mode
  | .shorten text => shorten W text
  | .expand text => expand W text
  | .proofread text => proofread W text
  | .write instruction context => write W instruction context

/-- Running a sequence of calls on one engine, one after the other; a call that
throws leaves its state to the next one. -/
def runTasks (W : World) : List TaskCall → St → St
  | [], s => s
  | t :: ts, s => runTasks W ts (runTask W t s).2

/-- An effectful function keeps the invariant `I`, and from a state with `I` it
only appends to the log calls that satisfy `Q`. -/
def PreservesEmits {α : Type} (I : St → Prop) (Q : Call → Prop) (x : M α) : Prop :=
  ∀ s, I s → I (x s).2 ∧ ∃ l, (x s).2.log = s.log ++ l ∧ ∀ c ∈ l, Q c

/-- An effectful function only appends to the log, every `prompt` among the
calls it appends is made on a tuned Session, and if there is one the engine
holds a tuned Session afterwards. -/
def TunesOnPrompt {α : Type} (x : M α) : Prop :=
  ∀ s, ∃ l, (x s).2.log = s.log ++ l ∧ (∀ c ∈ l, TunedCall c) ∧
    (l.any Call.isPrompt = true → TunedState (x s).2)

/-- The Session a logged `prompt` call was made on. -/
def Call.promptSession : Call → Option Session
  | .prompt sess _ _ => some sess
  | _ => none


/-- Where an error that leaves the `try` block of a warmup cycle comes from: a
rejected read of the preferred language, one of the two errors `init` builds
itself, a rejected `LanguageModel.create`, or a rejected storage call of lines
40-42. -/
def WarmupErrorSource (W : World) (e : Thrown) : Prop :=
  (∃ l, W.syncGetLanguage l = .error e) ∨
  e = mkError "Language model is unavailable in this browser." ∨
  e = mkError "Prompt API not found. Ensure Chrome 128 or newer with Built-in AI enabled." ∨
  (∃ l, W.create l = .error e) ∨
  (∃ l, W.sessionSetWarmup l = .error e) ∨
  (∃ l, W.syncGetDebugMode l = .error e)

/-! ## Running effectful code -/

@[simp] theorem pure_run {α : Type} (a : α) (s : St) : (pure a : M α) s = (.ok a, s) := rfl

@[simp] theorem bind_run {α β : Type} (x : M α) (f : α → M β) (s : St) :
    (x >>= f) s = match x s with
      | (.ok a, s1) => f a s1
      | (.throw e, s1) => (.throw e, s1) := rfl

@[simp] theorem throwJs_run {α : Type} (e : Thrown) (s : St) :
    (throwJs e : M α) s = (.throw e, s) := rfl

@[simp] theorem getSt_run (s : St) : getSt s = (.ok s, s) := rfl

@[simp] theorem modifySt_run (f : St → St) (s : St) : modifySt f s = (.ok (), f s) := rfl

theorem tryCatchJs_run {α : Type} (x : M α) (h : Thrown → M α) (s : St) :
    tryCatchJs x h s = match x s with
      | (.ok a, s1) => (.ok a, s1)
      | (.throw e, s1) => h e s1 := rfl

theorem callWorld_run {α : Type} (c : Call) (answer : List Call → Except Thrown α) (s : St) :
    callWorld c answer s = match answer (s.log ++ [c]) with
      | .ok a => (.ok a, { s with log := s.log ++ [c] })
      | .error e => (.throw e, { s with log := s.log ++ [c] }) := rfl

/-! ## Frame rules -/

theorem keeps_pure {α β : Type} (p : St → β) (a : α) : Keeps p (pure a : M α) :=
  fun _ => rfl

theorem keeps_throw {α β : Type} (p : St → β) (e : Thrown) : Keeps p (throwJs e : M α) :=
  fun _ => rfl

theorem keeps_getSt {β : Type} (p : St → β) : Keeps p getSt :=
  fun _ => rfl

theorem keeps_modifySt {β : Type} (p : St → β) (f : St → St) (h : ∀ s, p (f s) = p s) :
    Keeps p (modifySt f) :=
  fun s => h s

theorem keeps_bind {α β γ : Type} (p : St → γ) (x : M α) (f : α → M β)
    (hx : Keeps p x) (hf : ∀ a, Keeps p (f a)) : Keeps p (x >>= f) := by
  intro s
  have h1 := hx s
  rw [bind_run]
  cases hxs : x s with
  | mk r s1 =>
    rw [hxs] at h1
    cases r with
    | ok a => exact (hf a s1).trans h1
    | throw e => exact h1

theorem keeps_tryCatchJs {α γ : Type} (p : St → γ) (x : M α) (h : Thrown → M α)
    (hx : Keeps p x) (hh : ∀ e, Keeps p (h e)) : Keeps p (tryCatchJs x h) := by
  intro s
  have h1 := hx s
  rw [tryCatchJs_run]
  cases hxs : x s with
  | mk r s1 =>
    rw [hxs] at h1
    cases r with
    | ok a => exact h1
    | throw e => exact (hh e s1).trans h1

theorem keeps_callWorld {α γ : Type} (p : St → γ) (c : Call)
    (answer : List Call → Except Thrown α) (h : ∀ (s : St) l, p { s with log := l } = p s) :
    Keeps p (callWorld c answer) := by
  intro s
  rw [callWorld_run]
  cases answer (s.log ++ [c]) <;> exact h s _

theorem keeps_ite {α γ : Type} (p : St → γ) (c : Prop) [Decidable c] (x y : M α)
    (hx : Keeps p x) (hy : Keeps p y) : Keeps p (if c then x else y) := by
  split_ifs
  · exact hx
  · exact hy

theorem emits_pure {α : Type} (Q : Call → Prop) (a : α) : Emits Q (pure a : M α) :=
  fun _ => ⟨[], by simp, by simp⟩

theorem emits_throw {α : Type} (Q : Call → Prop) (e : Thrown) : Emits Q (throwJs e : M α) :=
  fun _ => ⟨[], by simp, by simp⟩

theorem emits_getSt (Q : Call → Prop) : Emits Q getSt :=
  fun _ => ⟨[], by simp, by simp⟩

theorem emits_modifySt (Q : Call → Prop) (f : St → St) (h : ∀ s, (f s).log = s.log) :
    Emits Q (modifySt f) :=
  fun s => ⟨[], by simp [h s], by simp⟩

theorem emits_bind {α β : Type} (Q : Call → Prop) (x : M α) (f : α → M β)
    (hx : Emits Q x) (hf : ∀ a, Emits Q (f a)) : Emits Q (x >>= f) := by
  intro s
  obtain ⟨l1, h1, q1⟩ := hx s
  rw [bind_run]
  cases hxs : x s with
  | mk r s1 =>
    rw [hxs] at h1
    cases r with
    | ok a =>
      obtain ⟨l2, h2, q2⟩ := hf a s1
      refine ⟨l1 ++ l2, ?_, ?_⟩
      · simp only at h1 ⊢
        rw [h2, h1, List.append_assoc]
      · intro c hc
        rcases List.mem_append.mp hc with hc | hc
        · exact q1 c hc
        · exact q2 c hc
    | throw e => exact ⟨l1, h1, q1⟩

theorem emits_tryCatchJs {α : Type} (Q : Call → Prop) (x : M α) (h : Thrown → M α)
    (hx : Emits Q x) (hh : ∀ e, Emits Q (h e)) : Emits Q (tryCatchJs x h) := by
  intro s
  obtain ⟨l1, h1, q1⟩ := hx s
  rw [tryCatchJs_run]
  cases hxs : x s with
  | mk r s1 =>
    rw [hxs] at h1
    cases r with
    | ok a => exact ⟨l1, h1, q1⟩
    | throw e =>
      obtain ⟨l2, h2, q2⟩ := hh e s1
      refine ⟨l1 ++ l2, ?_, ?_⟩
      · simp only at h1 ⊢
        rw [h2, h1, List.append_assoc]
      · intro c hc
        rcases List.mem_append.mp hc with hc | hc
        · exact q1 c hc
        · exact q2 c hc

theorem emits_callWorld {α : Type} (Q : Call → Prop) (c : Call)
    (answer : List Call → Except Thrown α) (h : Q c) : Emits Q (callWorld c answer) := by
  intro s
  rw [callWorld_run]
  refine ⟨[c], ?_, ?_⟩
  · cases answer (s.log ++ [c]) <;> rfl
  · intro d hd
    rw [List.mem_singleton] at hd
    rw [hd]
    exact h

theorem emits_ite {α : Type} (Q : Call → Prop) (c : Prop) [Decidable c] (x y : M α)
    (hx : Emits Q x) (hy : Emits Q y) : Emits Q (if c then x else y) := by
  split_ifs
  · exact hx
  · exact hy

theorem emits_mono {α : Type} (Q R : Call → Prop) (x : M α) (h : ∀ c, Q c → R c)
    (hx : Emits Q x) : Emits R x := by
  intro s
  obtain ⟨l, hl, q⟩ := hx s
  exact ⟨l, hl, fun c hc => h c (q c hc)⟩

/-- The calls made by a function that only appends to the log. -/
theorem callsSince_of_log (s s1 : St) (l : List Call) (h : s1.log = s.log ++ l) :
    callsSince s s1 = l := by
  simp [callsSince, h]

/-! ## The availability tracker and the Session lifecycle -/

/-- A refresh never throws: it returns the snapshot it stores, it makes at most
the one availability query, and it touches nothing else. -/
theorem refresh_spec (W : World) (s : St) :
    ∃ a l, refreshAvailability W s = (.ok a, { s with avail := a, log := s.log ++ l }) ∧
      a.status = a.languageModel ∧ (l = [] ∨ l = [Call.availability]) := by
  by_cases h : W.hasLanguageModel = false ∨ W.hasAvailability = false
  · refine ⟨{ status := .unavailable, languageModel := .unavailable, writer := .unknown,
              rewriter := .unknown, raw := none }, [], ?_, rfl, Or.inl rfl⟩
    rcases h with h | h <;> simp [refreshAvailability, h]
  · push_neg at h
    simp only [ne_eq, Bool.not_eq_false] at h
    cases ha : W.availability (s.log ++ [Call.availability]) with
    | ok v =>
      refine ⟨{ status := _normalizeStatus v, languageModel := _normalizeStatus v,
                writer := .unknown, rewriter := .unknown, raw := some v },
        [Call.availability], ?_, rfl, Or.inr rfl⟩
      simp [refreshAvailability, h.1, h.2, tryCatchJs_run, callWorld_run, ha]
    | error e =>
      refine ⟨{ status := _normalizeStatus (.str "unavailable"),
                languageModel := _normalizeStatus (.str "unavailable"),
                writer := .unknown, rewriter := .unknown, raw := some (.str "unavailable") },
        [Call.availability], ?_, rfl, Or.inr rfl⟩
      simp [refreshAvailability, h.1, h.2, tryCatchJs_run, callWorld_run, ha]

/-- The result of a refresh is `ok`. -/
theorem refresh_fst (W : World) (s : St) :
    (refreshAvailability W s).1 = .ok (refreshAvailability W s).2.avail := by
  obtain ⟨a, l, h, -, -⟩ := refresh_spec W s
  rw [h]

theorem refresh_keeps (W : World) :
    Keeps (fun s => (s.session, s.sent, s.warmupComplete, s.warmupAttempts, s.lang, s.topK,
      s.temperature)) (refreshAvailability W) := by
  intro s
  obtain ⟨a, l, h, -, -⟩ := refresh_spec W s
  rw [h]

theorem refresh_emits (W : World) :
    Emits (fun c => c = Call.availability) (refreshAvailability W) := by
  intro s
  obtain ⟨a, l, h, -, hl⟩ := refresh_spec W s
  refine ⟨l, by rw [h], ?_⟩
  rcases hl with hl | hl <;> simp [hl]

theorem readDeviceDefaults_fst (W : World) (s : St) : (readDeviceDefaults W s).1 = .ok () := by
  simp only [readDeviceDefaults, tryCatchJs_run]
  split
  · rfl
  · rfl

theorem readDeviceDefaults_keeps (W : World) :
    Keeps (fun s => (s.session, s.avail, s.sent, s.warmupComplete, s.warmupAttempts, s.lang))
      (readDeviceDefaults W) := by
  unfold readDeviceDefaults
  repeat (first
    | exact keeps_pure _ _ | exact keeps_throw _ _ | exact keeps_getSt _
    | exact keeps_modifySt _ _ (fun _ => rfl)
    | exact keeps_callWorld _ _ _ (fun _ _ => rfl)
    | refine keeps_bind _ _ _ ?_ (fun _ => ?_)
    | refine keeps_tryCatchJs _ _ _ ?_ (fun _ => ?_)
    | refine keeps_ite _ _ _ _ ?_ ?_
    | split)

theorem readDeviceDefaults_emits (W : World) :
    Emits (fun c => c = Call.params) (readDeviceDefaults W) := by
  unfold readDeviceDefaults
  repeat (first
    | exact emits_pure _ _ | exact emits_throw _ _ | exact emits_getSt _
    | exact emits_modifySt _ _ (fun _ => rfl)
    | exact emits_callWorld _ _ _ rfl
    | refine emits_bind _ _ _ ?_ (fun _ => ?_)
    | refine emits_tryCatchJs _ _ _ ?_ (fun _ => ?_)
    | refine emits_ite _ _ _ _ ?_ ?_
    | split)

/-- With a Session in place `_ensureSession` returns it and does nothing else. -/
theorem ensureSession_some (W : World) (s : St) (sess : Session) (h : s.session = some sess) :
    _ensureSession W s = (.ok sess, s) := by
  simp [_ensureSession, h]

/-- Without a Session and without `LanguageModel.create`, `_ensureSession`
throws and does nothing else. -/
theorem ensureSession_no_create (W : World) (s : St) (h : s.session = none)
    (hc : W.hasLanguageModel = false ∨ W.hasCreate = false) :
    _ensureSession W s = (.throw (mkError
      "Prompt API not found. Ensure Chrome 128 or newer with Built-in AI enabled."), s) := by
  rcases hc with hc | hc <;> simp [_ensureSession, h, hc]

/-- Without a Session and with `LanguageModel.create`, `_ensureSession` reads
the device defaults and calls `create`; the Session is stored when `create`
resolves, and the error of `create` is thrown otherwise. -/
theorem ensureSession_create (W : World) (s : St) (h : s.session = none)
    (hl : W.hasLanguageModel = true) (hc : W.hasCreate = true) :
    _ensureSession W s =
      match W.create ((readDeviceDefaults W s).2.log ++
          [Call.create systemPrompt (readDeviceDefaults W s).2.topK (readDeviceDefaults W s).2.temperature]) with
      | .ok _ =>
        (.ok { id := (readDeviceDefaults W s).2.log.length,
               topK := (readDeviceDefaults W s).2.topK,
               temperature := (readDeviceDefaults W s).2.temperature },
         { (readDeviceDefaults W s).2 with
           log := (readDeviceDefaults W s).2.log ++
             [Call.create systemPrompt (readDeviceDefaults W s).2.topK (readDeviceDefaults W s).2.temperature],
           session := some { id := (readDeviceDefaults W s).2.log.length,
                             topK := (readDeviceDefaults W s).2.topK,
                             temperature := (readDeviceDefaults W s).2.temperature } })
      | .error e =>
        (.throw e,
         { (readDeviceDefaults W s).2 with
           log := (readDeviceDefaults W s).2.log ++
             [Call.create systemPrompt (readDeviceDefaults W s).2.topK
               (readDeviceDefaults W s).2.temperature] }) := by
  have h1 := readDeviceDefaults_fst W s
  cases hr : readDeviceDefaults W s with
  | mk r s1 =>
    rw [hr] at h1
    simp only at h1
    subst h1
    simp only [_ensureSession, bind_run, getSt_run, h, hl, hc, Bool.not_true, Bool.or_self,
      Bool.false_eq_true, if_false, hr, callWorld_run, modifySt_run, pure_run]
    cases W.create (s1.log ++ [Call.create systemPrompt s1.topK s1.temperature]) <;> rfl

theorem ensureSession_keeps (W : World) :
    Keeps (fun s => (s.avail, s.sent, s.warmupComplete, s.warmupAttempts, s.lang))
      (_ensureSession W) := by
  unfold _ensureSession readDeviceDefaults
  repeat (first
    | exact keeps_pure _ _ | exact keeps_throw _ _ | exact keeps_getSt _
    | exact keeps_modifySt _ _ (fun _ => rfl)
    | exact keeps_callWorld _ _ _ (fun _ _ => rfl)
    | refine keeps_bind _ _ _ ?_ (fun _ => ?_)
    | refine keeps_tryCatchJs _ _ _ ?_ (fun _ => ?_)
    | refine keeps_ite _ _ _ _ ?_ ?_
    | split)

theorem ensureSession_emits (W : World) :
    Emits (fun c => c.isPrompt = false) (_ensureSession W) := by
  unfold _ensureSession readDeviceDefaults
  repeat (first
    | exact emits_pure _ _ | exact emits_throw _ _ | exact emits_getSt _
    | exact emits_modifySt _ _ (fun _ => rfl)
    | exact emits_callWorld _ _ _ rfl
    | refine emits_bind _ _ _ ?_ (fun _ => ?_)
    | refine emits_tryCatchJs _ _ _ ?_ (fun _ => ?_)
    | refine emits_ite _ _ _ _ ?_ ?_
    | split)

/-- Either `_ensureSession` returns the Session that is stored afterwards, or it
throws, and then there was no Session and there is none afterwards. -/
theorem ensureSession_outcome (W : World) (s : St) :
    (∃ sess, (_ensureSession W s).1 = .ok sess ∧ (_ensureSession W s).2.session = some sess) ∨
    (∃ e, (_ensureSession W s).1 = .throw e ∧ (_ensureSession W s).2.session = none ∧
      s.session = none) := by
  cases hs : s.session with
  | some sess =>
    left
    rw [ensureSession_some W s sess hs]
    exact ⟨sess, rfl, hs⟩
  | none =>
    by_cases hc : W.hasLanguageModel = false ∨ W.hasCreate = false
    · right
      rw [ensureSession_no_create W s hs hc]
      exact ⟨_, rfl, hs, rfl⟩
    · push_neg at hc
      simp only [ne_eq, Bool.not_eq_false] at hc
      rw [ensureSession_create W s hs hc.1 hc.2]
      have hk := readDeviceDefaults_keeps W s
      simp only [Prod.mk.injEq] at hk
      cases W.create ((readDeviceDefaults W s).2.log ++
          [Call.create systemPrompt (readDeviceDefaults W s).2.topK (readDeviceDefaults W s).2.temperature]) with
      | ok u =>
        left
        exact ⟨_, rfl, rfl⟩
      | error e =>
        right
        refine ⟨e, rfl, ?_, rfl⟩
        simp only
        rw [hk.1, hs]

/-- When every `create` resolves, `_ensureSession` returns. -/
theorem ensureSession_ok_of_create (W : World) (s : St)
    (h : s.session.isSome = true ∨
      (W.hasLanguageModel = true ∧ W.hasCreate = true ∧ ∀ l, W.create l = .ok ())) :
    ∃ sess, (_ensureSession W s).1 = .ok sess := by
  cases hs : s.session with
  | some sess =>
    rw [ensureSession_some W s sess hs]
    exact ⟨sess, rfl⟩
  | none =>
    rcases h with h | ⟨hl, hc, hcr⟩
    · simp [hs] at h
    · rw [ensureSession_create W s hs hl hc, hcr]
      exact ⟨_, rfl⟩

/-- How `init` runs: the refresh, the two guards, then `_ensureSession`. -/
theorem init_run (W : World) (s : St) :
    init W s =
      if (refreshAvailability W s).2.avail.languageModel = .unavailable then
        (.throw (mkError "Language model is unavailable in this browser."),
          (refreshAvailability W s).2)
      else if (refreshAvailability W s).2.avail.languageModel = .downloadable then
        (.ok false, (refreshAvailability W s).2)
      else
        match _ensureSession W (refreshAvailability W s).2 with
        | (.ok _, s2) => (.ok true, s2)
        | (.throw e, s2) => (.throw e, s2) := by
  obtain ⟨a, l, h, -, -⟩ := refresh_spec W s
  simp only [init, bind_run, h, getSt_run, throwJs_run, pure_run]
  split_ifs
  · rfl
  · rfl
  · rw [bind_run]
    cases _ensureSession W { s with avail := a, log := s.log ++ l } with
    | mk r s2 => cases r <;> rfl

theorem init_keeps (W : World) :
    Keeps (fun s => (s.sent, s.warmupComplete, s.warmupAttempts, s.lang)) (init W) := by
  intro s
  have h1 := refresh_keeps W s
  have h2 := ensureSession_keeps W (refreshAvailability W s).2
  simp only [Prod.mk.injEq] at h1 h2 ⊢
  rw [init_run]
  split_ifs
  · exact ⟨h1.2.1, h1.2.2.1, h1.2.2.2.1, h1.2.2.2.2.1⟩
  · exact ⟨h1.2.1, h1.2.2.1, h1.2.2.2.1, h1.2.2.2.2.1⟩
  · cases he : _ensureSession W (refreshAvailability W s).2 with
    | mk r s2 =>
      rw [he] at h2
      cases r <;>
        exact ⟨h2.2.1.trans h1.2.1, h2.2.2.1.trans h1.2.2.1, h2.2.2.2.1.trans h1.2.2.2.1,
          h2.2.2.2.2.trans h1.2.2.2.2.1⟩

/-- The snapshot after `init` is the one its refresh computed. -/
theorem init_avail (W : World) (s : St) :
    (init W s).2.avail = (refreshAvailability W s).2.avail := by
  have h2 := ensureSession_keeps W (refreshAvailability W s).2
  simp only [Prod.mk.injEq] at h2
  rw [init_run]
  split_ifs
  · rfl
  · rfl
  · cases he : _ensureSession W (refreshAvailability W s).2 with
    | mk r s2 =>
      rw [he] at h2
      cases r <;> exact h2.1

theorem init_emits (W : World) : Emits (fun c => c.isPrompt = false) (init W) := by
  unfold init
  refine emits_bind _ _ _ ?_ (fun _ => ?_)
  · exact emits_mono _ _ _ (fun c hc => by rw [hc]; rfl) (refresh_emits W)
  · refine emits_bind _ _ _ (emits_getSt _) (fun _ => ?_)
    refine emits_ite _ _ _ _ (emits_throw _ _) ?_
    refine emits_ite _ _ _ _ (emits_pure _ _) ?_
    exact emits_bind _ _ _ (ensureSession_emits W) (fun _ => emits_pure _ _)

/-- The calls a refresh makes include no `create`. -/
theorem refresh_no_create (W : World) (s : St) :
    (callsSince s (refreshAvailability W s).2).any Call.isCreate = false := by
  obtain ⟨l, hl, hq⟩ := refresh_emits W s
  rw [callsSince_of_log s _ l hl]
  rw [List.any_eq_false]
  intro c hc
  rw [hq c hc]
  simp [Call.isCreate]

theorem refresh_status_eq (W : World) (s : St) :
    (refreshAvailability W s).2.avail.status =
      (refreshAvailability W s).2.avail.languageModel := by
  obtain ⟨a, l, h, ha, -⟩ := refresh_spec W s
  rw [h]
  exact ha

/-- When the refreshed status is `unavailable` or `downloadable`, `init` stops
right after the refresh. -/
theorem init_stops_after_refresh (W : World) (s : St)
    (h : (refreshAvailability W s).2.avail.languageModel = .unavailable ∨
      (refreshAvailability W s).2.avail.languageModel = .downloadable) :
    (init W s).2 = (refreshAvailability W s).2 := by
  rw [init_run]
  rcases h with h | h <;> simp [h]

theorem keeps_comp {α β γ : Type} (p : St → β) (g : β → γ) (x : M α) (h : Keeps p x) :
    Keeps (fun s => g (p s)) x :=
  fun s => congrArg g (h s)

theorem refresh_keeps_outer (W : World) : Keeps outer (refreshAvailability W) :=
  keeps_comp _ (fun t => (t.2.1, t.2.2.1, t.2.2.2.1)) _ (refresh_keeps W)

theorem ensureSession_keeps_outer (W : World) : Keeps outer (_ensureSession W) :=
  keeps_comp _ (fun t => (t.2.1, t.2.2.1, t.2.2.2.1)) _ (ensureSession_keeps W)

theorem ensureSession_keeps_avail (W : World) : Keeps St.avail (_ensureSession W) :=
  keeps_comp _ (fun t => t.1) _ (ensureSession_keeps W)

theorem init_keeps_outer (W : World) : Keeps outer (init W) :=
  keeps_comp _ (fun t => (t.1, t.2.1, t.2.2.1)) _ (init_keeps W)

theorem prompt_keeps_outer (W : World) (text : String) (params : PromptParams) :
    Keeps outer (_prompt W text params) := by
  unfold _prompt checkOutput
  repeat (first
    | exact keeps_pure _ _ | exact keeps_throw _ _ | exact keeps_getSt _
    | exact ensureSession_keeps_outer W
    | exact keeps_modifySt _ _ (fun _ => rfl)
    | exact keeps_callWorld _ _ _ (fun _ _ => rfl)
    | refine keeps_bind _ _ _ ?_ (fun _ => ?_)
    | refine keeps_tryCatchJs _ _ _ ?_ (fun _ => ?_)
    | refine keeps_ite _ _ _ _ ?_ ?_
    | split)

theorem prompt_keeps_avail (W : World) (text : String) (params : PromptParams) :
    Keeps St.avail (_prompt W text params) := by
  unfold _prompt checkOutput
  repeat (first
    | exact keeps_pure _ _ | exact keeps_throw _ _ | exact keeps_getSt _
    | exact ensureSession_keeps_avail W
    | exact keeps_modifySt _ _ (fun _ => rfl)
    | exact keeps_callWorld _ _ _ (fun _ _ => rfl)
    | refine keeps_bind _ _ _ ?_ (fun _ => ?_)
    | refine keeps_tryCatchJs _ _ _ ?_ (fun _ => ?_)
    | refine keeps_ite _ _ _ _ ?_ ?_
    | split)

theorem throwIfDownloading_keeps {β : Type} (p : St → β) : Keeps p throwIfDownloading := by
  unfold throwIfDownloading
  refine keeps_bind _ _ _ (keeps_getSt _) (fun _ => ?_)
  exact keeps_ite _ _ _ _ (keeps_throw _ _) (keeps_pure _ _)

theorem taskBody_keeps_outer (W : World) (prompt : String) (params : PromptParams) :
    Keeps outer (taskBody W prompt params) := by
  unfold taskBody
  refine keeps_bind _ _ _ (throwIfDownloading_keeps _) (fun _ => ?_)
  refine keeps_bind _ _ _ (init_keeps_outer W) (fun _ => ?_)
  exact prompt_keeps_outer W prompt params

theorem rewrite_eq (W : World) (text mode : Option String) :
    rewrite W text mode =
      if isMissingOrBlank text then throwJs (mkError "No text provided for rewrite.")
      else taskBody W (_rewritePrompt (some (mode.getD "formal")) (text.getD "")) noParams :=
  rfl

theorem shorten_eq (W : World) (text : Option String) :
    shorten W text =
      if isMissingOrBlank text then throwJs (mkError "No text provided for shorten.")
      else taskBody W (_shortenPrompt (text.getD "")) noParams :=
  rfl

theorem expand_eq (W : World) (text : Option String) :
    expand W text =
      if isMissingOrBlank text then throwJs (mkError "No text provided for expand.")
      else taskBody W (_expandPrompt (text.getD "")) noParams :=
  rfl

theorem proofread_eq (W : World) (text : Option String) :
    proofread W text =
      if isMissingOrBlank text then throwJs (mkError "No text provided for proofread.")
      else taskBody W (_proofreadPrompt (text.getD ""))
        { topK := some 3, temperature := some (3 / 10) } :=
  rfl

theorem write_eq (W : World) (instruction context : Option String) :
    write W instruction context =
      if isMissingOrBlank instruction then
        throwJs (mkError "No instruction provided for write.")
      else taskBody W (_writePrompt (instruction.getD "") (context.getD "")) noParams :=
  rfl

theorem rewrite_keeps_outer (W : World) (text mode : Option String) :
    Keeps outer (rewrite W text mode) := by
  rw [rewrite_eq]
  exact keeps_ite _ _ _ _ (keeps_throw _ _) (taskBody_keeps_outer W _ _)

theorem shorten_keeps_outer (W : World) (text : Option String) :
    Keeps outer (shorten W text) := by
  rw [shorten_eq]
  exact keeps_ite _ _ _ _ (keeps_throw _ _) (taskBody_keeps_outer W _ _)

theorem expand_keeps_outer (W : World) (text : Option String) :
    Keeps outer (expand W text) := by
  rw [expand_eq]
  exact keeps_ite _ _ _ _ (keeps_throw _ _) (taskBody_keeps_outer W _ _)

theorem proofread_keeps_outer (W : World) (text : Option String) :
    Keeps outer (proofread W text) := by
  rw [proofread_eq]
  exact keeps_ite _ _ _ _ (keeps_throw _ _) (taskBody_keeps_outer W _ _)

theorem write_keeps_outer (W : World) (instruction context : Option String) :
    Keeps outer (write W instruction context) := by
  rw [write_eq]
  exact keeps_ite _ _ _ _ (keeps_throw _ _) (taskBody_keeps_outer W _ _)

/-- The guard holds for what every public operation does after its input check. -/
theorem taskBody_promptGuard (W : World) (s : St) (prompt : String) (params : PromptParams) :
    PromptGuard W s (taskBody W prompt params) := by
  intro h
  by_cases hd : s.avail.languageModel = .downloadable
  · have : taskBody W prompt params s = (.throw (mkError
        "Local model is still downloading. Please try again shortly."), s) := by
      simp [taskBody, throwIfDownloading, hd]
    rw [this] at h
    simp [callsSince] at h
  · have hrun : taskBody W prompt params s =
        match init W s with
        | (.ok _, s1) => _prompt W prompt params s1
        | (.throw e, s1) => (.throw e, s1) := by
      simp only [taskBody, throwIfDownloading, bind_run, getSt_run, hd, if_false, pure_run]
      cases init W s with
      | mk r s1 => cases r <;> rfl
    cases hi : init W s with
    | mk r s1 =>
      rw [hi] at hrun
      have hav := init_avail W s
      rw [hi] at hav
      simp only at hav
      cases r with
      | throw e =>
        simp only at hrun
        rw [hrun] at h
        obtain ⟨l, hl, hq⟩ := init_emits W s
        rw [hi] at hl
        rw [callsSince_of_log s s1 l hl] at h
        obtain ⟨c, hc, hp⟩ := List.any_eq_true.mp h
        rw [hq c hc] at hp
        exact absurd hp Bool.false_ne_true
      | ok b =>
        simp only at hrun
        have hu : (refreshAvailability W s).2.avail.languageModel ≠ .unavailable := by
          intro hu
          have := init_run W s
          rw [hi] at this
          simp [hu] at this
        have hk := prompt_keeps_avail W prompt params s1
        rw [hrun]
        refine ⟨hd, hk.trans hav, ?_⟩
        rw [hk, hav, refresh_status_eq]
        exact hu

/-! ## The service worker keeps what it has sent until it answers -/

theorem sent_of_outer {α : Type} (x : M α) (h : Keeps outer x) : Keeps St.sent x :=
  keeps_comp outer (fun t => t.1) x h

theorem applyPreferredLanguage_keeps_sent (W : World) :
    Keeps St.sent (applyPreferredLanguage W) := by
  unfold applyPreferredLanguage setLanguage
  repeat (first
    | exact keeps_pure _ _ | exact keeps_throw _ _ | exact keeps_getSt _
    | exact keeps_modifySt _ _ (fun _ => rfl)
    | exact keeps_callWorld _ _ _ (fun _ _ => rfl)
    | refine keeps_bind _ _ _ ?_ (fun _ => ?_)
    | refine keeps_tryCatchJs _ _ _ ?_ (fun _ => ?_)
    | refine keeps_ite _ _ _ _ ?_ ?_
    | split)

theorem warmupModels_keeps_sent (W : World) : Keeps St.sent (warmupModels W) := by
  unfold warmupModels
  repeat (first
    | exact keeps_pure _ _ | exact keeps_throw _ _ | exact keeps_getSt _
    | exact applyPreferredLanguage_keeps_sent W
    | exact sent_of_outer _ (init_keeps_outer W)
    | exact sent_of_outer _ (rewrite_keeps_outer W _ _)
    | exact keeps_modifySt _ _ (fun _ => rfl)
    | exact keeps_callWorld _ _ _ (fun _ _ => rfl)
    | refine keeps_bind _ _ _ ?_ (fun _ => ?_)
    | refine keeps_tryCatchJs _ _ _ ?_ (fun _ => ?_)
    | refine keeps_ite _ _ _ _ ?_ ?_
    | split)

/-- A `try` whose `catch` block always returns, returns. -/
theorem tryCatchJs_total {α : Type} (x : M α) (h : Thrown → M α) (s : St)
    (hh : ∀ e s1, ∃ a, (h e s1).1 = .ok a) : ∃ a, (tryCatchJs x h s).1 = .ok a := by
  rw [tryCatchJs_run]
  cases hx : x s with
  | mk r s1 =>
    cases r with
    | ok a => exact ⟨a, rfl⟩
    | throw e => exact hh e s1

/-- A warmup cycle never throws: it returns true or false. -/
theorem warmupModels_fst (W : World) (s : St) : ∃ b, (warmupModels W s).1 = .ok b := by
  simp only [warmupModels, bind_run, getSt_run, pure_run]
  split_ifs
  · exact ⟨true, rfl⟩
  · exact ⟨false, rfl⟩
  · apply tryCatchJs_total
    intro e s1
    simp only [bind_run, modifySt_run, pure_run]
    split_ifs <;> exact ⟨false, rfl⟩

theorem dispatch_keeps_sent (W : World) (action : String) (data : Data) :
    Keeps St.sent (dispatch W action data) := by
  unfold dispatch
  refine keeps_ite _ _ _ _ ?_ ?_
  · refine keeps_ite _ _ _ _ (keeps_throw _ _) ?_
    exact keeps_bind _ _ _ (sent_of_outer _ (rewrite_keeps_outer W _ _))
      (fun _ => keeps_pure _ _)
  refine keeps_ite _ _ _ _ ?_ ?_
  · refine keeps_ite _ _ _ _ (keeps_throw _ _) ?_
    exact keeps_bind _ _ _ (sent_of_outer _ (shorten_keeps_outer W _))
      (fun _ => keeps_pure _ _)
  refine keeps_ite _ _ _ _ ?_ ?_
  · refine keeps_ite _ _ _ _ (keeps_throw _ _) ?_
    exact keeps_bind _ _ _ (sent_of_outer _ (expand_keeps_outer W _))
      (fun _ => keeps_pure _ _)
  refine keeps_ite _ _ _ _ ?_ ?_
  · refine keeps_ite _ _ _ _ (keeps_throw _ _) ?_
    exact keeps_bind _ _ _ (sent_of_outer _ (proofread_keeps_outer W _))
      (fun _ => keeps_pure _ _)
  refine keeps_ite _ _ _ _ ?_ ?_
  · refine keeps_ite _ _ _ _ (keeps_throw _ _) ?_
    exact keeps_bind _ _ _ (sent_of_outer _ (write_keeps_outer W _ _))
      (fun _ => keeps_pure _ _)
  refine keeps_ite _ _ _ _ ?_ ?_
  · refine keeps_ite _ _ _ _ (keeps_throw _ _) ?_
    exact keeps_bind _ _ _ (sent_of_outer _ (write_keeps_outer W _ _))
      (fun _ => keeps_pure _ _)
  refine keeps_ite _ _ _ _ ?_ ?_
  · exact keeps_bind _ _ _ (keeps_bind _ _ _ (keeps_getSt _) (fun _ => keeps_pure _ _))
      (fun _ => keeps_pure _ _)
  refine keeps_ite _ _ _ _ ?_ (keeps_throw _ _)
  exact keeps_bind _ _ _ (warmupModels_keeps_sent W) (fun _ => keeps_pure _ _)

/-- The handler when the inline warmup cycle returns false. -/
theorem handler_failfast (W : World) (r : Request) (s s1 : St) (hf : falsy r.action = false)
    (hc : s.warmupComplete = false) (hw : warmupModels W s = (.ok false, s1)) :
    handler W (some r) s =
      (.ok (), { s1 with sent := s1.sent ++ [failure unavailableMessage] }) := by
  simp [handler, tryCatchJs_run, hf, hc, hw, sendResponse]

/-- The handler when the worker is warm, or becomes warm in the inline cycle:
the refresh, the dispatch, and one response for what the dispatch did. -/
theorem handler_proceed (W : World) (r : Request) (s s1 : St) (hf : falsy r.action = false)
    (h1 : (s.warmupComplete = true ∧ s1 = s) ∨
      (s.warmupComplete = false ∧ warmupModels W s = (.ok true, s1))) :
    handler W (some r) s =
      match dispatch W (r.action.getD "") (r.data.getD emptyData)
          (refreshAvailability W s1).2 with
      | (.ok res, s2) => (.ok (), { s2 with sent := s2.sent ++ [success res] })
      | (.throw err, s2) => (.ok (), { s2 with sent := s2.sent ++ [failure (errMsg err)] }) := by
  obtain ⟨a, l, hr, -, -⟩ := refresh_spec W s1
  rcases h1 with ⟨hc, hs⟩ | ⟨hc, hw⟩
  · subst hs
    simp only [handler, tryCatchJs_run, hf, bind_run, getSt_run, hc, Bool.not_true,
      Bool.false_eq_true, if_false, pure_run, hr]
    generalize dispatch W (r.action.getD "") (r.data.getD emptyData) _ = d
    rcases d with ⟨res | err, s2⟩ <;> rfl
  · simp only [handler, tryCatchJs_run, hf, bind_run, getSt_run, hc, Bool.not_false,
      if_true, pure_run, hw, Bool.not_true, Bool.false_eq_true, if_false, hr]
    generalize dispatch W (r.action.getD "") (r.data.getD emptyData) _ = d
    rcases d with ⟨res | err, s2⟩ <;> rfl

/-- What the handler sends once it gets to the dispatch. -/
theorem handler_proceed_answer (W : World) (r : Request) (s s1 : St)
    (hf : falsy r.action = false)
    (h1 : (s.warmupComplete = true ∧ s1 = s) ∨
      (s.warmupComplete = false ∧ warmupModels W s = (.ok true, s1))) :
    (handler W (some r) s).1 = .ok () ∧
    ∃ e, (handler W (some r) s).2.sent = s.sent ++ [e] ∧
      ((e.success = false ∧ e.result = none ∧ e.error.isSome = true) ∨
        (e.success = true ∧ e.result.isSome = true ∧ e.error = none)) ∧
      (∀ err, (dispatch W (r.action.getD "") (r.data.getD emptyData)
          (refreshAvailability W s1).2).1 = .throw err → e = failure (errMsg err)) ∧
      (∀ res, (dispatch W (r.action.getD "") (r.data.getD emptyData)
          (refreshAvailability W s1).2).1 = .ok res → e = success res) := by
  have hsent : s1.sent = s.sent := by
    rcases h1 with ⟨-, hs⟩ | ⟨-, hw⟩
    · rw [hs]
    · have := warmupModels_keeps_sent W s
      rw [hw] at this
      exact this
  have hk1 : (refreshAvailability W s1).2.sent = s1.sent :=
    sent_of_outer _ (refresh_keeps_outer W) s1
  have hk2 := dispatch_keeps_sent W (r.action.getD "") (r.data.getD emptyData)
    (refreshAvailability W s1).2
  rw [handler_proceed W r s s1 hf h1]
  cases hd : dispatch W (r.action.getD "") (r.data.getD emptyData)
      (refreshAvailability W s1).2 with
  | mk res s2 =>
    rw [hd] at hk2
    simp only at hk2
    cases res with
    | ok v =>
      refine ⟨rfl, success v, ?_, Or.inr ⟨rfl, rfl, rfl⟩, ?_, ?_⟩
      · simp only
        rw [hk2, hk1, hsent]
      · intro err he
        simp at he
      · intro res he
        simp only [Res.ok.injEq] at he
        rw [he]
    | throw err =>
      refine ⟨rfl, failure (errMsg err), ?_, Or.inl ⟨rfl, rfl, rfl⟩, ?_, ?_⟩
      · simp only
        rw [hk2, hk1, hsent]
      · intro err2 he
        simp only [Res.throw.injEq] at he
        rw [he]
      · intro res he
        simp at he

/-! ## The prompts that are built are never blank -/

theorem intercalate_go_data_head (sep : String) (rest : List String) (acc : String) :
    ∃ tl, (String.intercalate.go acc sep rest).data = acc.data ++ tl := by
  induction rest generalizing acc with
  | nil => exact ⟨[], by simp [String.intercalate.go]⟩
  | cons a as ih =>
    obtain ⟨tl, h⟩ := ih (acc ++ sep ++ a)
    refine ⟨sep.data ++ a.data ++ tl, ?_⟩
    simp only [String.intercalate.go, h, String.data_append, List.append_assoc]

theorem intercalate_go_data_last (sep : String) (rest : List String) (acc b : String) :
    ∃ it, (String.intercalate.go acc sep (rest ++ [b])).data = it ++ b.data := by
  induction rest generalizing acc with
  | nil => exact ⟨acc.data ++ sep.data, by simp [String.intercalate.go]⟩
  | cons a as ih =>
    obtain ⟨it, h⟩ := ih (acc ++ sep ++ a)
    exact ⟨it, by simpa [String.intercalate.go] using h⟩

/-- A string that starts and ends with a character that is not white space is not blank. -/
theorem isBlank_false_of_ends (s : String) (c d : Char) (pre post : List Char)
    (h1 : s.data = c :: pre) (h2 : s.data = post ++ [d])
    (hc : isJsWhitespace c = false) (hd : isJsWhitespace d = false) : isBlank s = false := by
  have e1 : s.data.dropWhile isJsWhitespace = s.data := by
    rw [h1]
    simp [List.dropWhile, hc]
  have e2 : s.data.reverse.dropWhile isJsWhitespace = s.data.reverse := by
    rw [h2]
    simp [List.dropWhile, hd]
  have e3 : jsTrim s = s := by
    simp only [jsTrim, e1, e2, List.reverse_reverse]
  have e4 : s ≠ "" := by
    intro h
    rw [h] at h1
    simp at h1
  simp [isBlank, e3, e4]

/-- Lines joined by line feeds are not blank when the first line starts and the
last line ends with a character that is not white space. -/
theorem isBlank_joinLines (a b : String) (mid : List String) (c d : Char) (pre post : List Char)
    (ha : a.data = c :: pre) (hb : b.data = post ++ [d])
    (hc : isJsWhitespace c = false) (hd : isJsWhitespace d = false) :
    isBlank (joinLines (a :: (mid ++ [b]))) = false := by
  obtain ⟨tl, h1⟩ := intercalate_go_data_head "\n" (mid ++ [b]) a
  obtain ⟨it, h2⟩ := intercalate_go_data_last "\n" mid a b
  refine isBlank_false_of_ends _ c d (pre ++ tl) (it ++ post) ?_ ?_ hc hd
  · simp only [joinLines, String.intercalate, h1, ha, List.cons_append]
  · simp only [joinLines, String.intercalate, h2, hb, List.append_assoc]

theorem rewritePrompt_not_blank (mode : Option String) (text : String) :
    isBlank (_rewritePrompt mode text) = false := by
  simp only [_rewritePrompt]
  split_ifs
  · exact isBlank_joinLines _ ">>>" [_, _, _, _] 'R' '>' _ ['>', '>'] rfl rfl (by decide) (by decide)
  · exact isBlank_joinLines _ ">>>" [_, _, _, _] 'R' '>' _ ['>', '>'] rfl rfl (by decide) (by decide)
  · exact isBlank_joinLines _ ">>>" [_, _, _, _] 'F' '>' _ ['>', '>'] rfl rfl (by decide) (by decide)
  · exact isBlank_joinLines _ ">>>" [_, _, _] 'R' '>' _ ['>', '>'] rfl rfl (by decide) (by decide)

theorem shortenPrompt_not_blank (text : String) : isBlank (_shortenPrompt text) = false :=
  isBlank_joinLines _ ">>>" [_, _, _, _] 'S' '>' _ ['>', '>'] rfl rfl (by decide) (by decide)

theorem expandPrompt_not_blank (text : String) : isBlank (_expandPrompt text) = false :=
  isBlank_joinLines _ ">>>" [_, _, _, _] 'E' '>' _ ['>', '>'] rfl rfl (by decide) (by decide)

theorem proofreadPrompt_not_blank (text : String) : isBlank (_proofreadPrompt text) = false :=
  isBlank_joinLines _ ">>>" [_, _, _, _] 'P' '>' _ ['>', '>'] rfl rfl (by decide) (by decide)

theorem writePrompt_not_blank (instruction context : String) :
    isBlank (_writePrompt instruction context) = false := by
  simp only [_writePrompt]
  split_ifs
  · exact isBlank_joinLines _ ">>>" [_, _, _, _, _, _, _, _] 'F' '>' _ ['>', '>'] rfl rfl
      (by decide) (by decide)
  · exact isBlank_joinLines _ ">>>" [_, _, _, _] 'F' '>' _ ['>', '>'] rfl rfl
      (by decide) (by decide)

/-! ## Status normalisation -/

/-- C10, as the claim states it, fails: the raw string `"AVAILABLE"` is not the
string `"available"`, and `_normalizeStatus` maps it to `available`. -/
theorem normalizeStatus_uppercase_available :
    _normalizeStatus (.str "AVAILABLE") = .available ∧
      JsVal.str "AVAILABLE" ≠ JsVal.str "available" := by
  decide

/-- C10 (amended): `_normalizeStatus` is the four-way mapping on the raw value
converted to a string (a falsy value becoming the empty string) and lower-cased:
`available` iff that string is "available", `downloadable` iff it is
"after-download" or "downloadable", `unavailable` iff it is "unavailable" or
"blocked", and `unknown` for every other value, among them `null`, `undefined`
and the empty string; the five lower-case literals map as listed. -/
theorem normalizeStatus_four_way (raw : JsVal) :
    (_normalizeStatus raw = .available ↔ normalizedKey raw = "available") ∧
    (_normalizeStatus raw = .downloadable ↔
      (normalizedKey raw = "after-download" ∨ normalizedKey raw = "downloadable")) ∧
    (_normalizeStatus raw = .unavailable ↔
      (normalizedKey raw = "unavailable" ∨ normalizedKey raw = "blocked")) ∧
    (_normalizeStatus raw = .unknown ↔
      (normalizedKey raw ≠ "available" ∧ normalizedKey raw ≠ "after-download" ∧
        normalizedKey raw ≠ "downloadable" ∧ normalizedKey raw ≠ "unavailable" ∧
        normalizedKey raw ≠ "blocked")) ∧
    _normalizeStatus .null = .unknown ∧ _normalizeStatus .undefined = .unknown ∧
    _normalizeStatus (.str "") = .unknown ∧
    _normalizeStatus (.str "available") = .available ∧
    _normalizeStatus (.str "after-download") = .downloadable ∧
    _normalizeStatus (.str "downloadable") = .downloadable ∧
    _normalizeStatus (.str "unavailable") = .unavailable ∧
    _normalizeStatus (.str "blocked") = .unavailable := by
  have key : _normalizeStatus raw =
      (if normalizedKey raw = "available" then Status.available
       else if normalizedKey raw = "after-download" ∨ normalizedKey raw = "downloadable"
         then Status.downloadable
       else if normalizedKey raw = "unavailable" ∨ normalizedKey raw = "blocked"
         then Status.unavailable
       else Status.unknown) := by
    simp [_normalizeStatus, normalizedKey]
  refine ⟨?_, ?_, ?_, ?_, by decide, by decide, by decide, by decide, by decide, by decide,
    by decide, by decide⟩
  · rw [key]
    split_ifs <;> simp_all
  · rw [key]
    split_ifs with h1 h2 h3
    · simp [h1]
    · simp [h2]
    · simp only [false_iff]
      exact h2
    · simp only [false_iff]
      exact h2
  · rw [key]
    split_ifs with h1 h2 h3
    · simp [h1]
    · rcases h2 with h2 | h2 <;> simp [h2]
    · simp [h3]
    · simp only [false_iff]
      exact h3
  · rw [key]
    split_ifs with h1 h2 h3
    · simp [h1]
    · rcases h2 with h2 | h2 <;> simp [h2]
    · rcases h3 with h3 | h3 <;> simp [h3]
    · simp only [true_iff]
      push_neg at h2 h3
      exact ⟨h1, h2.1, h2.2, h3.1, h3.2⟩

/-! ## Input validation in the engine -/

/-- C6: each of the five public operations, given a primary text (the
instruction for `write`) that is missing, empty or whitespace-only, throws its
own InputInvalid error and leaves the whole state as it was: nothing is added to
the log of provider calls (no availability query, no `create`, no prompt) and
the snapshot and the Session are unchanged. -/
theorem engine_rejects_blank_input (W : World) (s : St) (text : Option String)
    (h : isMissingOrBlank text = true) :
    (∀ mode, rewrite W text mode s = (.throw (mkError "No text provided for rewrite."), s)) ∧
    shorten W text s = (.throw (mkError "No text provided for shorten."), s) ∧
    expand W text s = (.throw (mkError "No text provided for expand."), s) ∧
    proofread W text s = (.throw (mkError "No text provided for proofread."), s) ∧
    (∀ context,
      write W text context s = (.throw (mkError "No instruction provided for write."), s)) := by
  refine ⟨fun mode => ?_, ?_, ?_, ?_, fun context => ?_⟩ <;>
    simp [rewrite, shorten, expand, proofread, write, h]

/-- Witness for C6 on a whitespace-only text (a tab, a space and a no-break
space) with a provider that would answer. -/
theorem engine_rejects_blank_input_witness :
    isMissingOrBlank (some "\t  ") = true ∧
    shorten (stubWorld (.str "available") (.ok (.str "x"))) (some "\t  ") coldState =
      (.throw (mkError "No text provided for shorten."), coldState) :=
  ⟨by decide,
    (engine_rejects_blank_input (stubWorld (.str "available") (.ok (.str "x"))) coldState
      (some "\t  ") (by decide)).2.1⟩

/-! ## Response handling in `_prompt` -/

/-- Running `_prompt` on a non-blank text once the Session is there: the
Session is prompted and the answer goes through `checkOutput`, a throw through
`remapPromptError`. -/
theorem prompt_run (W : World) (s s1 : St) (text : String) (params : PromptParams)
    (sess0 : Session) (ht : isBlank text = false) (hs : _ensureSession W s = (.ok sess0, s1)) :
    (_prompt W text params s).1 =
      match W.prompt (s1.log ++ [Call.prompt (applyParams W params sess0) text s1.lang]) with
      | .ok (.str o) =>
          if jsTrim o = "" then .throw (mkError "Empty response from the language model.")
          else .ok (jsTrim o)
      | .ok _ => .throw (mkError "Empty response from the language model.")
      | .error err => .throw (remapPromptError err) := by
  simp only [_prompt, ht, Bool.false_eq_true, if_false, bind_run, hs, modifySt_run,
    tryCatchJs_run, getSt_run, callWorld_run]
  cases hp : W.prompt (s1.log ++ [Call.prompt (applyParams W params sess0) text s1.lang]) with
  | error err => simp
  | ok v =>
    cases v with
    | str o =>
      by_cases ho : jsTrim o = ""
      · simp [checkOutput, ho]
        decide
      · simp [checkOutput, ho]
    | undefined => simp [checkOutput]; decide
    | null => simp [checkOutput]; decide
    | other t r => simp [checkOutput]; decide

/-- What `checkOutput` returns is a trimmed, non-empty string. -/
theorem checkOutput_ok_ne_empty (out : JsVal) (s s1 : St) (r : String)
    (h : checkOutput out s = (.ok r, s1)) : r ≠ "" := by
  cases out with
  | str o =>
    by_cases ho : jsTrim o = ""
    · simp [checkOutput, ho] at h
    · simp [checkOutput, ho] at h
      rw [← h.1]
      exact ho
  | undefined => simp [checkOutput] at h
  | null => simp [checkOutput] at h
  | other t r => simp [checkOutput] at h

/-- Whatever `_prompt` returns is a non-empty string. -/
theorem prompt_ok_ne_empty (W : World) (s : St) (text : String) (params : PromptParams)
    (r : String) (h : (_prompt W text params s).1 = .ok r) : r ≠ "" := by
  by_cases ht : isBlank text = true
  · simp [_prompt, ht] at h
  · simp only [Bool.not_eq_true] at ht
    cases hs : _ensureSession W s with
    | mk res s1 =>
      cases res with
      | throw e => simp [_prompt, ht, hs] at h
      | ok sess0 =>
        rw [prompt_run W s s1 text params sess0 ht hs] at h
        cases hp : W.prompt (s1.log ++ [Call.prompt (applyParams W params sess0) text s1.lang]) with
        | error err => simp [hp] at h
        | ok v =>
          cases v with
          | str o =>
            by_cases ho : jsTrim o = ""
            · simp [hp, ho] at h
            · simp [hp, ho] at h
              rw [← h]
              exact ho
          | undefined => simp [hp] at h
          | null => simp [hp] at h
          | other t r => simp [hp] at h

/-- C8: in `_prompt`, once the text is non-blank and the Session is there, a
string answer of the Session that is non-empty after trimming is returned
trimmed; a non-string answer, or a string that is empty after trimming, makes
the task fail with "Empty response from the language model."; and whatever
`_prompt` returns is never the empty string. -/
theorem prompt_response_handling (W : World) (s s1 : St) (text : String)
    (params : PromptParams) (sess0 : Session) (ht : isBlank text = false)
    (hs : _ensureSession W s = (.ok sess0, s1)) :
    (∀ o, W.prompt (s1.log ++ [Call.prompt (applyParams W params sess0) text s1.lang])
          = .ok (.str o) → jsTrim o ≠ "" →
        (_prompt W text params s).1 = .ok (jsTrim o)) ∧
    (∀ v, W.prompt (s1.log ++ [Call.prompt (applyParams W params sess0) text s1.lang])
          = .ok v → (∀ o, v = .str o → jsTrim o = "") →
        (_prompt W text params s).1 =
          .throw (mkError "Empty response from the language model.")) ∧
    (∀ r, (_prompt W text params s).1 = .ok r → r ≠ "") := by
  refine ⟨fun o hp ho => ?_, fun v hp hv => ?_, fun r hr => prompt_ok_ne_empty W s text params r hr⟩
  · rw [prompt_run W s s1 text params sess0 ht hs, hp]
    simp [ho]
  · rw [prompt_run W s s1 text params sess0 ht hs, hp]
    cases v with
    | str o => simp [hv o rfl]
    | undefined => rfl
    | null => rfl
    | other t r => rfl

/-- Witness for C8: a Session that answers with padding around the text. -/
theorem prompt_response_handling_witness :
    (_prompt (stubWorld (.str "available") (.ok (.str "  fixed text \n"))) "Fix this." noParams
        coldState).1 = .ok "fixed text" :=
  (prompt_response_handling (stubWorld (.str "available") (.ok (.str "  fixed text \n")))
    coldState
    { coldState with
      session := some { id := 0, topK := some 3, temperature := some 1 },
      log := [Call.create systemPrompt (some 3) (some 1)] }
    "Fix this." noParams { id := 0, topK := some 3, temperature := some 1 }
    (by decide) (by rfl)).1 "  fixed text \n" (by rfl) (by decide)

/-! ## Timeout remapping in `_prompt` -/

/-- C9, as the claim states it, fails: when the Session throws `new Error("")`,
an error whose message is empty and so contains neither "abort" nor "timeout",
the task is not failed with "Prompt failed." but with "Error", the string form
of the thrown object. -/
theorem prompt_empty_message_error_not_prompt_failed :
    (mkError "").message = some "" ∧
    (_prompt (stubWorld (.str "available") (.error (mkError ""))) "Fix this." noParams
        coldState).1 = .throw (mkError "Error") ∧
    mkError "Error" ≠ mkError "Prompt failed." := by
  decide

/-- C9 (amended): let `msg` be the text `_prompt` extracts from what the Session
threw: the `message` property when it is non-empty, otherwise the string form of
the thrown value (the `name` of an Error whose message is empty), and the empty
string for a falsy thrown value.  If `msg` lower-cased contains "abort" or
"timeout", the task fails with exactly "Request timed out. Please try again.",
which differs from the EmptyResponse and InputInvalid messages; every other
error is re-raised with `msg`, or with "Prompt failed." when `msg` is empty. -/
theorem prompt_error_remapping (W : World) (s s1 : St) (text : String)
    (params : PromptParams) (sess0 : Session) (err : Thrown) (ht : isBlank text = false)
    (hs : _ensureSession W s = (.ok sess0, s1))
    (hp : W.prompt (s1.log ++ [Call.prompt (applyParams W params sess0) text s1.lang])
      = .error err) :
    ((jsIncludes (jsToLowerCase (promptErrMsg err)) "abort" = true ∨
        jsIncludes (jsToLowerCase (promptErrMsg err)) "timeout" = true) →
      (_prompt W text params s).1 = .throw (mkError "Request timed out. Please try again.")) ∧
    (jsIncludes (jsToLowerCase (promptErrMsg err)) "abort" = false →
      jsIncludes (jsToLowerCase (promptErrMsg err)) "timeout" = false →
      (_prompt W text params s).1 =
        .throw (mkError (if promptErrMsg err = "" then "Prompt failed." else promptErrMsg err))) ∧
    (∀ name m, err = .error name m → m ≠ "" → promptErrMsg err = m) ∧
    (∀ name, err = .error name "" → promptErrMsg err = name) ∧
    (∀ v, err = .value v → promptErrMsg err = if v.truthy then v.toStr else "") ∧
    "Request timed out. Please try again." ≠ "Empty response from the language model." ∧
    "Request timed out. Please try again." ≠ "No text provided." ∧
    "Request timed out. Please try again." ≠ "No text provided for rewrite." ∧
    "Request timed out. Please try again." ≠ "No text provided for shorten." ∧
    "Request timed out. Please try again." ≠ "No text provided for expand." ∧
    "Request timed out. Please try again." ≠ "No text provided for proofread." ∧
    "Request timed out. Please try again." ≠ "No instruction provided for write." := by
  refine ⟨fun h => ?_, fun ha hb => ?_, fun name m he hm => ?_, fun name he => ?_,
    fun v he => ?_, by decide, by decide, by decide, by decide, by decide, by decide, by decide⟩
  · rw [prompt_run W s s1 text params sess0 ht hs, hp]
    rcases h with h | h <;> simp [remapPromptError, h]
  · rw [prompt_run W s s1 text params sess0 ht hs, hp]
    simp only [remapPromptError, ha, hb, Bool.or_self, Bool.false_eq_true, if_false]
    by_cases hm : promptErrMsg err = "" <;> simp [hm]
  · subst he
    simp [promptErrMsg, Thrown.message, hm]
  · subst he
    by_cases hn : name = "" <;> simp [promptErrMsg, Thrown.message, Thrown.toStr, hn]
  · subst he
    simp [promptErrMsg, Thrown.message, Thrown.truthy, Thrown.toStr]

/-- Witness for C9: a Session that throws an Error-like object named
"AbortError" with the message "The operation was ABORTED.". -/
theorem prompt_error_remapping_witness :
    (_prompt (stubWorld (.str "available")
        (.error (.error "AbortError" "The operation was ABORTED."))) "Fix this." noParams
        coldState).1 = .throw (mkError "Request timed out. Please try again.") :=
  (prompt_error_remapping
    (stubWorld (.str "available") (.error (.error "AbortError" "The operation was ABORTED.")))
    coldState
    { coldState with
      session := some { id := 0, topK := some 3, temperature := some 1 },
      log := [Call.create systemPrompt (some 3) (some 1)] }
    "Fix this." noParams { id := 0, topK := some 3, temperature := some 1 }
    (.error "AbortError" "The operation was ABORTED.")
    (by decide) (by rfl) (by rfl)).1 (Or.inl (by decide))

/-! ## Session creation and availability -/

/-- C4, as the claim states it, fails: with a provider whose raw status is
"readily", a string outside the mapping, the refreshed status is `unknown` and
`init` calls `create` all the same. -/
theorem init_creates_session_when_unknown :
    (callsSince coldState
        (init (stubWorld (.str "readily") (.ok (.str "x"))) coldState).2).any Call.isCreate
      = true ∧
    (init (stubWorld (.str "readily") (.ok (.str "x"))) coldState).2.avail.status = .unknown ∧
    (init (stubWorld (.str "readily") (.ok (.str "x"))) coldState).2.avail.status
      ≠ .available := by
  decide

/-- C4 (amended): whenever `init` calls the provider's `create`, the status it
has just refreshed, which is the snapshot it leaves behind, is `available` or
`unknown`; it never calls `create` when the refreshed status is `unavailable`
or `downloadable`. -/
theorem init_create_implies_status (W : World) (s : St)
    (h : (callsSince s (init W s).2).any Call.isCreate = true) :
    (init W s).2.avail = (refreshAvailability W s).2.avail ∧
    ((init W s).2.avail.status = .available ∨ (init W s).2.avail.status = .unknown) ∧
    (init W s).2.avail.status ≠ .unavailable ∧
    (init W s).2.avail.status ≠ .downloadable := by
  have hav := init_avail W s
  have hst := refresh_status_eq W s
  have hno : ¬ ((refreshAvailability W s).2.avail.languageModel = .unavailable ∨
      (refreshAvailability W s).2.avail.languageModel = .downloadable) := by
    intro hc
    rw [init_stops_after_refresh W s hc, refresh_no_create W s] at h
    exact Bool.false_ne_true h
  push_neg at hno
  rw [hav, hst]
  refine ⟨rfl, ?_, hno.1, hno.2⟩
  cases hl : (refreshAvailability W s).2.avail.languageModel with
  | unknown => exact Or.inr rfl
  | available => exact Or.inl rfl
  | downloadable => exact absurd hl hno.2
  | unavailable => exact absurd hl hno.1

/-- Witness for C4: a provider that reports "available". -/
theorem init_create_implies_status_witness :
    (init (stubWorld (.str "available") (.ok (.str "x"))) coldState).2.avail.status
      ≠ .unavailable :=
  (init_create_implies_status (stubWorld (.str "available") (.ok (.str "x"))) coldState
    (by decide)).2.2.1

/-! ## Outcome of `init` by state -/

/-- C5, as the claim states it, fails: with a provider that reports "available"
but has no `create` primitive, `init` neither returns true nor leaves a Session;
it throws the error of `_ensureSession`. -/
theorem init_available_without_create_throws :
    (refreshAvailability
        { stubWorld (.str "available") (.ok (.str "x")) with hasCreate := false }
        coldState).2.avail.languageModel = .available ∧
    (init { stubWorld (.str "available") (.ok (.str "x")) with hasCreate := false }
        coldState).1 =
      .throw (mkError
        "Prompt API not found. Ensure Chrome 128 or newer with Built-in AI enabled.") ∧
    (init { stubWorld (.str "available") (.ok (.str "x")) with hasCreate := false }
        coldState).2.session = none := by
  decide

/-- C5 (amended): if the refreshed status is `unavailable`, `init` fails with
"Language model is unavailable in this browser."; if it is `downloadable`,
`init` returns false without raising; in both cases `create` is not called and
the Session reference is left as it was.  If it is `available` and a Session
exists already or the provider has `create` and `create` resolves, `init`
returns true; whenever it returns true a Session exists afterwards; and when it
does not return true it throws and no Session exists afterwards. -/
theorem init_outcome_by_state (W : World) (s : St) :
    ((refreshAvailability W s).2.avail.languageModel = .unavailable →
      (init W s).1 = .throw (mkError "Language model is unavailable in this browser.") ∧
      (callsSince s (init W s).2).any Call.isCreate = false ∧
      (init W s).2.session = s.session) ∧
    ((refreshAvailability W s).2.avail.languageModel = .downloadable →
      (init W s).1 = .ok false ∧
      (callsSince s (init W s).2).any Call.isCreate = false ∧
      (init W s).2.session = s.session) ∧
    ((refreshAvailability W s).2.avail.languageModel = .available →
      ((s.session.isSome = true ∨
          (W.hasLanguageModel = true ∧ W.hasCreate = true ∧ ∀ l, W.create l = .ok ())) →
        (init W s).1 = .ok true) ∧
      ((init W s).1 = .ok true → (init W s).2.session.isSome = true) ∧
      ((init W s).1 ≠ .ok true →
        ∃ e, (init W s).1 = .throw e ∧ (init W s).2.session = none)) := by
  have hk := refresh_keeps W s
  simp only [Prod.mk.injEq] at hk
  refine ⟨fun hu => ?_, fun hd => ?_, fun ha => ?_⟩
  · refine ⟨?_, ?_, ?_⟩
    · rw [init_run]
      simp [hu]
    · rw [init_stops_after_refresh W s (Or.inl hu)]
      exact refresh_no_create W s
    · rw [init_stops_after_refresh W s (Or.inl hu)]
      exact hk.1
  · refine ⟨?_, ?_, ?_⟩
    · rw [init_run]
      simp [hd]
    · rw [init_stops_after_refresh W s (Or.inr hd)]
      exact refresh_no_create W s
    · rw [init_stops_after_refresh W s (Or.inr hd)]
      exact hk.1
  · have hrun : init W s =
        match _ensureSession W (refreshAvailability W s).2 with
        | (.ok _, s2) => (.ok true, s2)
        | (.throw e, s2) => (.throw e, s2) := by
      rw [init_run]
      simp [ha]
    have hout := ensureSession_outcome W (refreshAvailability W s).2
    refine ⟨fun hc => ?_, fun ht => ?_, fun hn => ?_⟩
    · have hc2 : (refreshAvailability W s).2.session.isSome = true ∨
          (W.hasLanguageModel = true ∧ W.hasCreate = true ∧ ∀ l, W.create l = .ok ()) := by
        rw [hk.1]
        exact hc
      obtain ⟨sess, hs⟩ := ensureSession_ok_of_create W _ hc2
      rw [hrun]
      cases he : _ensureSession W (refreshAvailability W s).2 with
      | mk r s2 =>
        rw [he] at hs
        simp only at hs
        subst hs
        rfl
    · rw [hrun] at ht ⊢
      cases he : _ensureSession W (refreshAvailability W s).2 with
      | mk r s2 =>
        rw [he] at ht hout
        cases r with
        | ok sess =>
          rcases hout with ⟨x, -, hx⟩ | ⟨e, he2, -, -⟩
          · simp only at hx ⊢
            rw [hx]
            rfl
          · simp at he2
        | throw e => simp at ht
    · rw [hrun] at hn ⊢
      cases he : _ensureSession W (refreshAvailability W s).2 with
      | mk r s2 =>
        rw [he] at hn hout
        cases r with
        | ok sess => simp at hn
        | throw e =>
          rcases hout with ⟨x, hx, -⟩ | ⟨e2, -, hs2, -⟩
          · simp at hx
          · exact ⟨e, rfl, hs2⟩

/-- Witness for C5: a provider that reports "downloadable". -/
theorem init_outcome_by_state_witness :
    (init (stubWorld (.str "downloadable") (.ok (.str "x"))) coldState).1 = .ok false ∧
    (callsSince coldState
      (init (stubWorld (.str "downloadable") (.ok (.str "x"))) coldState).2).any Call.isCreate
      = false ∧
    (init (stubWorld (.str "downloadable") (.ok (.str "x"))) coldState).2.session
      = coldState.session :=
  (init_outcome_by_state (stubWorld (.str "downloadable") (.ok (.str "x"))) coldState).2.1
    (by decide)

/-! ## No prompt against an unavailable model -/

/-- C3, as the claim states it, fails: with a provider whose raw status is
"readily", the refresh that `rewrite` runs first computes `unknown`, not
`available`, and the Session is prompted all the same. -/
theorem rewrite_prompts_when_unknown :
    (callsSince coldState
        (rewrite (stubWorld (.str "readily") (.ok (.str "x"))) (some "hello") (some "formal")
          coldState).2).any Call.isPrompt = true ∧
    (refreshAvailability (stubWorld (.str "readily") (.ok (.str "x")))
        coldState).2.avail.status = .unknown ∧
    (rewrite (stubWorld (.str "readily") (.ok (.str "x"))) (some "hello") (some "formal")
        coldState).2.avail.status ≠ .available := by
  decide

/-- C3 (amended): for each of rewrite, shorten, expand, proofread and write and
every provider, the Session is prompted only if the snapshot held before the
operation is not `downloadable` and the snapshot computed by the refresh the
operation runs first is not `unavailable`; that snapshot is the one the
operation leaves behind.  A status of `unknown` does not hold the prompt back. -/
theorem tasks_prompt_only_when_not_blocked (W : World) (s : St)
    (text mode context : Option String) :
    PromptGuard W s (rewrite W text mode) ∧
    PromptGuard W s (shorten W text) ∧
    PromptGuard W s (expand W text) ∧
    PromptGuard W s (proofread W text) ∧
    PromptGuard W s (write W text context) := by
  have hthrow : ∀ e : Thrown, PromptGuard W s (throwJs e) := by
    intro e h
    simp [callsSince] at h
  refine ⟨?_, ?_, ?_, ?_, ?_⟩
  · rw [rewrite_eq]
    split_ifs
    · exact hthrow _
    · exact taskBody_promptGuard W s _ _
  · rw [shorten_eq]
    split_ifs
    · exact hthrow _
    · exact taskBody_promptGuard W s _ _
  · rw [expand_eq]
    split_ifs
    · exact hthrow _
    · exact taskBody_promptGuard W s _ _
  · rw [proofread_eq]
    split_ifs
    · exact hthrow _
    · exact taskBody_promptGuard W s _ _
  · rw [write_eq]
    split_ifs
    · exact hthrow _
    · exact taskBody_promptGuard W s _ _

/-- Witness for C3: with a provider that reports "available", `shorten`
prompts the Session and the guard gives the three facts. -/
theorem tasks_prompt_only_when_not_blocked_witness :
    coldState.avail.languageModel ≠ .downloadable ∧
    (shorten (stubWorld (.str "available") (.ok (.str "x"))) (some "hello") coldState).2.avail =
      (refreshAvailability (stubWorld (.str "available") (.ok (.str "x"))) coldState).2.avail ∧
    (shorten (stubWorld (.str "available") (.ok (.str "x"))) (some "hello")
      coldState).2.avail.status ≠ .unavailable :=
  (tasks_prompt_only_when_not_blocked (stubWorld (.str "available") (.ok (.str "x"))) coldState
    (some "hello") none none).2.1 (by decide)

/-! ## Input validation at the coordinator -/

/-- C7 at its failing input: `explain` with a whitespace-only text.  The
coordinator only tests `!text`, and the engine validates the fixed instruction,
not the text, so the Session is prompted and the request succeeds; the sibling
action `shorten` on the same text is rejected without a prompt. -/
theorem explain_whitespace_text_is_prompted :
    isMissingOrBlank (some "   ") = true ∧
    (handler (stubWorld (.str "available") (.ok (.str "An explanation.")))
        (some { action := some "explain", data := some { emptyData with text := some "   " } })
        coldState).2.sent = [success (.text "An explanation.")] ∧
    (callsSince coldState
      (handler (stubWorld (.str "available") (.ok (.str "An explanation.")))
        (some { action := some "explain", data := some { emptyData with text := some "   " } })
        coldState).2).any Call.isPrompt = true ∧
    (handler (stubWorld (.str "available") (.ok (.str "An explanation.")))
        (some { action := some "shorten", data := some { emptyData with text := some "   " } })
        coldState).2.sent = [failure "No text provided for shorten."] ∧
    (callsSince coldState
      (handler (stubWorld (.str "available") (.ok (.str "An explanation.")))
        (some { action := some "shorten", data := some { emptyData with text := some "   " } })
        coldState).2).any Call.isPrompt = false := by
  decide

/-! ## The handler always answers with one well-formed envelope -/

/-- C2, as the claim states it, fails on two paths of the handler.  A request
without an action is answered `success:false` although neither the engine nor
the tracker was called.  And in a cold worker without a provider the engine
fails, inside the inline warmup, with "Language model is unavailable in this
browser.", yet the error of the response is the fixed fail-fast message. -/
theorem handler_failure_paths_outside_engine :
    (handler (stubWorld (.str "available") (.ok (.str "x")))
        (some { action := none, data := none }) coldState).2.sent =
      [failure "Invalid request: missing action"] ∧
    (handler (stubWorld (.str "available") (.ok (.str "x")))
        (some { action := none, data := none }) coldState).2.log = [] ∧
    (init { stubWorld (.str "available") (.ok (.str "x")) with hasLanguageModel := false }
        coldState).1 = .throw (mkError "Language model is unavailable in this browser.") ∧
    (handler { stubWorld (.str "available") (.ok (.str "x")) with hasLanguageModel := false }
        (some { action := some "rewrite", data := some { emptyData with text := some "hi" } })
        coldState).2.sent = [failure unavailableMessage] ∧
    unavailableMessage ≠ "Language model is unavailable in this browser." := by
  decide

/-- C2 (amended): for every request and every world, that is, every behaviour
of the provider and the storage in which each call the handler awaits resolves
or rejects, the handler lets no fault escape and sends exactly one response,
which has exactly one of `result` and `error`.  The response is `{success:false, error}` without a
result for a request without an action ("Invalid request: missing action"), for
an inline warmup cycle that returned false (the fixed "AI models unavailable"
message), and for an error thrown after the refresh by the dispatch to the
engine or the tracker, whose message is the `error`; when the dispatch returns
a result the response is `{success:true, result}` without an error. -/
theorem handler_always_answers (W : World) (request : Option Request) (s : St) :
    (handler W request s).1 = .ok () ∧
    ∃ e, (handler W request s).2.sent = s.sent ++ [e] ∧
      ((e.success = false ∧ e.result = none ∧ e.error.isSome = true) ∨
        (e.success = true ∧ e.result.isSome = true ∧ e.error = none)) ∧
      ((request = none ∨ ∃ r, request = some r ∧ falsy r.action = true) →
        e = failure "Invalid request: missing action") ∧
      (∀ r, request = some r → falsy r.action = false → s.warmupComplete = false →
        (warmupModels W s).1 = .ok false → e = failure unavailableMessage) ∧
      (∀ r, request = some r → falsy r.action = false →
        (s.warmupComplete = true ∨ (warmupModels W s).1 = .ok true) →
        (∀ err,
          (dispatch W (r.action.getD "") (r.data.getD emptyData)
            (refreshAvailability W
              (if s.warmupComplete then s else (warmupModels W s).2)).2).1 = .throw err →
          e = failure (errMsg err)) ∧
        (∀ res,
          (dispatch W (r.action.getD "") (r.data.getD emptyData)
            (refreshAvailability W
              (if s.warmupComplete then s else (warmupModels W s).2)).2).1 = .ok res →
          e = success res)) := by
  cases request with
  | none =>
    refine ⟨rfl, failure "Invalid request: missing action", rfl, Or.inl ⟨rfl, rfl, rfl⟩,
      fun _ => rfl, ?_, ?_⟩
    · intro r hr
      exact absurd hr (by simp)
    · intro r hr
      exact absurd hr (by simp)
  | some r =>
    by_cases hf : falsy r.action = true
    · have hrun : handler W (some r) s =
          (.ok (), { s with sent := s.sent ++ [failure "Invalid request: missing action"] }) := by
        simp [handler, tryCatchJs_run, hf, sendResponse]
      rw [hrun]
      refine ⟨rfl, failure "Invalid request: missing action", rfl, Or.inl ⟨rfl, rfl, rfl⟩,
        fun _ => rfl, ?_, ?_⟩
      · intro r2 hr hf2
        simp only [Option.some.injEq] at hr
        subst hr
        rw [hf] at hf2
        exact absurd hf2 (by simp)
      · intro r2 hr hf2
        simp only [Option.some.injEq] at hr
        subst hr
        rw [hf] at hf2
        exact absurd hf2 (by simp)
    · simp only [Bool.not_eq_true] at hf
      have hnone : ¬ (some r = none ∨ ∃ r2, some r = some r2 ∧ falsy r2.action = true) := by
        rintro (h | ⟨r2, h, h2⟩)
        · simp at h
        · simp only [Option.some.injEq] at h
          subst h
          rw [hf] at h2
          exact absurd h2 (by simp)
      by_cases hc : s.warmupComplete = true
      · obtain ⟨h1, e, he, hwf, herr, hres⟩ :=
          handler_proceed_answer W r s s hf (Or.inl ⟨hc, rfl⟩)
        refine ⟨h1, e, he, hwf, fun h => absurd h hnone, ?_, ?_⟩
        · intro r2 _ _ hc2
          rw [hc] at hc2
          exact absurd hc2 (by simp)
        · intro r2 hr _ _
          simp only [Option.some.injEq] at hr
          subst hr
          simp only [hc, if_true]
          exact ⟨herr, hres⟩
      · simp only [Bool.not_eq_true] at hc
        obtain ⟨b, hb⟩ := warmupModels_fst W s
        have hw : warmupModels W s = (.ok b, (warmupModels W s).2) := by
          rw [← hb]
        cases b with
        | false =>
          have hsent := warmupModels_keeps_sent W s
          rw [handler_failfast W r s _ hf hc hw]
          refine ⟨rfl, failure unavailableMessage, ?_, Or.inl ⟨rfl, rfl, rfl⟩,
            fun h => absurd h hnone, fun _ _ _ _ _ => rfl, ?_⟩
          · simp only
            rw [hsent]
          · intro r2 _ _ h
            rcases h with h | h
            · rw [hc] at h
              exact absurd h (by simp)
            · rw [hb] at h
              exact absurd h (by simp)
        | true =>
          obtain ⟨h1, e, he, hwf, herr, hres⟩ :=
            handler_proceed_answer W r s (warmupModels W s).2 hf (Or.inr ⟨hc, hw⟩)
          refine ⟨h1, e, he, hwf, fun h => absurd h hnone, ?_, ?_⟩
          · intro r2 _ _ _ h
            rw [hb] at h
            exact absurd h (by simp)
          · intro r2 hr _ _
            simp only [Option.some.injEq] at hr
            subst hr
            simp only [hc, Bool.false_eq_true, if_false]
            exact ⟨herr, hres⟩

/-- Witness for C2: the one response to a rewrite request in a cold worker. -/
theorem handler_always_answers_witness :
    (handler (stubWorld (.str "available") (.ok (.str "x")))
        (some { action := some "rewrite", data := some { emptyData with text := some "hi" } })
        coldState).1 = .ok () :=
  (handler_always_answers (stubWorld (.str "available") (.ok (.str "x")))
    (some { action := some "rewrite", data := some { emptyData with text := some "hi" } })
    coldState).1

/-! ## The round trip with a stub provider -/

theorem bind_run_ok {α β : Type} (x : M α) (f : α → M β) (s : St) (a : α)
    (h : (x s).1 = .ok a) : (x >>= f) s = f a (x s).2 := by
  rw [bind_run]
  cases hx : x s with
  | mk r s1 =>
    rw [hx] at h
    simp only at h
    subst h
    rfl

theorem callWorld_fst_ok {α : Type} (c : Call) (answer : List Call → Except Thrown α) (s : St)
    (a : α) (h : answer (s.log ++ [c]) = .ok a) : (callWorld c answer s).1 = .ok a := by
  rw [callWorld_run, h]

theorem refresh_stub (W : World) (out : String) (hW : StubProvider W out) (s : St) :
    (refreshAvailability W s).2.avail.languageModel = .available := by
  obtain ⟨v, hv, hn⟩ := hW.available (s.log ++ [Call.availability])
  simp [refreshAvailability, hW.hasLanguageModel, hW.hasAvailability, tryCatchJs_run,
    callWorld_run, hv, hn]

theorem init_stub (W : World) (out : String) (hW : StubProvider W out) (s : St) :
    (init W s).1 = .ok true := by
  have ha := refresh_stub W out hW s
  obtain ⟨sess, hs⟩ := ensureSession_ok_of_create W (refreshAvailability W s).2
    (Or.inr ⟨hW.hasLanguageModel, hW.hasCreate, hW.create⟩)
  rw [init_run]
  simp only [ha, reduceCtorEq, if_false]
  cases he : _ensureSession W (refreshAvailability W s).2 with
  | mk r s2 =>
    rw [he] at hs
    simp only at hs
    subst hs
    rfl

theorem prompt_stub (W : World) (out : String) (hW : StubProvider W out) (ho : jsTrim out ≠ "")
    (s : St) (text : String) (params : PromptParams) (ht : isBlank text = false) :
    (_prompt W text params s).1 = .ok (jsTrim out) := by
  obtain ⟨sess, hs⟩ := ensureSession_ok_of_create W s
    (Or.inr ⟨hW.hasLanguageModel, hW.hasCreate, hW.create⟩)
  have he : _ensureSession W s = (.ok sess, (_ensureSession W s).2) := by
    rw [← hs]
  rw [prompt_run W s _ text params sess ht he, hW.prompt]
  simp [ho]

theorem taskBody_stub (W : World) (out : String) (hW : StubProvider W out)
    (ho : jsTrim out ≠ "") (s : St) (text : String) (params : PromptParams)
    (ht : isBlank text = false) (hd : s.avail.languageModel ≠ .downloadable) :
    (taskBody W text params s).1 = .ok (jsTrim out) := by
  have h1 : (throwIfDownloading s) = (.ok (), s) := by
    simp [throwIfDownloading, hd]
  have h2 := init_stub W out hW s
  unfold taskBody
  rw [bind_run_ok _ _ s () (by rw [h1]), h1, bind_run_ok _ _ s true h2]
  exact prompt_stub W out hW ho _ text params ht

theorem falsy_of_not_blank (text : Option String) (h : isMissingOrBlank text = false) :
    falsy text = false := by
  cases text with
  | none => simp [isMissingOrBlank] at h
  | some t =>
    simp only [isMissingOrBlank, isBlank, Bool.or_eq_false_iff, decide_eq_false_iff_not] at h
    simp [falsy, h.1]

theorem rewrite_stub (W : World) (out : String) (hW : StubProvider W out)
    (ho : jsTrim out ≠ "") (s : St) (text mode : Option String)
    (ht : isMissingOrBlank text = false) (hd : s.avail.languageModel ≠ .downloadable) :
    (rewrite W text mode s).1 = .ok (jsTrim out) := by
  rw [rewrite_eq]
  simp only [ht, Bool.false_eq_true, if_false]
  exact taskBody_stub W out hW ho s _ _ (rewritePrompt_not_blank _ _) hd

theorem shorten_stub (W : World) (out : String) (hW : StubProvider W out)
    (ho : jsTrim out ≠ "") (s : St) (text : Option String)
    (ht : isMissingOrBlank text = false) (hd : s.avail.languageModel ≠ .downloadable) :
    (shorten W text s).1 = .ok (jsTrim out) := by
  rw [shorten_eq]
  simp only [ht, Bool.false_eq_true, if_false]
  exact taskBody_stub W out hW ho s _ _ (shortenPrompt_not_blank _) hd

theorem expand_stub (W : World) (out : String) (hW : StubProvider W out)
    (ho : jsTrim out ≠ "") (s : St) (text : Option String)
    (ht : isMissingOrBlank text = false) (hd : s.avail.languageModel ≠ .downloadable) :
    (expand W text s).1 = .ok (jsTrim out) := by
  rw [expand_eq]
  simp only [ht, Bool.false_eq_true, if_false]
  exact taskBody_stub W out hW ho s _ _ (expandPrompt_not_blank _) hd

theorem proofread_stub (W : World) (out : String) (hW : StubProvider W out)
    (ho : jsTrim out ≠ "") (s : St) (text : Option String)
    (ht : isMissingOrBlank text = false) (hd : s.avail.languageModel ≠ .downloadable) :
    (proofread W text s).1 = .ok (jsTrim out) := by
  rw [proofread_eq]
  simp only [ht, Bool.false_eq_true, if_false]
  exact taskBody_stub W out hW ho s _ _ (proofreadPrompt_not_blank _) hd

theorem write_stub (W : World) (out : String) (hW : StubProvider W out)
    (ho : jsTrim out ≠ "") (s : St) (instruction context : Option String)
    (ht : isMissingOrBlank instruction = false) (hd : s.avail.languageModel ≠ .downloadable) :
    (write W instruction context s).1 = .ok (jsTrim out) := by
  rw [write_eq]
  simp only [ht, Bool.false_eq_true, if_false]
  exact taskBody_stub W out hW ho s _ _ (writePrompt_not_blank _ _) hd

/-- With a stub provider the dispatch of a task request returns the trimmed answer. -/
theorem dispatch_stub (W : World) (out : String) (hW : StubProvider W out)
    (ho : jsTrim out ≠ "") (s : St) (r : Request)
    (ha : r.action ∈ taskActions.map some)
    (ht : isMissingOrBlank (primaryText r) = false)
    (hd : s.avail.languageModel ≠ .downloadable) :
    (dispatch W (r.action.getD "") (r.data.getD emptyData) s).1 =
      .ok (.text (jsTrim out)) := by
  simp only [taskActions, List.map_cons, List.map_nil, List.mem_cons, List.mem_singleton,
    List.not_mem_nil, or_false] at ha
  rcases ha with ha | ha | ha | ha | ha | ha
  all_goals
    simp only [primaryText, ha, Option.some.injEq, String.reduceEq, if_false, if_true] at ht
    have hf := falsy_of_not_blank _ ht
    simp only [dispatch, ha, Option.getD_some, String.reduceEq, if_false, if_true, hf,
      Bool.false_eq_true]
  · rw [bind_run_ok _ _ s _ (rewrite_stub W out hW ho s _ _ ht hd)]
    rfl
  · rw [bind_run_ok _ _ s _ (shorten_stub W out hW ho s _ ht hd)]
    rfl
  · rw [bind_run_ok _ _ s _ (expand_stub W out hW ho s _ ht hd)]
    rfl
  · rw [bind_run_ok _ _ s _ (proofread_stub W out hW ho s _ ht hd)]
    rfl
  · rw [bind_run_ok _ _ s _ (write_stub W out hW ho s _ _ ht hd)]
    rfl
  · rw [bind_run_ok _ _ s _ (write_stub W out hW ho s _ _ (by decide) hd)]
    rfl

theorem applyPreferredLanguage_stub (W : World) (out : String) (hW : StubProvider W out)
    (s : St) : (applyPreferredLanguage W s).1 = .ok () := by
  obtain ⟨v, hv⟩ := hW.language (s.log ++ [Call.syncGetLanguage])
  simp only [applyPreferredLanguage, bind_run, callWorld_run, hv, setLanguage]
  repeat' split
  all_goals rfl

/-- A `try` with an empty `catch` block returns. -/
theorem tryCatchJs_swallow (x : M Unit) (s : St) :
    (tryCatchJs x (fun _ => pure ()) s).1 = .ok () := by
  rw [tryCatchJs_run]
  cases x s with
  | mk r s1 => cases r <;> rfl

/-- With a stub provider a warmup cycle that is allowed to run returns true. -/
theorem warmupModels_stub (W : World) (out : String) (hW : StubProvider W out) (s : St)
    (hc : s.warmupComplete = false) (ha : s.warmupAttempts < MAX_WARMUP_ATTEMPTS) :
    (warmupModels W s).1 = .ok true := by
  have ha2 : ¬ s.warmupAttempts ≥ MAX_WARMUP_ATTEMPTS := Nat.not_le.mpr ha
  simp only [warmupModels, bind_run, getSt_run, hc, Bool.false_eq_true, if_false, ha2,
    modifySt_run]
  rw [tryCatchJs_run]
  rw [bind_run_ok _ _ _ _ (applyPreferredLanguage_stub W out hW _)]
  rw [bind_run_ok _ _ _ _ (init_stub W out hW _)]
  generalize (init W _).2 = s2
  rw [bind_run_ok _ _ s2 () rfl]
  generalize (modifySt _ s2).2 = s3
  rw [bind_run_ok _ _ s3 () (callWorld_fst_ok _ _ _ _ (hW.sessionSet _))]
  generalize (callWorld Call.sessionSetWarmup _ s3).2 = s4
  obtain ⟨b, hb⟩ := hW.debugMode (s4.log ++ [Call.syncGetDebugMode])
  rw [bind_run_ok _ _ s4 b (callWorld_fst_ok _ _ _ _ hb)]
  generalize (callWorld Call.syncGetDebugMode _ s4).2 = s5
  cases b with
  | false => rfl
  | true =>
    simp only [if_true]
    rw [bind_run_ok _ _ s5 () (tryCatchJs_swallow _ _)]
    rfl

/-- The stub world of the examples is a stub provider. -/
theorem stubWorld_isStub (out : String) :
    StubProvider (stubWorld (.str "available") (.ok (.str out))) out :=
  { hasLanguageModel := rfl
    hasAvailability := rfl
    hasCreate := rfl
    available := fun _ => ⟨.str "available", rfl, by decide⟩
    create := fun _ => rfl
    prompt := fun _ => rfl
    language := fun _ => ⟨_, rfl⟩
    debugMode := fun _ => ⟨_, rfl⟩
    sessionSet := fun _ => rfl }

/-! ## Round trip through the coordinator -/

/-- C1: for each of the six task actions, every request whose primary text (the
instruction for `write`) is non-blank, and a stub provider that reports
`available` and answers every prompt with a string `out` that is non-empty
after trimming, the handler, started warm or with warmup attempts left (a cold
worker included), returns and sends exactly the one response
`{success:true, result: trim(out)}`. -/
theorem handler_round_trip (W : World) (out : String) (r : Request) (s : St)
    (hW : StubProvider W out) (ho : jsTrim out ≠ "")
    (ha : r.action ∈ taskActions.map some)
    (ht : isMissingOrBlank (primaryText r) = false)
    (hs : s.warmupComplete = true ∨ s.warmupAttempts < MAX_WARMUP_ATTEMPTS) :
    (handler W (some r) s).1 = .ok () ∧
    (handler W (some r) s).2.sent = s.sent ++ [success (.text (jsTrim out))] := by
  have hf : falsy r.action = false := by
    simp only [taskActions, List.map_cons, List.map_nil, List.mem_cons, List.mem_singleton,
      List.not_mem_nil, or_false] at ha
    rcases ha with ha | ha | ha | ha | ha | ha <;> rw [ha] <;> decide
  have hdisp : ∀ s1 : St,
      (dispatch W (r.action.getD "") (r.data.getD emptyData) (refreshAvailability W s1).2).1 =
        .ok (.text (jsTrim out)) := by
    intro s1
    apply dispatch_stub W out hW ho _ r ha ht
    rw [refresh_stub W out hW s1]
    decide
  by_cases hc : s.warmupComplete = true
  · obtain ⟨h1, e, he, -, -, hres⟩ := handler_proceed_answer W r s s hf (Or.inl ⟨hc, rfl⟩)
    rw [hres _ (hdisp s)] at he
    exact ⟨h1, he⟩
  · simp only [Bool.not_eq_true] at hc
    have hattempts : s.warmupAttempts < MAX_WARMUP_ATTEMPTS := by
      rcases hs with hs | hs
      · rw [hc] at hs
        exact absurd hs (by simp)
      · exact hs
    have hw := warmupModels_stub W out hW s hc hattempts
    have hw2 : warmupModels W s = (.ok true, (warmupModels W s).2) := by
      rw [← hw]
    obtain ⟨h1, e, he, -, -, hres⟩ :=
      handler_proceed_answer W r s (warmupModels W s).2 hf (Or.inr ⟨hc, hw2⟩)
    rw [hres _ (hdisp _)] at he
    exact ⟨h1, he⟩

/-- Witness for C1, the round trip of the specification: rewrite of "this is bad
grammer" with tone "grammar" in a cold worker, the stub answering "this is bad
grammar". -/
theorem handler_round_trip_witness :
    (handler (stubWorld (.str "available") (.ok (.str "this is bad grammar")))
        (some { action := some "rewrite",
                data := some { emptyData with
                  text := some "this is bad grammer", tone := some "grammar" } })
        coldState).1 = .ok () ∧
    (handler (stubWorld (.str "available") (.ok (.str "this is bad grammar")))
        (some { action := some "rewrite",
                data := some { emptyData with
                  text := some "this is bad grammer", tone := some "grammar" } })
        coldState).2.sent = [success (.text "this is bad grammar")] :=
  handler_round_trip (stubWorld (.str "available") (.ok (.str "this is bad grammar")))
    "this is bad grammar"
    { action := some "rewrite",
      data := some { emptyData with text := some "this is bad grammer", tone := some "grammar" } }
    coldState (stubWorld_isStub "this is bad grammar") (by decide) (by decide) (by decide)
    (Or.inr (by decide))

/-! ## The availability tracker -/

/-- A refresh with the provider and its availability primitive in place: one
query, and the snapshot of the raw status is stored and returned. -/
theorem refresh_present_run (W : World) (s : St) (hl : W.hasLanguageModel = true)
    (ha : W.hasAvailability = true) :
    refreshAvailability W s =
      (.ok { status := _normalizeStatus (rawStatus W (s.log ++ [Call.availability])),
             languageModel := _normalizeStatus (rawStatus W (s.log ++ [Call.availability])),
             writer := .unknown, rewriter := .unknown,
             raw := some (rawStatus W (s.log ++ [Call.availability])) },
       { s with
         avail := { status := _normalizeStatus (rawStatus W (s.log ++ [Call.availability])),
                    languageModel := _normalizeStatus (rawStatus W (s.log ++ [Call.availability])),
                    writer := .unknown, rewriter := .unknown,
                    raw := some (rawStatus W (s.log ++ [Call.availability])) },
         log := s.log ++ [Call.availability] }) := by
  cases h : W.availability (s.log ++ [Call.availability]) <;>
    simp [refreshAvailability, hl, ha, tryCatchJs_run, callWorld_run, rawStatus, h]

/-- A refresh without the provider or without its availability primitive: no
query, and the `unavailable` snapshot is stored and returned. -/
theorem refresh_absent_run (W : World) (s : St)
    (h : W.hasLanguageModel = false ∨ W.hasAvailability = false) :
    refreshAvailability W s =
      (.ok { status := .unavailable, languageModel := .unavailable, writer := .unknown,
             rewriter := .unknown, raw := none },
       { s with
         avail := { status := .unavailable, languageModel := .unavailable, writer := .unknown,
                    rewriter := .unknown, raw := none } }) := by
  rcases h with h | h <;> simp [refreshAvailability, h]

/-- C11: `refreshAvailability` returns and stores a snapshot whose status is
`unavailable` whenever the provider object or its availability primitive is
absent and whenever the availability query throws; and for every provider
behaviour it returns the snapshot it stores, without raising. -/
theorem refresh_unavailable_on_absence_or_failure (W : World) (s : St) :
    ((W.hasLanguageModel = false ∨ W.hasAvailability = false ∨
        ∃ e, W.availability (s.log ++ [Call.availability]) = .error e) →
      ∃ a, (refreshAvailability W s).1 = .ok a ∧ a.status = .unavailable ∧
        a.languageModel = .unavailable ∧ (refreshAvailability W s).2.avail = a) ∧
    (∃ a, (refreshAvailability W s).1 = .ok a ∧ (refreshAvailability W s).2.avail = a) := by
  refine ⟨fun h => ?_, ?_⟩
  · by_cases hp : W.hasLanguageModel = false ∨ W.hasAvailability = false
    · rw [refresh_absent_run W s hp]
      exact ⟨_, rfl, rfl, rfl, rfl⟩
    · push_neg at hp
      simp only [ne_eq, Bool.not_eq_false] at hp
      rcases h with h | h | ⟨e, he⟩
      · rw [hp.1] at h
        exact absurd h (by simp)
      · rw [hp.2] at h
        exact absurd h (by simp)
      · rw [refresh_present_run W s hp.1 hp.2]
        have hr : rawStatus W (s.log ++ [Call.availability]) = .str "unavailable" := by
          simp [rawStatus, he]
        rw [hr]
        exact ⟨_, rfl, by decide, by decide, rfl⟩
  · obtain ⟨a, l, h, -, -⟩ := refresh_spec W s
    rw [h]
    exact ⟨a, rfl, rfl⟩

/-- Witness for C11: a provider whose availability query throws. -/
theorem refresh_unavailable_on_absence_or_failure_witness :
    ∃ a, (refreshAvailability
        { stubWorld (.str "available") (.ok (.str "x")) with
          availability := fun _ => .error (mkError "query failed") } coldState).1 = .ok a ∧
      a.status = .unavailable ∧ a.languageModel = .unavailable ∧
      (refreshAvailability
        { stubWorld (.str "available") (.ok (.str "x")) with
          availability := fun _ => .error (mkError "query failed") } coldState).2.avail = a :=
  (refresh_unavailable_on_absence_or_failure
    { stubWorld (.str "available") (.ok (.str "x")) with
      availability := fun _ => .error (mkError "query failed") } coldState).1
    (Or.inr (Or.inr ⟨mkError "query failed", rfl⟩))

/-- C12: when the raw status is the same on two consecutive queries, two
consecutive calls of `refreshAvailability` return the same snapshot and store
it, and `getAvailability` afterwards returns that same snapshot. -/
theorem refresh_idempotent (W : World) (s : St)
    (h : rawStatus W (s.log ++ [Call.availability] ++ [Call.availability]) =
      rawStatus W (s.log ++ [Call.availability])) :
    (refreshAvailability W (refreshAvailability W s).2).1 = (refreshAvailability W s).1 ∧
    (refreshAvailability W (refreshAvailability W s).2).2.avail =
      (refreshAvailability W s).2.avail ∧
    (getAvailability (refreshAvailability W (refreshAvailability W s).2).2).1 =
      (refreshAvailability W s).1 := by
  by_cases hp : W.hasLanguageModel = false ∨ W.hasAvailability = false
  · rw [refresh_absent_run W s hp, refresh_absent_run W _ hp]
    exact ⟨rfl, rfl, rfl⟩
  · push_neg at hp
    simp only [ne_eq, Bool.not_eq_false] at hp
    rw [refresh_present_run W s hp.1 hp.2, refresh_present_run W _ hp.1 hp.2]
    simp only [h, getAvailability, bind_run, getSt_run, pure_run, and_self]

/-- Witness for C12: a provider that reports "after-download" on every query. -/
theorem refresh_idempotent_witness :
    (refreshAvailability (stubWorld (.str "after-download") (.ok (.str "x")))
      (refreshAvailability (stubWorld (.str "after-download") (.ok (.str "x")))
        coldState).2).1 =
      (refreshAvailability (stubWorld (.str "after-download") (.ok (.str "x"))) coldState).1 :=
  (refresh_idempotent (stubWorld (.str "after-download") (.ok (.str "x"))) coldState rfl).1

/-! ## The warmup cycle -/

theorem warmupModels_eq (W : World) :
    warmupModels W = (do
      let s ← getSt
      if s.warmupComplete then return true
      else if s.warmupAttempts ≥ MAX_WARMUP_ATTEMPTS then return false
      else
        modifySt (fun t => { t with warmupAttempts := t.warmupAttempts + 1 })
        tryCatchJs (warmupTry W) warmupCatch) :=
  rfl

/-- A warm worker does not run a warmup cycle. -/
theorem warmupModels_warm (W : World) (s : St) (hc : s.warmupComplete = true) :
    warmupModels W s = (.ok true, s) := by
  simp [warmupModels, hc]

/-- An exhausted worker does not run a warmup cycle. -/
theorem warmupModels_exhausted (W : World) (s : St) (hc : s.warmupComplete = false)
    (ha : s.warmupAttempts ≥ MAX_WARMUP_ATTEMPTS) :
    warmupModels W s = (.ok false, s) := by
  simp [warmupModels, hc, ha]

/-- A warmup cycle that runs: the attempt is counted, the `try` block is run,
and a throw is turned into false by the `catch` block. -/
theorem warmupModels_cycle (W : World) (s : St) (hc : s.warmupComplete = false)
    (ha : s.warmupAttempts < MAX_WARMUP_ATTEMPTS) :
    warmupModels W s =
      match warmupTry W (countAttempt s) with
      | (.ok b, s1) => (.ok b, s1)
      | (.throw e, s1) =>
        (.ok false,
          { s1 with
            warmupComplete := false,
            warmupAttempts := if isTransient e = true then 0 else s1.warmupAttempts }) := by
  have ha2 : ¬ s.warmupAttempts ≥ MAX_WARMUP_ATTEMPTS := Nat.not_le.mpr ha
  cases s with
  | mk lang topK temperature session avail warmupComplete warmupAttempts log sent =>
    simp only at hc ha2
    subst hc
    rw [warmupModels_eq]
    simp only [bind_run, getSt_run, Bool.false_eq_true, if_false, ha2, modifySt_run,
      tryCatchJs_run, countAttempt]
    generalize warmupTry W _ = y
    rcases y with ⟨b | e, s1⟩
    · rfl
    · by_cases ht : isTransient e = true <;> simp [warmupCatch, ht]

theorem applyPreferredLanguage_keeps_outer (W : World) :
    Keeps outer (applyPreferredLanguage W) := by
  unfold applyPreferredLanguage setLanguage
  repeat (first
    | exact keeps_pure _ _ | exact keeps_throw _ _ | exact keeps_getSt _
    | exact keeps_modifySt _ _ (fun _ => rfl)
    | exact keeps_callWorld _ _ _ (fun _ _ => rfl)
    | refine keeps_bind _ _ _ ?_ (fun _ => ?_)
    | refine keeps_ite _ _ _ _ ?_ ?_
    | split)

theorem warmupFinish_keeps_outer (W : World) : Keeps outer (warmupFinish W) := by
  unfold warmupFinish
  repeat (first
    | exact keeps_pure _ _ | exact keeps_throw _ _ | exact keeps_getSt _
    | exact rewrite_keeps_outer W _ _
    | exact keeps_callWorld _ _ _ (fun _ _ => rfl)
    | refine keeps_bind _ _ _ ?_ (fun _ => ?_)
    | refine keeps_tryCatchJs _ _ _ ?_ (fun _ => ?_)
    | refine keeps_ite _ _ _ _ ?_ ?_
    | split)

/-- When a sequence returns, its first part returned and the rest returned from there. -/
theorem bind_ok_inv {α β : Type} (x : M α) (f : α → M β) (s s1 : St) (b : β)
    (h : (x >>= f) s = (.ok b, s1)) : ∃ a t, x s = (.ok a, t) ∧ f a t = (.ok b, s1) := by
  rw [bind_run] at h
  cases hx : x s with
  | mk r t =>
    rw [hx] at h
    cases r with
    | ok a => exact ⟨a, t, rfl, h⟩
    | throw e => simp at h

/-- The `try` block of a warmup cycle keeps the responses sent and the attempt counter. -/
theorem warmupTry_keeps (W : World) :
    Keeps (fun s => (s.sent, s.warmupAttempts)) (warmupTry W) := by
  unfold warmupTry
  refine keeps_bind _ _ _
    (keeps_comp outer (fun t => (t.1, t.2.2)) _ (applyPreferredLanguage_keeps_outer W))
    (fun _ => ?_)
  refine keeps_bind _ _ _ (keeps_comp outer (fun t => (t.1, t.2.2)) _ (init_keeps_outer W))
    (fun _ => ?_)
  refine keeps_bind _ _ _ (keeps_modifySt _ _ (fun _ => rfl)) (fun _ => ?_)
  exact keeps_comp outer (fun t => (t.1, t.2.2)) _ (warmupFinish_keeps_outer W)

/-- `warmupFinish` returns nothing but true. -/
theorem warmupFinish_returns_true (W : World) (s s1 : St) (b : Bool)
    (h : warmupFinish W s = (.ok b, s1)) : b = true := by
  unfold warmupFinish at h
  obtain ⟨_, t1, -, h⟩ := bind_ok_inv _ _ _ _ _ h
  obtain ⟨d, t2, -, h⟩ := bind_ok_inv _ _ _ _ _ h
  cases d with
  | false =>
    obtain ⟨_, t3, -, h⟩ := bind_ok_inv _ _ _ _ _ h
    simp only [pure_run, Prod.mk.injEq, Res.ok.injEq] at h
    exact h.1.symm
  | true =>
    obtain ⟨_, t3, -, h⟩ := bind_ok_inv _ _ _ _ _ h
    simp only [pure_run, Prod.mk.injEq, Res.ok.injEq] at h
    exact h.1.symm

/-- When the `try` block of a warmup cycle returns, it returns true and the
worker is warm. -/
theorem warmupTry_ok (W : World) (s s1 : St) (b : Bool) (h : warmupTry W s = (.ok b, s1)) :
    b = true ∧ s1.warmupComplete = true := by
  simp only [warmupTry, bind_run] at h
  cases h1 : applyPreferredLanguage W s with
  | mk r1 t1 =>
    rw [h1] at h
    cases r1 with
    | throw e => simp at h
    | ok u =>
      simp only at h
      cases h2 : init W t1 with
      | mk r2 t2 =>
        rw [h2] at h
        cases r2 with
        | throw e => simp at h
        | ok v =>
          simp only [modifySt_run] at h
          have hk := warmupFinish_keeps_outer W { t2 with warmupComplete := true }
          rw [h] at hk
          simp only [outer, Prod.mk.injEq] at hk
          exact ⟨warmupFinish_returns_true W _ s1 b h, hk.2.1⟩

/-! ## Transient reset -/

/-- C14: for every warmup cycle that runs (the worker is not warm and attempts
are left) and whose `try` block throws an error whose message, as the `catch`
block reads it, contains "downloadable" or "timeout", the attempt counter is 0
immediately afterwards, whatever it was before, `warmupComplete` is false and
`warmupModels` returns false.  For an Error object with a non-empty message the
message read is its `message`. -/
theorem warmup_transient_reset (W : World) (s : St) (e : Thrown)
    (hc : s.warmupComplete = false) (ha : s.warmupAttempts < MAX_WARMUP_ATTEMPTS)
    (he : (warmupTry W (countAttempt s)).1 = .throw e)
    (ht : jsIncludes (errMsg e) "downloadable" = true ∨ jsIncludes (errMsg e) "timeout" = true) :
    (warmupModels W s).1 = .ok false ∧
    (warmupModels W s).2.warmupAttempts = 0 ∧
    (warmupModels W s).2.warmupComplete = false ∧
    (∀ name m, e = .error name m → m ≠ "" → errMsg e = m) := by
  have htr : isTransient e = true := by
    rcases ht with ht | ht <;> simp [isTransient, ht]
  rw [warmupModels_cycle W s hc ha]
  cases hw : warmupTry W (countAttempt s) with
  | mk r s1 =>
    rw [hw] at he
    simp only at he
    subst he
    simp only [htr, if_true]
    refine ⟨trivial, trivial, trivial, ?_⟩
    intro name m hm hne
    subst hm
    simp [errMsg, Thrown.message, hne]

/-- Witness for C14, the scenario of the specification: session creation throws
`Error("model downloadable")` in the second of three attempts, and the counter
is 0 afterwards, not 2. -/
theorem warmup_transient_reset_witness :
    (warmupModels
        { stubWorld (.str "available") (.ok (.str "x")) with
          create := fun _ => .error (mkError "model downloadable") }
        { coldState with warmupAttempts := 1 }).2.warmupAttempts = 0 :=
  (warmup_transient_reset
    { stubWorld (.str "available") (.ok (.str "x")) with
      create := fun _ => .error (mkError "model downloadable") }
    { coldState with warmupAttempts := 1 } (mkError "model downloadable")
    rfl (by decide) (by rfl) (Or.inl (by decide))).2.1

/-! ## Warmup exhaustion -/

/-- A warmup cycle that fails with a non-transient error returns false, counts
the attempt and leaves the worker not warm. -/
theorem warmup_failsHard_step (W : World) (s : St) (h : FailsHard W s) :
    (warmupModels W s).1 = .ok false ∧
    (warmupModels W s).2.warmupAttempts = s.warmupAttempts + 1 ∧
    (warmupModels W s).2.warmupComplete = false := by
  obtain ⟨hc, ha, e, he, ht⟩ := h
  have hk := warmupTry_keeps W (countAttempt s)
  rw [warmupModels_cycle W s hc ha]
  cases hw : warmupTry W (countAttempt s) with
  | mk r s1 =>
    rw [hw] at he hk
    simp only at he
    subst he
    simp only [Prod.mk.injEq] at hk
    simp only [ht, Bool.false_eq_true, if_false]
    exact ⟨trivial, hk.2, trivial⟩

/-- The start event resets the warmup variables and runs `warmupModels`. -/
theorem onStartup_run (W : World) (s : St) :
    (onStartup W s).2 =
      (warmupModels W { s with warmupComplete := false, warmupAttempts := 0 }).2 := by
  simp only [onStartup, bind_run, modifySt_run, pure_run]
  cases warmupModels W { s with warmupComplete := false, warmupAttempts := 0 } with
  | mk r s1 => cases r <;> rfl

/-- After a start event the attempt counter is at most 1: the reset to 0 took
place and at most the one cycle that follows was counted. -/
theorem onStartup_attempts (W : World) (s : St) : (onStartup W s).2.warmupAttempts ≤ 1 := by
  rw [onStartup_run,
    warmupModels_cycle W { s with warmupComplete := false, warmupAttempts := 0 } rfl
      (by show (0 : Nat) < 3; decide)]
  have hk := warmupTry_keeps W
    (countAttempt { s with warmupComplete := false, warmupAttempts := 0 })
  cases hw : warmupTry W
      (countAttempt { s with warmupComplete := false, warmupAttempts := 0 }) with
  | mk r s1 =>
    rw [hw] at hk
    simp only [Prod.mk.injEq] at hk
    cases r with
    | ok b =>
      simp only
      rw [hk.2]
      exact Nat.le_refl 1
    | throw e =>
      simp only
      split_ifs
      · exact Nat.zero_le 1
      · rw [hk.2]
        exact Nat.le_refl 1

theorem warmupTimes_succ (W : World) (n : Nat) (s : St) :
    warmupTimes W (n + 1) s = (warmupModels W (warmupTimes W n s)).2 := by
  induction n generalizing s with
  | zero => rfl
  | succ k ih =>
    show warmupTimes W (k + 1) (warmupModels W s).2 = _
    rw [ih]
    rfl

/-- C13: after three consecutive warmup cycles that each fail with a
non-transient error, each failure has increased the attempt counter by one, so
the counter is at `MAX_WARMUP_ATTEMPTS` with the worker not warm; every further
call of `warmupModels` returns false and leaves the whole state as it is, so
nothing is asked of the settings store or the provider and the warmup variables
are unchanged; the start event resets the counter and runs `warmupModels` from
the reset state, after which the counter is at most 1. -/
theorem warmup_exhaustion (W : World) (s : St) (h0 : FailsHard W s)
    (h1 : FailsHard W (warmupTimes W 1 s)) (h2 : FailsHard W (warmupTimes W 2 s)) :
    (warmupTimes W 1 s).warmupAttempts = s.warmupAttempts + 1 ∧
    (warmupTimes W 2 s).warmupAttempts = s.warmupAttempts + 2 ∧
    (warmupTimes W 3 s).warmupAttempts = MAX_WARMUP_ATTEMPTS ∧
    (warmupTimes W 3 s).warmupComplete = false ∧
    (∀ n, warmupModels W (warmupTimes W (3 + n) s) = (.ok false, warmupTimes W 3 s)) ∧
    (∀ n, callsSince (warmupTimes W 3 s) (warmupTimes W (3 + n) s) = []) ∧
    (onStartup W (warmupTimes W 3 s)).2 =
      (warmupModels W
        { warmupTimes W 3 s with warmupComplete := false, warmupAttempts := 0 }).2 ∧
    (onStartup W (warmupTimes W 3 s)).2.warmupAttempts ≤ 1 := by
  have e1 : warmupTimes W 1 s = (warmupModels W s).2 := rfl
  have e2 : warmupTimes W 2 s = (warmupModels W (warmupTimes W 1 s)).2 :=
    warmupTimes_succ W 1 s
  have e3 : warmupTimes W 3 s = (warmupModels W (warmupTimes W 2 s)).2 :=
    warmupTimes_succ W 2 s
  obtain ⟨-, a1, -⟩ := warmup_failsHard_step W s h0
  obtain ⟨-, a2, -⟩ := warmup_failsHard_step W _ h1
  obtain ⟨-, a3, c3⟩ := warmup_failsHard_step W _ h2
  rw [← e1] at a1
  rw [← e2, a1] at a2
  rw [← e3, a2] at a3
  have hlt : (warmupTimes W 2 s).warmupAttempts < MAX_WARMUP_ATTEMPTS := h2.2.1
  rw [a2] at hlt
  have hmax : (warmupTimes W 3 s).warmupAttempts = MAX_WARMUP_ATTEMPTS := by
    rw [a3]
    unfold MAX_WARMUP_ATTEMPTS at hlt ⊢
    omega
  rw [← e3] at c3
  have hstay : warmupModels W (warmupTimes W 3 s) = (.ok false, warmupTimes W 3 s) :=
    warmupModels_exhausted W _ c3 (Nat.le_of_eq hmax.symm)
  have hfix : ∀ n, warmupTimes W (3 + n) s = warmupTimes W 3 s := by
    intro n
    induction n with
    | zero => rfl
    | succ k ih =>
      rw [← Nat.add_assoc, warmupTimes_succ, ih, hstay]
  refine ⟨a1, a2, hmax, c3, fun n => ?_, fun n => ?_, onStartup_run W _,
    onStartup_attempts W _⟩
  · rw [hfix n]
    exact hstay
  · rw [hfix n]
    simp [callsSince]

/-- Witness for C13: a worker without a provider, where every cycle fails with
"Language model is unavailable in this browser.". -/
theorem warmup_exhaustion_witness :
    (warmupTimes
      { stubWorld (.str "available") (.ok (.str "x")) with hasLanguageModel := false }
      3 coldState).warmupAttempts = MAX_WARMUP_ATTEMPTS :=
  (warmup_exhaustion
    { stubWorld (.str "available") (.ok (.str "x")) with hasLanguageModel := false }
    coldState
    ⟨rfl, by decide, mkError "Language model is unavailable in this browser.", by rfl,
      by decide⟩
    ⟨by rfl, by decide, mkError "Language model is unavailable in this browser.", by rfl,
      by decide⟩
    ⟨by rfl, by decide, mkError "Language model is unavailable in this browser.", by rfl,
      by decide⟩).2.2.1

/-! ## The invariant of the warmup state -/

theorem preserves_pure {α : Type} (I : St → Prop) (a : α) : Preserves I (pure a : M α) :=
  fun _ h => h

theorem preserves_throw {α : Type} (I : St → Prop) (e : Thrown) :
    Preserves I (throwJs e : M α) :=
  fun _ h => h

theorem preserves_bind {α β : Type} (I : St → Prop) (x : M α) (f : α → M β)
    (hx : Preserves I x) (hf : ∀ a, Preserves I (f a)) : Preserves I (x >>= f) := by
  intro s hs
  have h1 := hx s hs
  rw [bind_run]
  cases hxs : x s with
  | mk r s1 =>
    rw [hxs] at h1
    cases r with
    | ok a => exact hf a s1 h1
    | throw e => exact h1

theorem preserves_ite {α : Type} (I : St → Prop) (c : Prop) [Decidable c] (x y : M α)
    (hx : Preserves I x) (hy : Preserves I y) : Preserves I (if c then x else y) := by
  split_ifs
  · exact hx
  · exact hy

/-- What keeps the warmup variables keeps the invariant. -/
theorem preserves_of_keeps_outer {α : Type} (x : M α) (h : Keeps outer x) :
    Preserves AttemptsInBudget x := by
  intro s hs
  have hk := h s
  simp only [outer, Prod.mk.injEq] at hk
  unfold AttemptsInBudget at hs ⊢
  rw [hk.2.2]
  exact hs

/-- A call of `warmupModels` keeps the attempt counter within its budget. -/
theorem warmupModels_preserves (W : World) : Preserves AttemptsInBudget (warmupModels W) := by
  intro s hs
  unfold AttemptsInBudget at hs ⊢
  by_cases hc : s.warmupComplete = true
  · rw [warmupModels_warm W s hc]
    exact hs
  · simp only [Bool.not_eq_true] at hc
    by_cases ha : s.warmupAttempts ≥ MAX_WARMUP_ATTEMPTS
    · rw [warmupModels_exhausted W s hc ha]
      exact hs
    · have ha2 : s.warmupAttempts < MAX_WARMUP_ATTEMPTS := Nat.not_le.mp ha
      have hk := warmupTry_keeps W (countAttempt s)
      rw [warmupModels_cycle W s hc ha2]
      cases hw : warmupTry W (countAttempt s) with
      | mk r s1 =>
        rw [hw] at hk
        simp only [Prod.mk.injEq] at hk
        have h1 : s1.warmupAttempts = s.warmupAttempts + 1 := hk.2
        cases r with
        | ok b =>
          simp only
          rw [h1]
          exact ha2
        | throw e =>
          simp only
          split_ifs
          · exact Nat.zero_le _
          · rw [h1]
            exact ha2

theorem dispatch_preserves (W : World) (action : String) (data : Data) :
    Preserves AttemptsInBudget (dispatch W action data) := by
  unfold dispatch
  refine preserves_ite _ _ _ _ ?_ ?_
  · refine preserves_ite _ _ _ _ (preserves_throw _ _) ?_
    exact preserves_bind _ _ _ (preserves_of_keeps_outer _ (rewrite_keeps_outer W _ _))
      (fun _ => preserves_pure _ _)
  refine preserves_ite _ _ _ _ ?_ ?_
  · refine preserves_ite _ _ _ _ (preserves_throw _ _) ?_
    exact preserves_bind _ _ _ (preserves_of_keeps_outer _ (shorten_keeps_outer W _))
      (fun _ => preserves_pure _ _)
  refine preserves_ite _ _ _ _ ?_ ?_
  · refine preserves_ite _ _ _ _ (preserves_throw _ _) ?_
    exact preserves_bind _ _ _ (preserves_of_keeps_outer _ (expand_keeps_outer W _))
      (fun _ => preserves_pure _ _)
  refine preserves_ite _ _ _ _ ?_ ?_
  · refine preserves_ite _ _ _ _ (preserves_throw _ _) ?_
    exact preserves_bind _ _ _ (preserves_of_keeps_outer _ (proofread_keeps_outer W _))
      (fun _ => preserves_pure _ _)
  refine preserves_ite _ _ _ _ ?_ ?_
  · refine preserves_ite _ _ _ _ (preserves_throw _ _) ?_
    exact preserves_bind _ _ _ (preserves_of_keeps_outer _ (write_keeps_outer W _ _))
      (fun _ => preserves_pure _ _)
  refine preserves_ite _ _ _ _ ?_ ?_
  · refine preserves_ite _ _ _ _ (preserves_throw _ _) ?_
    exact preserves_bind _ _ _ (preserves_of_keeps_outer _ (write_keeps_outer W _ _))
      (fun _ => preserves_pure _ _)
  refine preserves_ite _ _ _ _ ?_ ?_
  · refine preserves_bind _ _ _ ?_ (fun _ => preserves_pure _ _)
    exact preserves_bind _ _ _ (fun _ h => h) (fun _ => preserves_pure _ _)
  refine preserves_ite _ _ _ _ ?_ (preserves_throw _ _)
  exact preserves_bind _ _ _ (warmupModels_preserves W) (fun _ => preserves_pure _ _)

/-- What the handler leaves behind once it gets to the dispatch keeps the invariant. -/
theorem handler_proceed_preserves (W : World) (r : Request) (s s1 : St)
    (hf : falsy r.action = false)
    (h1 : (s.warmupComplete = true ∧ s1 = s) ∨
      (s.warmupComplete = false ∧ warmupModels W s = (.ok true, s1)))
    (hs1 : AttemptsInBudget s1) : AttemptsInBudget (handler W (some r) s).2 := by
  have hr : AttemptsInBudget (refreshAvailability W s1).2 :=
    preserves_of_keeps_outer _ (refresh_keeps_outer W) s1 hs1
  have hd := dispatch_preserves W (r.action.getD "") (r.data.getD emptyData) _ hr
  rw [handler_proceed W r s s1 hf h1]
  cases hdis : dispatch W (r.action.getD "") (r.data.getD emptyData)
      (refreshAvailability W s1).2 with
  | mk res s2 =>
    rw [hdis] at hd
    cases res <;> exact hd

theorem handler_preserves (W : World) (request : Option Request) :
    Preserves AttemptsInBudget (handler W request) := by
  intro s hs
  cases request with
  | none => exact hs
  | some r =>
    by_cases hf : falsy r.action = true
    · have hrun : handler W (some r) s =
          (.ok (), { s with sent := s.sent ++ [failure "Invalid request: missing action"] }) := by
        simp [handler, tryCatchJs_run, hf, sendResponse]
      rw [hrun]
      exact hs
    · simp only [Bool.not_eq_true] at hf
      by_cases hc : s.warmupComplete = true
      · exact handler_proceed_preserves W r s s hf (Or.inl ⟨hc, rfl⟩) hs
      · simp only [Bool.not_eq_true] at hc
        obtain ⟨b, hb⟩ := warmupModels_fst W s
        have hw : warmupModels W s = (.ok b, (warmupModels W s).2) := by
          rw [← hb]
        have hs1 := warmupModels_preserves W s hs
        cases b with
        | false =>
          rw [handler_failfast W r s _ hf hc hw]
          exact hs1
        | true => exact handler_proceed_preserves W r s _ hf (Or.inr ⟨hc, hw⟩) hs1

/-- C15: in every state reachable from a state with `warmupComplete` false and
`warmupAttempts` 0 by any sequence of calls of `warmupModels`, handled requests
and start events, with any provider behaviour, the attempt counter is at least
0 and at most `MAX_WARMUP_ATTEMPTS`, which is 3. -/
theorem attempts_within_budget (W : World) (s : St) (h : Reachable W s) :
    0 ≤ s.warmupAttempts ∧ s.warmupAttempts ≤ MAX_WARMUP_ATTEMPTS ∧ MAX_WARMUP_ATTEMPTS = 3 := by
  refine ⟨Nat.zero_le _, ?_, rfl⟩
  induction h with
  | cold s0 hc ha =>
    rw [ha]
    exact Nat.zero_le _
  | warmup s0 _ ih => exact warmupModels_preserves W s0 ih
  | request s0 request _ ih => exact handler_preserves W request s0 ih
  | start s0 _ ih =>
    exact Nat.le_trans (onStartup_attempts W s0) (by show (1 : Nat) ≤ 3; decide)

/-- Witness for C15: the state after a failed cycle, a start event and a request
in a worker without a provider. -/
theorem attempts_within_budget_witness :
    (handler { stubWorld (.str "available") (.ok (.str "x")) with hasLanguageModel := false }
      (some { action := some "shorten", data := none })
      (onStartup
        { stubWorld (.str "available") (.ok (.str "x")) with hasLanguageModel := false }
        (warmupModels
          { stubWorld (.str "available") (.ok (.str "x")) with hasLanguageModel := false }
          coldState).2).2).2.warmupAttempts ≤ MAX_WARMUP_ATTEMPTS :=
  (attempts_within_budget _ _
    (Reachable.request _ _
      (Reachable.start _ (Reachable.warmup _ (Reachable.cold coldState rfl rfl))))).2.1

/-! ## A downloading model and the warmup -/

/-- C16, as the claim states it, fails: in a cold worker whose provider reports
"downloadable", `init` returns false and creates no Session, and
`warmupModels`, which only reacts to a throw, returns true and sets
`warmupComplete`; the attempt that was counted stays counted, it is not reset
to 0. -/
theorem warmup_downloadable_marks_warm :
    (init (stubWorld (.str "downloadable") (.ok (.str "x"))) coldState).1 = .ok false ∧
    (warmupModels (stubWorld (.str "downloadable") (.ok (.str "x"))) coldState).1 = .ok true ∧
    (warmupModels (stubWorld (.str "downloadable") (.ok (.str "x")))
      coldState).2.warmupComplete = true ∧
    (warmupModels (stubWorld (.str "downloadable") (.ok (.str "x")))
      coldState).2.warmupAttempts = 1 ∧
    (warmupModels (stubWorld (.str "downloadable") (.ok (.str "x")))
      coldState).2.session = none := by
  decide

/-! ## Fail fast when not warm -/

theorem emitsOnThrow_bind {α β : Type} (Q : Call → Prop) (x : M α) (f : α → M β)
    (hx : Emits Q x) (hf : ∀ a, EmitsOnThrow Q (f a)) : EmitsOnThrow Q (x >>= f) := by
  intro s e he
  obtain ⟨l1, h1, q1⟩ := hx s
  rw [bind_run] at he ⊢
  cases hxs : x s with
  | mk r s1 =>
    rw [hxs] at h1 he
    cases r with
    | throw e1 => exact ⟨l1, h1, q1⟩
    | ok a =>
      obtain ⟨l2, h2, q2⟩ := hf a s1 e he
      refine ⟨l1 ++ l2, ?_, ?_⟩
      · simp only at h1 ⊢
        rw [h2, h1, List.append_assoc]
      · intro c hc
        rcases List.mem_append.mp hc with hc | hc
        · exact q1 c hc
        · exact q2 c hc

/-- What never throws satisfies every condition on its throws. -/
theorem emitsOnThrow_of_total {α : Type} (Q : Call → Prop) (x : M α)
    (h : ∀ s, ∃ a, (x s).1 = .ok a) : EmitsOnThrow Q x := by
  intro s e he
  obtain ⟨a, ha⟩ := h s
  rw [ha] at he
  exact absurd he (by simp)

theorem applyPreferredLanguage_emits (W : World) :
    Emits (fun c => c.isPrompt = false) (applyPreferredLanguage W) := by
  unfold applyPreferredLanguage setLanguage
  repeat (first
    | exact emits_pure _ _ | exact emits_throw _ _ | exact emits_getSt _
    | exact emits_modifySt _ _ (fun _ => rfl)
    | exact emits_callWorld _ _ _ rfl
    | refine emits_bind _ _ _ ?_ (fun _ => ?_)
    | refine emits_ite _ _ _ _ ?_ ?_
    | split)

theorem warmupFinish_emitsOnThrow (W : World) :
    EmitsOnThrow (fun c => c.isPrompt = false) (warmupFinish W) := by
  unfold warmupFinish
  refine emitsOnThrow_bind _ _ _ (emits_callWorld _ _ _ rfl) (fun _ => ?_)
  refine emitsOnThrow_bind _ _ _ (emits_callWorld _ _ _ rfl) (fun d => ?_)
  apply emitsOnThrow_of_total
  intro s
  cases d with
  | false => exact ⟨true, rfl⟩
  | true =>
    refine ⟨true, ?_⟩
    simp only [if_true]
    rw [bind_run_ok _ _ s () (tryCatchJs_swallow _ _)]
    rfl

theorem warmupTry_emitsOnThrow (W : World) :
    EmitsOnThrow (fun c => c.isPrompt = false) (warmupTry W) := by
  unfold warmupTry
  refine emitsOnThrow_bind _ _ _ (applyPreferredLanguage_emits W) (fun _ => ?_)
  refine emitsOnThrow_bind _ _ _ (init_emits W) (fun _ => ?_)
  exact emitsOnThrow_bind _ _ _ (emits_modifySt _ _ (fun _ => rfl))
    (fun _ => warmupFinish_emitsOnThrow W)

/-- A call of `warmupModels` that returns false has not prompted a Session. -/
theorem warmupModels_false_no_prompt (W : World) (s : St)
    (h : (warmupModels W s).1 = .ok false) :
    (callsSince s (warmupModels W s).2).any Call.isPrompt = false := by
  by_cases hc : s.warmupComplete = true
  · rw [warmupModels_warm W s hc]
    simp [callsSince]
  · simp only [Bool.not_eq_true] at hc
    by_cases ha : s.warmupAttempts ≥ MAX_WARMUP_ATTEMPTS
    · rw [warmupModels_exhausted W s hc ha]
      simp [callsSince]
    · have ha2 : s.warmupAttempts < MAX_WARMUP_ATTEMPTS := Nat.not_le.mp ha
      rw [warmupModels_cycle W s hc ha2] at h ⊢
      cases hw : warmupTry W (countAttempt s) with
      | mk r s1 =>
        rw [hw] at h
        cases r with
        | ok b =>
          have hb := (warmupTry_ok W _ s1 b hw).1
          simp only [Res.ok.injEq] at h
          rw [hb] at h
          exact absurd h (by simp)
        | throw e =>
          obtain ⟨l, hl, hq⟩ := warmupTry_emitsOnThrow W (countAttempt s) e (by rw [hw])
          rw [hw] at hl
          simp only at hl
          have hl2 : s1.log = s.log ++ l := hl
          have hcs : callsSince s
              { s1 with
                warmupComplete := false,
                warmupAttempts := if isTransient e = true then 0 else s1.warmupAttempts } = l :=
            callsSince_of_log s _ l hl2
          simp only
          rw [hcs, List.any_eq_false]
          intro c hcl
          rw [hq c hcl]
          simp

/-- C17: for every request that carries an action, if `warmupComplete` is false
and the inline warmup cycle returns false, the handler responds with the
fail-fast envelope and does nothing after the cycle: the state it leaves is the
state after the cycle with the one response added, so there is no per-request
availability refresh and no task call, and no Session was prompted during the
request.  In the exhausted state, with the attempts used up, the state is the
one before the request with the response added: no provider call is made. -/
theorem handler_fails_fast (W : World) (r : Request) (s : St)
    (hf : falsy r.action = false) (hc : s.warmupComplete = false)
    (hw : (warmupModels W s).1 = .ok false) :
    handler W (some r) s =
      (.ok (), { (warmupModels W s).2 with
        sent := s.sent ++ [failure
          "AI models unavailable. Ensure Chrome 128+ with Built-in AI enabled, Optimization Guide On Device Model installed, and try again."] }) ∧
    (callsSince s (handler W (some r) s).2).any Call.isPrompt = false ∧
    (s.warmupAttempts ≥ MAX_WARMUP_ATTEMPTS →
      (handler W (some r) s).2 =
        { s with sent := s.sent ++ [failure unavailableMessage] } ∧
      (handler W (some r) s).2.log = s.log) := by
  have hw2 : warmupModels W s = (.ok false, (warmupModels W s).2) := by
    rw [← hw]
  have hsent := warmupModels_keeps_sent W s
  have hrun : handler W (some r) s =
      (.ok (), { (warmupModels W s).2 with
        sent := s.sent ++ [failure unavailableMessage] }) := by
    rw [handler_failfast W r s _ hf hc hw2, hsent]
  refine ⟨hrun, ?_, fun ha => ?_⟩
  · rw [hrun]
    exact warmupModels_false_no_prompt W s hw
  · rw [hrun, warmupModels_exhausted W s hc ha]
    exact ⟨rfl, rfl⟩

/-- Witness for C17: a request to an exhausted worker. -/
theorem handler_fails_fast_witness :
    (handler (stubWorld (.str "available") (.ok (.str "x")))
      (some { action := some "shorten", data := some { emptyData with text := some "hello" } })
      { coldState with warmupAttempts := 3 }).2 =
      { coldState with
        warmupAttempts := 3,
        sent := [failure unavailableMessage] } :=
  ((handler_fails_fast (stubWorld (.str "available") (.ok (.str "x")))
    { action := some "shorten", data := some { emptyData with text := some "hello" } }
    { coldState with warmupAttempts := 3 } (by decide) rfl (by rfl)).2.2 (by decide)).1

/-! ## The availability action -/

theorem dispatch_availability (W : World) (data : Data) (s : St) :
    dispatch W "availability" data s = (.ok (.avail s.avail), s) := by
  simp [dispatch, getAvailability]

/-- The calls a refresh makes include no prompt. -/
theorem refresh_no_prompt (W : World) (s : St) :
    (callsSince s (refreshAvailability W s).2).any Call.isPrompt = false := by
  obtain ⟨l, hl, hq⟩ := refresh_emits W s
  rw [callsSince_of_log s _ l hl, List.any_eq_false]
  intro c hc
  rw [hq c hc]
  simp [Call.isPrompt]

/-- The availability action once the handler gets to the dispatch: the refresh
and the response with the snapshot it stored. -/
theorem handler_availability_proceed (W : World) (r : Request) (s s1 : St)
    (ha : r.action = some "availability")
    (h1 : (s.warmupComplete = true ∧ s1 = s) ∨
      (s.warmupComplete = false ∧ warmupModels W s = (.ok true, s1))) :
    handler W (some r) s =
      (.ok (), { (refreshAvailability W s1).2 with
        sent := s.sent ++ [success (.avail (refreshAvailability W s1).2.avail)] }) := by
  have hf : falsy r.action = false := by
    rw [ha]
    decide
  have hsent : s1.sent = s.sent := by
    rcases h1 with ⟨-, hs⟩ | ⟨-, hw⟩
    · rw [hs]
    · have := warmupModels_keeps_sent W s
      rw [hw] at this
      exact this
  have hk1 : (refreshAvailability W s1).2.sent = s1.sent :=
    sent_of_outer _ (refresh_keeps_outer W) s1
  rw [handler_proceed W r s s1 hf h1, ha]
  simp only [Option.getD_some, dispatch_availability]
  rw [hk1, hsent]

/-- C18, as the claim states it, fails: in a cold worker the availability
action first runs the inline warmup cycle, which creates a Session, sets
`warmupComplete` and counts an attempt. -/
theorem availability_action_cold_has_side_effects :
    coldState.session = none ∧ coldState.warmupComplete = false ∧
    coldState.warmupAttempts = 0 ∧
    (handler (stubWorld (.str "available") (.ok (.str "x")))
      (some { action := some "availability", data := none }) coldState).2.session =
      some { id := 2, topK := some 3, temperature := some 1 } ∧
    (handler (stubWorld (.str "available") (.ok (.str "x")))
      (some { action := some "availability", data := none }) coldState).2.warmupComplete
      = true ∧
    (handler (stubWorld (.str "available") (.ok (.str "x")))
      (some { action := some "availability", data := none }) coldState).2.warmupAttempts = 1 ∧
    (callsSince coldState
      (handler (stubWorld (.str "available") (.ok (.str "x")))
        (some { action := some "availability", data := none }) coldState).2).any Call.isCreate
      = true := by
  decide

/-- C18 (amended): in every warm state the availability action responds
`{success:true, result: s}` where `s` is the snapshot the per-request refresh
has just computed, and apart from that refresh and the response it has no side
effect: the warmup variables and the Session reference are as before, no
Session is created and none is prompted.  In a state that is not warm the inline
warmup cycle runs first; when it returns true the response is the snapshot of
the refresh made after it, and when it returns false the response is the
fail-fast envelope. -/
theorem availability_action (W : World) (r : Request) (s : St)
    (ha : r.action = some "availability") :
    (s.warmupComplete = true →
      handler W (some r) s =
        (.ok (), { (refreshAvailability W s).2 with
          sent := s.sent ++ [success (.avail (refreshAvailability W s).2.avail)] }) ∧
      (handler W (some r) s).2.warmupComplete = s.warmupComplete ∧
      (handler W (some r) s).2.warmupAttempts = s.warmupAttempts ∧
      (handler W (some r) s).2.session = s.session ∧
      (callsSince s (handler W (some r) s).2).any Call.isCreate = false ∧
      (callsSince s (handler W (some r) s).2).any Call.isPrompt = false) ∧
    (s.warmupComplete = false → (warmupModels W s).1 = .ok true →
      handler W (some r) s =
        (.ok (), { (refreshAvailability W (warmupModels W s).2).2 with
          sent := s.sent ++
            [success (.avail (refreshAvailability W (warmupModels W s).2).2.avail)] })) ∧
    (s.warmupComplete = false → (warmupModels W s).1 = .ok false →
      (handler W (some r) s).2.sent = s.sent ++ [failure unavailableMessage]) := by
  have hf : falsy r.action = false := by
    rw [ha]
    decide
  refine ⟨fun hc => ?_, fun hc hw => ?_, fun hc hw => ?_⟩
  · have hrun := handler_availability_proceed W r s s ha (Or.inl ⟨hc, rfl⟩)
    have hk := refresh_keeps W s
    simp only [Prod.mk.injEq] at hk
    rw [hrun]
    exact ⟨rfl, hk.2.2.1, hk.2.2.2.1, hk.1, refresh_no_create W s, refresh_no_prompt W s⟩
  · have hw2 : warmupModels W s = (.ok true, (warmupModels W s).2) := by
      rw [← hw]
    exact handler_availability_proceed W r s _ ha (Or.inr ⟨hc, hw2⟩)
  · have hw2 : warmupModels W s = (.ok false, (warmupModels W s).2) := by
      rw [← hw]
    rw [handler_failfast W r s _ hf hc hw2, warmupModels_keeps_sent W s]

/-- Witness for C18: the availability action in a warm worker. -/
theorem availability_action_witness :
    (handler (stubWorld (.str "blocked") (.ok (.str "x")))
      (some { action := some "availability", data := none })
      { coldState with warmupComplete := true }).2.session = none :=
  ((availability_action (stubWorld (.str "blocked") (.ok (.str "x")))
    { action := some "availability", data := none }
    { coldState with warmupComplete := true } rfl).1 rfl).2.2.2.1

/-! ## The warmup action -/

theorem dispatch_warmup (W : World) (data : Data) (s : St) :
    dispatch W "warmup" data s =
      match warmupModels W s with
      | (.ok b, s1) => (.ok (.ok b), s1)
      | (.throw e, s1) => (.throw e, s1) := by
  simp only [dispatch, String.reduceEq, if_false, if_true, bind_run]
  cases warmupModels W s with
  | mk r s1 => cases r <;> rfl

/-- When `warmupModels` returns true the worker is warm. -/
theorem warmupModels_true_complete (W : World) (s : St)
    (h : (warmupModels W s).1 = .ok true) : (warmupModels W s).2.warmupComplete = true := by
  by_cases hc : s.warmupComplete = true
  · rw [warmupModels_warm W s hc]
    exact hc
  · simp only [Bool.not_eq_true] at hc
    by_cases ha : s.warmupAttempts ≥ MAX_WARMUP_ATTEMPTS
    · rw [warmupModels_exhausted W s hc ha] at h
      exact absurd h (by simp)
    · have ha2 : s.warmupAttempts < MAX_WARMUP_ATTEMPTS := Nat.not_le.mp ha
      rw [warmupModels_cycle W s hc ha2] at h ⊢
      cases hw : warmupTry W (countAttempt s) with
      | mk r s1 =>
        rw [hw] at h
        cases r with
        | ok b => exact (warmupTry_ok W _ s1 b hw).2
        | throw e => exact absurd h (by simp)

/-- The warmup action once the handler gets to the dispatch in a warm worker:
the refresh and the response `{ok: true}`; `warmupModels` returns at once. -/
theorem handler_warmup_proceed (W : World) (r : Request) (s s1 : St)
    (ha : r.action = some "warmup") (hc1 : s1.warmupComplete = true)
    (h1 : (s.warmupComplete = true ∧ s1 = s) ∨
      (s.warmupComplete = false ∧ warmupModels W s = (.ok true, s1))) :
    handler W (some r) s =
      (.ok (), { (refreshAvailability W s1).2 with sent := s.sent ++ [success (.ok true)] }) := by
  have hf : falsy r.action = false := by
    rw [ha]
    decide
  have hsent : s1.sent = s.sent := by
    rcases h1 with ⟨-, hs⟩ | ⟨-, hw⟩
    · rw [hs]
    · have := warmupModels_keeps_sent W s
      rw [hw] at this
      exact this
  have hk := refresh_keeps W s1
  simp only [Prod.mk.injEq] at hk
  rw [handler_proceed W r s s1 hf h1, ha]
  simp only [Option.getD_some, dispatch_warmup]
  rw [warmupModels_warm W _ (hk.2.2.1.trans hc1)]
  simp only
  rw [hk.2.1, hsent]

/-- C19, as the claim states it, fails in a warm and in an exhausted worker.
Warm and without a Session: the request asks the provider for its availability
once and nothing else, where `init` would have created a Session; the answer is
`{ok: true}` without a cycle.  Exhausted: nothing is called and the answer is
the fail-fast envelope, not `{success:true, result:{ok:false}}`. -/
theorem warmup_action_runs_no_cycle :
    (handler (stubWorld (.str "available") (.ok (.str "x")))
      (some { action := some "warmup", data := none })
      { coldState with warmupComplete := true }).2.log = [Call.availability] ∧
    (handler (stubWorld (.str "available") (.ok (.str "x")))
      (some { action := some "warmup", data := none })
      { coldState with warmupComplete := true }).2.session = none ∧
    (init (stubWorld (.str "available") (.ok (.str "x")))
      { coldState with warmupComplete := true }).2.session.isSome = true ∧
    (handler (stubWorld (.str "available") (.ok (.str "x")))
      (some { action := some "warmup", data := none })
      { coldState with warmupComplete := true }).2.sent = [success (.ok true)] ∧
    (handler (stubWorld (.str "available") (.ok (.str "x")))
      (some { action := some "warmup", data := none })
      { coldState with warmupAttempts := 3 }).2.log = [] ∧
    (handler (stubWorld (.str "available") (.ok (.str "x")))
      (some { action := some "warmup", data := none })
      { coldState with warmupAttempts := 3 }).2.sent = [failure unavailableMessage] := by
  decide

/-- C19 (amended): the warmup action runs a warmup cycle only through the gate
of the handler, when the worker is not warm and attempts are left.  In a warm
worker no cycle is run: the request makes the per-request refresh and responds
`{success:true, result:{ok:true}}`.  In a worker that is not warm, when the
inline cycle returns true the response is `{success:true, result:{ok:true}}`,
and when it returns false, as it does without a cycle in the exhausted state,
the response is the fail-fast envelope and nothing else is done. -/
theorem warmup_action (W : World) (r : Request) (s : St) (ha : r.action = some "warmup") :
    (s.warmupComplete = true →
      handler W (some r) s =
        (.ok (), { (refreshAvailability W s).2 with
          sent := s.sent ++ [success (.ok true)] })) ∧
    (s.warmupComplete = false → (warmupModels W s).1 = .ok true →
      handler W (some r) s =
        (.ok (), { (refreshAvailability W (warmupModels W s).2).2 with
          sent := s.sent ++ [success (.ok true)] })) ∧
    (s.warmupComplete = false → (warmupModels W s).1 = .ok false →
      handler W (some r) s =
        (.ok (), { (warmupModels W s).2 with
          sent := s.sent ++ [failure unavailableMessage] })) ∧
    (s.warmupComplete = false → s.warmupAttempts ≥ MAX_WARMUP_ATTEMPTS →
      handler W (some r) s =
        (.ok (), { s with sent := s.sent ++ [failure unavailableMessage] })) := by
  have hf : falsy r.action = false := by
    rw [ha]
    decide
  refine ⟨fun hc => ?_, fun hc hw => ?_, fun hc hw => ?_, fun hc hex => ?_⟩
  · exact handler_warmup_proceed W r s s ha hc (Or.inl ⟨hc, rfl⟩)
  · have hw2 : warmupModels W s = (.ok true, (warmupModels W s).2) := by
      rw [← hw]
    exact handler_warmup_proceed W r s _ ha (warmupModels_true_complete W s hw)
      (Or.inr ⟨hc, hw2⟩)
  · have hw2 : warmupModels W s = (.ok false, (warmupModels W s).2) := by
      rw [← hw]
    rw [handler_failfast W r s _ hf hc hw2, warmupModels_keeps_sent W s]
  · rw [handler_failfast W r s s hf hc (warmupModels_exhausted W s hc hex)]

/-- Witness for C19: the warmup action in a warm worker. -/
theorem warmup_action_witness :
    handler (stubWorld (.str "available") (.ok (.str "x")))
      (some { action := some "warmup", data := none })
      { coldState with warmupComplete := true } =
      (.ok (), { (refreshAvailability (stubWorld (.str "available") (.ok (.str "x")))
          { coldState with warmupComplete := true }).2 with
        sent := [success (.ok true)] }) :=
  (warmup_action (stubWorld (.str "available") (.ok (.str "x")))
    { action := some "warmup", data := none }
    { coldState with warmupComplete := true } rfl).1 rfl

/-! ## Explain is a write task -/

/-- With a stub provider, a task request with a non-blank primary text is
answered with the trimmed output of the provider. -/
theorem handler_stub_sent (W : World) (out : String) (r : Request) (s : St)
    (hW : StubProvider W out) (ho : jsTrim out ≠ "")
    (ha : r.action ∈ taskActions.map some)
    (ht : isMissingOrBlank (primaryText r) = false)
    (hs : s.warmupComplete = true ∨ s.warmupAttempts < MAX_WARMUP_ATTEMPTS) :
    (handler W (some r) s).2.sent = s.sent ++ [success (.text (jsTrim out))] := by
  have hf : falsy r.action = false := by
    simp only [taskActions, List.map_cons, List.map_nil, List.mem_cons, List.mem_singleton,
      List.not_mem_nil, or_false] at ha
    rcases ha with ha | ha | ha | ha | ha | ha <;> rw [ha] <;> decide
  have hdisp : ∀ s1 : St,
      (dispatch W (r.action.getD "") (r.data.getD emptyData) (refreshAvailability W s1).2).1 =
        .ok (.text (jsTrim out)) := by
    intro s1
    apply dispatch_stub W out hW ho _ r ha ht
    rw [refresh_stub W out hW s1]
    decide
  by_cases hc : s.warmupComplete = true
  · obtain ⟨-, e, he, -, -, hres⟩ := handler_proceed_answer W r s s hf (Or.inl ⟨hc, rfl⟩)
    rw [hres _ (hdisp s)] at he
    exact he
  · simp only [Bool.not_eq_true] at hc
    have hattempts : s.warmupAttempts < MAX_WARMUP_ATTEMPTS := by
      rcases hs with hs | hs
      · rw [hc] at hs
        exact absurd hs (by simp)
      · exact hs
    have hw := warmupModels_stub W out hW s hc hattempts
    have hw2 : warmupModels W s = (.ok true, (warmupModels W s).2) := by
      rw [← hw]
    obtain ⟨-, e, he, -, -, hres⟩ :=
      handler_proceed_answer W r s (warmupModels W s).2 hf (Or.inr ⟨hc, hw2⟩)
    rw [hres _ (hdisp _)] at he
    exact he

/-- The dispatch of `explain` on a non-empty text is the engine call
`write({ instruction, context: text })` with the fixed instruction. -/
theorem dispatch_explain (W : World) (t : String) (ht : t ≠ "") :
    dispatch W "explain" { emptyData with text := some t } =
      (write W (some explainInstruction) (some t) >>= fun r => pure (.text r)) := by
  simp only [dispatch, String.reduceEq, if_false, if_true, falsy, ht, decide_False,
    Bool.false_eq_true]
  rfl

/-- The dispatch of `write` with the fixed instruction and the text as context
is the same engine call. -/
theorem dispatch_write_for (W : World) (t : String) :
    dispatch W "write"
        { emptyData with instruction := some explainInstruction, context := some t } =
      (write W (some explainInstruction) (some t) >>= fun r => pure (.text r)) := by
  have hf : falsy (some explainInstruction) = false := by decide
  simp only [dispatch, String.reduceEq, if_false, if_true, hf, Bool.false_eq_true]
  rfl

/-- C20, as the claim states it, fails for the empty text: `explain` is refused
by the coordinator with "Nothing to explain" before any engine call, while the
`write` request with the empty context is run and answered by the model. -/
theorem explain_empty_text_is_not_write :
    (handler (stubWorld (.str "available") (.ok (.str "An explanation.")))
      (some (explainRequest "")) { coldState with warmupComplete := true }).2.sent =
      [failure "Nothing to explain"] ∧
    (callsSince { coldState with warmupComplete := true }
      (handler (stubWorld (.str "available") (.ok (.str "An explanation.")))
        (some (explainRequest "")) { coldState with warmupComplete := true }).2).any
      Call.isPrompt = false ∧
    (handler (stubWorld (.str "available") (.ok (.str "An explanation.")))
      (some (writeRequestFor "")) { coldState with warmupComplete := true }).2.sent =
      [success (.text "An explanation.")] ∧
    (callsSince { coldState with warmupComplete := true }
      (handler (stubWorld (.str "available") (.ok (.str "An explanation.")))
        (some (writeRequestFor "")) { coldState with warmupComplete := true }).2).any
      Call.isPrompt = true := by
  decide

/-- C20 (amended): for every non-empty text `t`, the `explain` request runs
exactly as the `write` request with the fixed instruction and `t` as context,
from the same state with the same provider: the same engine call
`write({ instruction, context: t })`, hence the same prompt, the same provider
calls and the same envelope.  The engine call prompts with `_writePrompt` of the
fixed instruction and `t`; for a non-blank `t` that prompt carries `t` inside
the `<<<CONTEXT` block and the fixed instruction inside the `<<<INSTRUCTION`
block; and with a stub provider the result is the trimmed output of the model. -/
theorem explain_is_write (W : World) (s : St) (t : String) (ht : t ≠ "") :
    handler W (some (explainRequest t)) s = handler W (some (writeRequestFor t)) s ∧
    dispatch W "explain" { emptyData with text := some t } =
      (write W (some explainInstruction) (some t) >>= fun r => pure (.text r)) ∧
    write W (some explainInstruction) (some t) =
      taskBody W (_writePrompt explainInstruction t) noParams ∧
    (isBlank t = false →
      _writePrompt explainInstruction t =
        joinLines [
          "Follow the instruction and draft a concise response.",
          "Use clear, direct language.",
          "Return only the draft.",
          "You may use the context to tailor wording without adding new facts.",
          "<<<CONTEXT", t, ">>>",
          "<<<INSTRUCTION", explainInstruction, ">>>"]) ∧
    (∀ out, StubProvider W out → jsTrim out ≠ "" → isBlank t = false →
      (s.warmupComplete = true ∨ s.warmupAttempts < MAX_WARMUP_ATTEMPTS) →
      (handler W (some (explainRequest t)) s).2.sent =
        s.sent ++ [success (.text (jsTrim out))]) := by
  refine ⟨?_, dispatch_explain W t ht, ?_, fun hb => ?_, fun out hW ho hb hs => ?_⟩
  · have h1 : dispatch W ((explainRequest t).action.getD "")
        ((explainRequest t).data.getD emptyData) =
        dispatch W ((writeRequestFor t).action.getD "")
          ((writeRequestFor t).data.getD emptyData) := by
      show dispatch W "explain" { emptyData with text := some t } =
        dispatch W "write"
          { emptyData with instruction := some explainInstruction, context := some t }
      rw [dispatch_explain W t ht, dispatch_write_for W t]
    have hf1 : falsy (explainRequest t).action = false := by
      show falsy (some "explain") = false
      decide
    have hf2 : falsy (writeRequestFor t).action = false := by
      show falsy (some "write") = false
      decide
    simp only [handler, hf1, hf2, Bool.false_eq_true, if_false, h1]
  · rw [write_eq]
    have hi : isMissingOrBlank (some explainInstruction) = false := by decide
    simp only [hi, Bool.false_eq_true, if_false]
    rfl
  · simp only [_writePrompt, hb, Bool.not_false, if_true]
    rfl
  · apply handler_stub_sent W out (explainRequest t) s hW ho
    · show some "explain" ∈ taskActions.map some
      decide
    · show isMissingOrBlank (some t) = false
      exact hb
    · exact hs

/-- Witness for C20, the scenario of the specification. -/
theorem explain_is_write_witness :
    handler (stubWorld (.str "available") (.ok (.str "Plants turn light into energy.")))
        (some (explainRequest "Photosynthesis converts light to energy.")) coldState =
      handler (stubWorld (.str "available") (.ok (.str "Plants turn light into energy.")))
        (some (writeRequestFor "Photosynthesis converts light to energy.")) coldState :=
  (explain_is_write (stubWorld (.str "available") (.ok (.str "Plants turn light into energy.")))
    coldState "Photosynthesis converts light to energy." (by decide)).1

/-! ## The warmup action never reports a failed warmup as ok false -/

/-- C30: in sequential execution the warmup action sends exactly one response,
which is either `{success:true, result:{ok:true}}` or the fail-fast envelope;
so a response with `success:true` carries `ok` true, `{ok:false}` is never
sent, and an inline warmup cycle that returns false is reported as the
`success:false` "AI models unavailable" envelope. -/
theorem warmup_action_never_reports_false (W : World) (r : Request) (s : St)
    (ha : r.action = some "warmup") :
    ((handler W (some r) s).2.sent = s.sent ++ [success (.ok true)] ∨
      (handler W (some r) s).2.sent = s.sent ++ [failure unavailableMessage]) ∧
    (∀ e, (handler W (some r) s).2.sent = s.sent ++ [e] → e.success = true →
      e.result = some (.ok true)) ∧
    (handler W (some r) s).2.sent ≠ s.sent ++ [success (.ok false)] ∧
    (s.warmupComplete = false → (warmupModels W s).1 = .ok false →
      (handler W (some r) s).2.sent = s.sent ++ [failure unavailableMessage]) := by
  have hf : falsy r.action = false := by
    rw [ha]
    decide
  have hfail : s.warmupComplete = false → (warmupModels W s).1 = .ok false →
      (handler W (some r) s).2.sent = s.sent ++ [failure unavailableMessage] := by
    intro hc hw
    have hw2 : warmupModels W s = (.ok false, (warmupModels W s).2) := by
      rw [← hw]
    rw [handler_failfast W r s _ hf hc hw2, warmupModels_keeps_sent W s]
  have hcases : (handler W (some r) s).2.sent = s.sent ++ [success (.ok true)] ∨
      (handler W (some r) s).2.sent = s.sent ++ [failure unavailableMessage] := by
    by_cases hc : s.warmupComplete = true
    · left
      rw [handler_warmup_proceed W r s s ha hc (Or.inl ⟨hc, rfl⟩)]
    · simp only [Bool.not_eq_true] at hc
      obtain ⟨b, hb⟩ := warmupModels_fst W s
      cases b with
      | false => exact Or.inr (hfail hc hb)
      | true =>
        left
        have hw2 : warmupModels W s = (.ok true, (warmupModels W s).2) := by
          rw [← hb]
        rw [handler_warmup_proceed W r s _ ha (warmupModels_true_complete W s hb)
          (Or.inr ⟨hc, hw2⟩)]
  refine ⟨hcases, fun e he hs => ?_, fun hne => ?_, hfail⟩
  · rcases hcases with h | h
    · rw [h] at he
      have := List.append_cancel_left he
      simp only [List.cons.injEq, and_true] at this
      rw [← this]
      rfl
    · rw [h] at he
      have := List.append_cancel_left he
      simp only [List.cons.injEq, and_true] at this
      rw [← this] at hs
      exact absurd hs (by decide)
  · rcases hcases with h | h
    · rw [h] at hne
      have := List.append_cancel_left hne
      exact absurd this (by decide)
    · rw [h] at hne
      have := List.append_cancel_left hne
      exact absurd this (by decide)

/-- Witness for C30: the warmup action in an exhausted worker. -/
theorem warmup_action_never_reports_false_witness :
    (handler (stubWorld (.str "available") (.ok (.str "x")))
      (some { action := some "warmup", data := none })
      { coldState with warmupAttempts := 3 }).2.sent = [failure unavailableMessage] :=
  (warmup_action_never_reports_false (stubWorld (.str "available") (.ok (.str "x")))
    { action := some "warmup", data := none }
    { coldState with warmupAttempts := 3 } rfl).2.2.2 rfl (by rfl)

/-! ## Destroy -/

/-- How `destroy` runs: the release is attempted with its failure swallowed,
and the Session reference is cleared. -/
theorem destroy_run (W : World) (s : St) :
    ∃ s1 : St, destroy W s = (.ok (), { s1 with session := none }) := by
  simp only [destroy, bind_run, getSt_run]
  generalize (match s.session with
    | some sess => if W.hasDestroy = true then callWorld (Call.destroy sess) W.destroy
        else pure ()
    | none => pure ()) = x
  have h := tryCatchJs_swallow x s
  cases hx : tryCatchJs x (fun _ => pure ()) s with
  | mk r s1 =>
    rw [hx] at h
    simp only at h
    subst h
    exact ⟨s1, rfl⟩

/-- An `init` that finds no Session, a refreshed status of `available` and a
`create` that resolves: `create` is called and the Session it gives is stored. -/
theorem init_recreates (W : World) (s : St) (hs : s.session = none)
    (ha : (refreshAvailability W s).2.avail.languageModel = .available)
    (hl : W.hasLanguageModel = true) (hc : W.hasCreate = true)
    (hcr : ∀ l, W.create l = .ok ()) :
    (init W s).1 = .ok true ∧
    (callsSince s (init W s).2).any Call.isCreate = true ∧
    ∃ sess, (init W s).2.session = some sess ∧ s.log.length ≤ sess.id := by
  have hk := refresh_keeps W s
  simp only [Prod.mk.injEq] at hk
  have hs1 : (refreshAvailability W s).2.session = none := by
    rw [hk.1, hs]
  obtain ⟨l1, hl1, -⟩ := refresh_emits W s
  obtain ⟨l2, hl2, -⟩ := readDeviceDefaults_emits W (refreshAvailability W s).2
  have hrun : init W s =
      match _ensureSession W (refreshAvailability W s).2 with
      | (.ok _, s2) => (.ok true, s2)
      | (.throw e, s2) => (.throw e, s2) := by
    rw [init_run]
    simp [ha]
  rw [hrun, ensureSession_create W _ hs1 hl hc, hcr]
  simp only
  have hlog : (readDeviceDefaults W (refreshAvailability W s).2).2.log = s.log ++ (l1 ++ l2) := by
    rw [hl2, hl1, List.append_assoc]
  refine ⟨trivial, ?_, _, rfl, ?_⟩
  · rw [callsSince_of_log s _ ((l1 ++ l2) ++ [Call.create systemPrompt
      (readDeviceDefaults W (refreshAvailability W s).2).2.topK
      (readDeviceDefaults W (refreshAvailability W s).2).2.temperature])
      (by simp only [hlog, List.append_assoc])]
    simp [Call.isCreate]
  · simp only [hlog, List.length_append]
    omega

/-- C24: for every engine state `destroy` returns without raising and leaves
the Session reference cleared, also when the Session has no `destroy` or its
`destroy` throws; and a following `init` with a provider that reports
`available` and whose `create` resolves calls `create` again and stores the
Session it gives, a Session created after the `destroy`. -/
theorem destroy_clears_session (W : World) (s : St) :
    (destroy W s).1 = .ok () ∧
    (destroy W s).2.session = none ∧
    ((refreshAvailability W (destroy W s).2).2.avail.languageModel = .available →
      W.hasLanguageModel = true → W.hasCreate = true → (∀ l, W.create l = .ok ()) →
      (init W (destroy W s).2).1 = .ok true ∧
      (callsSince (destroy W s).2 (init W (destroy W s).2).2).any Call.isCreate = true ∧
      ∃ sess, (init W (destroy W s).2).2.session = some sess ∧
        (destroy W s).2.log.length ≤ sess.id) := by
  obtain ⟨s1, h⟩ := destroy_run W s
  refine ⟨by rw [h], by rw [h], fun ha hl hc hcr => ?_⟩
  exact init_recreates W _ (by rw [h]) ha hl hc hcr

/-- Witness for C24: a Session whose own `destroy` throws; the reference is
cleared and the following `init` creates a new Session. -/
theorem destroy_clears_session_witness :
    (init { stubWorld (.str "available") (.ok (.str "x")) with
            destroy := fun _ => .error (mkError "release failed") }
      (destroy { stubWorld (.str "available") (.ok (.str "x")) with
                 destroy := fun _ => .error (mkError "release failed") }
        { coldState with session := some { id := 0, topK := some 3, temperature := some 1 },
                         log := [Call.create systemPrompt (some 3) (some 1)] }).2).1 = .ok true :=
  ((destroy_clears_session
    { stubWorld (.str "available") (.ok (.str "x")) with
      destroy := fun _ => .error (mkError "release failed") }
    { coldState with session := some { id := 0, topK := some 3, temperature := some 1 },
                     log := [Call.create systemPrompt (some 3) (some 1)] }).2.2
    (by decide) rfl rfl (fun _ => rfl)).1

/-! ## Sampling parameters at Session creation -/

/-- C23 at its failing input: the engine of the service worker, constructed
without `topK` and `temperature`, and a provider whose `params()` gives
`defaultTopK` 8 and `defaultTemperature` 0.8.  The constructor has already put 3
and 1.0 in place, so neither default is taken and the Session is created with
`topK` 3 and `temperature` 1.0. -/
theorem device_defaults_are_not_taken :
    coldState.topK = some 3 ∧ coldState.temperature = some 1 ∧
    (_ensureSession
      { stubWorld (.str "available") (.ok (.str "x")) with
        hasParams := true, params := fun _ => .ok (some 8, some (4 / 5)) }
      coldState).2.log = [Call.params, Call.create systemPrompt (some 3) (some 1)] ∧
    (_ensureSession
      { stubWorld (.str "available") (.ok (.str "x")) with
        hasParams := true, params := fun _ => .ok (some 8, some (4 / 5)) }
      coldState).2.session = some { id := 1, topK := some 3, temperature := some 1 } := by
  decide

/-! ## The engine's messages and the retry-reset test -/

/-- C28, as the claim states it, fails: the two messages the engine emits for a
timeout and for a model that is still downloading do not satisfy the
retry-reset test.  `_prompt` turns an aborted prompt into "Request timed out.
Please try again." and the operations refuse a downloading model with "Local
model is still downloading. Please try again shortly."; neither contains
"timeout" or "downloadable", so the test of the `catch` block of `warmupModels`
is false for both. -/
theorem engine_messages_fail_retry_test :
    remapPromptError (.error "AbortError" "signal is aborted without reason") =
      mkError "Request timed out. Please try again." ∧
    (throwIfDownloading
      { coldState with avail := { initialAvail with languageModel := .downloadable } }).1 =
      .throw (mkError "Local model is still downloading. Please try again shortly.") ∧
    isTransient (mkError "Request timed out. Please try again.") = false ∧
    isTransient (mkError "Local model is still downloading. Please try again shortly.")
      = false ∧
    jsIncludes "Request timed out. Please try again." "timeout" = false ∧
    jsIncludes "Local model is still downloading. Please try again shortly." "downloadable"
      = false := by
  decide

/-! ## The handler never tears the Session down -/

theorem preserves_getSt (I : St → Prop) : Preserves I getSt :=
  fun _ h => h

theorem preserves_modifySt (I : St → Prop) (f : St → St) (h : ∀ s, I s → I (f s)) :
    Preserves I (modifySt f) :=
  fun s hs => h s hs

theorem preserves_callWorld {α : Type} (I : St → Prop) (c : Call)
    (answer : List Call → Except Thrown α) (h : ∀ (s : St) l, I s → I { s with log := l }) :
    Preserves I (callWorld c answer) := by
  intro s hs
  rw [callWorld_run]
  cases answer (s.log ++ [c]) <;> exact h s _ hs

theorem preserves_tryCatchJs {α : Type} (I : St → Prop) (x : M α) (h : Thrown → M α)
    (hx : Preserves I x) (hh : ∀ e, Preserves I (h e)) : Preserves I (tryCatchJs x h) := by
  intro s hs
  have h1 := hx s hs
  rw [tryCatchJs_run]
  cases hxs : x s with
  | mk r s1 =>
    rw [hxs] at h1
    cases r with
    | ok a => exact h1
    | throw e => exact hh e s1 h1

/-- What keeps the Session reference keeps a Session in place. -/
theorem preserves_session_of_keeps {α : Type} (x : M α) (h : Keeps St.session x) :
    Preserves (fun s => s.session.isSome = true) x := by
  intro s hs
  show (x s).2.session.isSome = true
  rw [h s]
  exact hs

theorem refresh_keeps_session (W : World) : Keeps St.session (refreshAvailability W) :=
  keeps_comp _ (fun t => t.1) _ (refresh_keeps W)

theorem ensureSession_preserves_session (W : World) :
    Preserves (fun s => s.session.isSome = true) (_ensureSession W) := by
  intro s hs
  cases h : s.session with
  | none =>
    rw [h] at hs
    exact absurd hs (by simp)
  | some sess =>
    rw [ensureSession_some W s sess h]
    exact hs

theorem init_preserves_session (W : World) :
    Preserves (fun s => s.session.isSome = true) (init W) := by
  unfold init
  refine preserves_bind _ _ _ (preserves_session_of_keeps _ (refresh_keeps_session W))
    (fun _ => ?_)
  refine preserves_bind _ _ _ (preserves_getSt _) (fun _ => ?_)
  refine preserves_ite _ _ _ _ (preserves_throw _ _) ?_
  refine preserves_ite _ _ _ _ (preserves_pure _ _) ?_
  exact preserves_bind _ _ _ (ensureSession_preserves_session W) (fun _ => preserves_pure _ _)

theorem prompt_preserves_session (W : World) (text : String) (params : PromptParams) :
    Preserves (fun s => s.session.isSome = true) (_prompt W text params) := by
  unfold _prompt checkOutput
  repeat (first
    | exact preserves_pure _ _ | exact preserves_throw _ _ | exact preserves_getSt _
    | exact ensureSession_preserves_session W
    | exact preserves_modifySt _ _ (fun _ _ => rfl)
    | exact preserves_callWorld _ _ _ (fun _ _ h => h)
    | refine preserves_bind _ _ _ ?_ (fun _ => ?_)
    | refine preserves_tryCatchJs _ _ _ ?_ (fun _ => ?_)
    | refine preserves_ite _ _ _ _ ?_ ?_
    | split)

theorem taskBody_preserves_session (W : World) (prompt : String) (params : PromptParams) :
    Preserves (fun s => s.session.isSome = true) (taskBody W prompt params) := by
  unfold taskBody
  refine preserves_bind _ _ _ (preserves_session_of_keeps _ (throwIfDownloading_keeps _))
    (fun _ => ?_)
  refine preserves_bind _ _ _ (init_preserves_session W) (fun _ => ?_)
  exact prompt_preserves_session W prompt params

theorem rewrite_preserves_session (W : World) (text mode : Option String) :
    Preserves (fun s => s.session.isSome = true) (rewrite W text mode) := by
  rw [rewrite_eq]
  exact preserves_ite _ _ _ _ (preserves_throw _ _) (taskBody_preserves_session W _ _)

theorem shorten_preserves_session (W : World) (text : Option String) :
    Preserves (fun s => s.session.isSome = true) (shorten W text) := by
  rw [shorten_eq]
  exact preserves_ite _ _ _ _ (preserves_throw _ _) (taskBody_preserves_session W _ _)

theorem expand_preserves_session (W : World) (text : Option String) :
    Preserves (fun s => s.session.isSome = true) (expand W text) := by
  rw [expand_eq]
  exact preserves_ite _ _ _ _ (preserves_throw _ _) (taskBody_preserves_session W _ _)

theorem proofread_preserves_session (W : World) (text : Option String) :
    Preserves (fun s => s.session.isSome = true) (proofread W text) := by
  rw [proofread_eq]
  exact preserves_ite _ _ _ _ (preserves_throw _ _) (taskBody_preserves_session W _ _)

theorem write_preserves_session (W : World) (instruction context : Option String) :
    Preserves (fun s => s.session.isSome = true) (write W instruction context) := by
  rw [write_eq]
  exact preserves_ite _ _ _ _ (preserves_throw _ _) (taskBody_preserves_session W _ _)

theorem applyPreferredLanguage_keeps_session (W : World) :
    Keeps St.session (applyPreferredLanguage W) := by
  unfold applyPreferredLanguage setLanguage
  repeat (first
    | exact keeps_pure _ _ | exact keeps_throw _ _ | exact keeps_getSt _
    | exact keeps_modifySt _ _ (fun _ => rfl)
    | exact keeps_callWorld _ _ _ (fun _ _ => rfl)
    | refine keeps_bind _ _ _ ?_ (fun _ => ?_)
    | refine keeps_ite _ _ _ _ ?_ ?_
    | split)

theorem warmupModels_preserves_session (W : World) :
    Preserves (fun s => s.session.isSome = true) (warmupModels W) := by
  unfold warmupModels
  repeat (first
    | exact preserves_pure _ _ | exact preserves_throw _ _ | exact preserves_getSt _
    | exact preserves_session_of_keeps _ (applyPreferredLanguage_keeps_session W)
    | exact init_preserves_session W
    | exact rewrite_preserves_session W _ _
    | exact preserves_modifySt _ _ (fun _ h => h)
    | exact preserves_callWorld _ _ _ (fun _ _ h => h)
    | refine preserves_bind _ _ _ ?_ (fun _ => ?_)
    | refine preserves_tryCatchJs _ _ _ ?_ (fun _ => ?_)
    | refine preserves_ite _ _ _ _ ?_ ?_
    | split)

theorem dispatch_preserves_session (W : World) (action : String) (data : Data) :
    Preserves (fun s => s.session.isSome = true) (dispatch W action data) := by
  unfold dispatch
  refine preserves_ite _ _ _ _ ?_ ?_
  · refine preserves_ite _ _ _ _ (preserves_throw _ _) ?_
    exact preserves_bind _ _ _ (rewrite_preserves_session W _ _) (fun _ => preserves_pure _ _)
  refine preserves_ite _ _ _ _ ?_ ?_
  · refine preserves_ite _ _ _ _ (preserves_throw _ _) ?_
    exact preserves_bind _ _ _ (shorten_preserves_session W _) (fun _ => preserves_pure _ _)
  refine preserves_ite _ _ _ _ ?_ ?_
  · refine preserves_ite _ _ _ _ (preserves_throw _ _) ?_
    exact preserves_bind _ _ _ (expand_preserves_session W _) (fun _ => preserves_pure _ _)
  refine preserves_ite _ _ _ _ ?_ ?_
  · refine preserves_ite _ _ _ _ (preserves_throw _ _) ?_
    exact preserves_bind _ _ _ (proofread_preserves_session W _) (fun _ => preserves_pure _ _)
  refine preserves_ite _ _ _ _ ?_ ?_
  · refine preserves_ite _ _ _ _ (preserves_throw _ _) ?_
    exact preserves_bind _ _ _ (write_preserves_session W _ _) (fun _ => preserves_pure _ _)
  refine preserves_ite _ _ _ _ ?_ ?_
  · refine preserves_ite _ _ _ _ (preserves_throw _ _) ?_
    exact preserves_bind _ _ _ (write_preserves_session W _ _) (fun _ => preserves_pure _ _)
  refine preserves_ite _ _ _ _ ?_ ?_
  · refine preserves_bind _ _ _ ?_ (fun _ => preserves_pure _ _)
    exact preserves_bind _ _ _ (preserves_getSt _) (fun _ => preserves_pure _ _)
  refine preserves_ite _ _ _ _ ?_ (preserves_throw _ _)
  exact preserves_bind _ _ _ (warmupModels_preserves_session W) (fun _ => preserves_pure _ _)

/-- A Session that is in place when a request arrives is in place when the
handler has responded. -/
theorem handler_preserves_session (W : World) (request : Option Request) :
    Preserves (fun s => s.session.isSome = true) (handler W request) := by
  intro s hs
  cases request with
  | none => exact hs
  | some r =>
    by_cases hf : falsy r.action = true
    · have hrun : handler W (some r) s =
          (.ok (), { s with sent := s.sent ++ [failure "Invalid request: missing action"] }) := by
        simp [handler, tryCatchJs_run, hf, sendResponse]
      rw [hrun]
      exact hs
    · simp only [Bool.not_eq_true] at hf
      have hgo : ∀ s1 : St, s1.session.isSome = true →
          ((s.warmupComplete = true ∧ s1 = s) ∨
            (s.warmupComplete = false ∧ warmupModels W s = (.ok true, s1))) →
          (handler W (some r) s).2.session.isSome = true := by
        intro s1 hs1 h1
        have hr := preserves_session_of_keeps _ (refresh_keeps_session W) s1 hs1
        have hd := dispatch_preserves_session W (r.action.getD "") (r.data.getD emptyData)
          _ hr
        rw [handler_proceed W r s s1 hf h1]
        cases hdis : dispatch W (r.action.getD "") (r.data.getD emptyData)
            (refreshAvailability W s1).2 with
        | mk res s2 =>
          rw [hdis] at hd
          cases res <;> exact hd
      by_cases hc : s.warmupComplete = true
      · exact hgo s hs (Or.inl ⟨hc, rfl⟩)
      · simp only [Bool.not_eq_true] at hc
        obtain ⟨b, hb⟩ := warmupModels_fst W s
        have hw : warmupModels W s = (.ok b, (warmupModels W s).2) := by
          rw [← hb]
        have hs1 := warmupModels_preserves_session W s hs
        cases b with
        | false =>
          rw [handler_failfast W r s _ hf hc hw]
          exact hs1
        | true => exact hgo _ hs1 (Or.inr ⟨hc, hw⟩)

/-- What every public operation does after its input check, when every refresh
reports `unavailable`: it stops after the refresh of `init` with the
ModelUnavailable error. -/
theorem taskBody_unavailable (W : World) (s : St) (prompt : String) (params : PromptParams)
    (hU : ∀ t, (refreshAvailability W t).2.avail.languageModel = .unavailable)
    (hd : s.avail.languageModel ≠ .downloadable) :
    taskBody W prompt params s =
      (.throw (mkError "Language model is unavailable in this browser."),
        (refreshAvailability W s).2) := by
  have hi : init W s = (.throw (mkError "Language model is unavailable in this browser."),
      (refreshAvailability W s).2) := by
    rw [init_run]
    simp [hU s]
  simp only [taskBody, throwIfDownloading, bind_run, getSt_run, hd, if_false, pure_run, hi]

/-- The dispatch of a task request when every refresh reports `unavailable`. -/
theorem dispatch_unavailable (W : World) (s : St) (r : Request)
    (hU : ∀ t, (refreshAvailability W t).2.avail.languageModel = .unavailable)
    (ha : r.action ∈ taskActions.map some)
    (ht : isMissingOrBlank (primaryText r) = false)
    (hd : s.avail.languageModel ≠ .downloadable) :
    dispatch W (r.action.getD "") (r.data.getD emptyData) s =
      (.throw (mkError "Language model is unavailable in this browser."),
        (refreshAvailability W s).2) := by
  have hb := taskBody_unavailable W s
  have hi : isMissingOrBlank (some
      "Explain the following clearly and objectively for a general audience. Avoid extra formatting.")
      = false := by decide
  simp only [taskActions, List.map_cons, List.map_nil, List.mem_cons, List.mem_singleton,
    List.not_mem_nil, or_false] at ha
  rcases ha with ha | ha | ha | ha | ha | ha
  all_goals
    simp only [primaryText, ha, Option.some.injEq, String.reduceEq, if_false, if_true] at ht
    have hf := falsy_of_not_blank _ ht
    simp only [dispatch, ha, Option.getD_some, String.reduceEq, if_false, if_true, hf,
      Bool.false_eq_true, bind_run, rewrite_eq, shorten_eq, expand_eq, proofread_eq, write_eq,
      ht, hi, hb _ _ hU hd]

/-- C22, as the claim states it, fails: a warm worker with a Session, whose
provider has gone away, answers a rewrite request with the ModelUnavailable
error and the Session reference is still in place afterwards. -/
theorem session_not_torn_down_on_unavailable :
    (handler { stubWorld (.str "available") (.ok (.str "x")) with hasLanguageModel := false }
      (some { action := some "rewrite", data := some { emptyData with text := some "hi" } })
      { coldState with
        warmupComplete := true,
        session := some { id := 0, topK := some 3, temperature := some 1 },
        log := [Call.create systemPrompt (some 3) (some 1)] }).2.sent =
      [failure "Language model is unavailable in this browser."] ∧
    (handler { stubWorld (.str "available") (.ok (.str "x")) with hasLanguageModel := false }
      (some { action := some "rewrite", data := some { emptyData with text := some "hi" } })
      { coldState with
        warmupComplete := true,
        session := some { id := 0, topK := some 3, temperature := some 1 },
        log := [Call.create systemPrompt (some 3) (some 1)] }).2.session =
      some { id := 0, topK := some 3, temperature := some 1 } := by
  decide

/-- C22 (amended): the handler never tears the Session down.  Whenever a task
request handled in the warm state fails because every refresh reports
`unavailable`, the response is the ModelUnavailable error and the Session
reference is exactly what it was before the request; for every request and
provider a Session that is in place before the request is in place after it;
the reference is cleared by `destroy`, which the handler does not call. -/
theorem session_survives_unavailable (W : World) (r : Request) (s : St)
    (hU : ∀ t, (refreshAvailability W t).2.avail.languageModel = .unavailable)
    (hc : s.warmupComplete = true) (ha : r.action ∈ taskActions.map some)
    (ht : isMissingOrBlank (primaryText r) = false) :
    (handler W (some r) s).2.sent =
      s.sent ++ [failure "Language model is unavailable in this browser."] ∧
    (handler W (some r) s).2.session = s.session ∧
    (∀ W2 request t, t.session.isSome = true →
      (handler W2 request t).2.session.isSome = true) ∧
    (destroy W (handler W (some r) s).2).2.session = none := by
  have hf : falsy r.action = false := by
    simp only [taskActions, List.map_cons, List.map_nil, List.mem_cons, List.mem_singleton,
      List.not_mem_nil, or_false] at ha
    rcases ha with ha | ha | ha | ha | ha | ha <;> rw [ha] <;> decide
  have hd : (refreshAvailability W s).2.avail.languageModel ≠ .downloadable := by
    rw [hU s]
    decide
  have hk1 := refresh_keeps W s
  have hk2 := refresh_keeps W (refreshAvailability W s).2
  simp only [Prod.mk.injEq] at hk1 hk2
  have hrun := handler_proceed W r s s hf (Or.inl ⟨hc, rfl⟩)
  rw [dispatch_unavailable W _ r hU ha ht hd] at hrun
  simp only at hrun
  refine ⟨?_, ?_, fun W2 request t h => handler_preserves_session W2 request t h, ?_⟩
  · rw [hrun]
    simp only
    rw [hk2.2.1, hk1.2.1]
    rfl
  · rw [hrun]
    simp only
    rw [hk2.1, hk1.1]
  · obtain ⟨s1, h⟩ := destroy_run W (handler W (some r) s).2
    rw [h]

/-- Witness for C22: the rewrite request in the warm worker whose provider has
gone away. -/
theorem session_survives_unavailable_witness :
    (handler { stubWorld (.str "available") (.ok (.str "x")) with hasLanguageModel := false }
      (some { action := some "rewrite", data := some { emptyData with text := some "hi" } })
      { coldState with
        warmupComplete := true,
        session := some { id := 0, topK := some 3, temperature := some 1 },
        log := [Call.create systemPrompt (some 3) (some 1)] }).2.session =
      some { id := 0, topK := some 3, temperature := some 1 } :=
  (session_survives_unavailable
    { stubWorld (.str "available") (.ok (.str "x")) with hasLanguageModel := false }
    { action := some "rewrite", data := some { emptyData with text := some "hi" } }
    { coldState with
      warmupComplete := true,
      session := some { id := 0, topK := some 3, temperature := some 1 },
      log := [Call.create systemPrompt (some 3) (some 1)] }
    (fun t => by rw [refresh_absent_run _ t (Or.inl rfl)])
    rfl (by decide) (by decide)).2.1

/-! ## The lines of the prompts -/

theorem splitLines_ne_nil (l : List Char) : splitLines l ≠ [] := by
  cases l with
  | nil => simp [splitLines]
  | cons c cs =>
    simp only [splitLines]
    split_ifs
    · simp
    · split <;> simp

theorem splitLines_append_nl (a b : List Char) :
    splitLines (a ++ '\n' :: b) = splitLines a ++ splitLines b := by
  induction a with
  | nil => simp [splitLines]
  | cons c cs ih =>
    have e1 : splitLines (c :: (cs ++ '\n' :: b)) =
        if c = '\n' then [] :: splitLines (cs ++ '\n' :: b)
        else
          match splitLines (cs ++ '\n' :: b) with
          | [] => [[c]]
          | l :: ls => (c :: l) :: ls := rfl
    have e2 : splitLines (c :: cs) =
        if c = '\n' then [] :: splitLines cs
        else
          match splitLines cs with
          | [] => [[c]]
          | l :: ls => (c :: l) :: ls := rfl
    rw [List.cons_append, e1, e2, ih]
    split_ifs
    · rfl
    · cases h : splitLines cs with
      | nil => exact absurd h (splitLines_ne_nil cs)
      | cons l ls => rfl

theorem splitLines_intercalate_go (xs : List String) (acc : String) :
    splitLines (String.intercalate.go acc "\n" xs).data =
      splitLines acc.data ++ xs.flatMap (fun x => splitLines x.data) := by
  induction xs generalizing acc with
  | nil => simp [String.intercalate.go]
  | cons x xs ih =>
    have hnl : ("\n" : String).data = ['\n'] := rfl
    simp only [String.intercalate.go, ih, String.data_append, hnl, List.append_assoc,
      List.singleton_append, splitLines_append_nl, List.flatMap_cons]

/-- The lines of a join are the lines of its parts. -/
theorem promptLines_joinLines (x : String) (xs : List String) :
    promptLines (joinLines (x :: xs)) = (x :: xs).flatMap promptLines := by
  simp only [promptLines, joinLines, String.intercalate, splitLines_intercalate_go,
    List.map_append, List.map_flatMap, List.flatMap_cons]
  rfl

/-- A list of one-line strings is its own list of lines. -/
theorem flatMap_promptLines_of_single (instr : List String)
    (h : ∀ l ∈ instr, promptLines l = [l]) : instr.flatMap promptLines = instr := by
  induction instr with
  | nil => rfl
  | cons a as ih =>
    rw [List.flatMap_cons, h a (List.mem_cons_self a as),
      ih (fun l hl => h l (List.mem_cons_of_mem a hl))]
    rfl

/-- The lines of a prompt built from one-line instruction lines and one payload block. -/
theorem promptLines_payload (instr : List String) (text : String)
    (h : ∀ l ∈ instr, promptLines l = [l]) :
    promptLines (joinLines (instr ++ ["<<<TEXT", text, ">>>"])) =
      instr ++ ["<<<TEXT"] ++ promptLines text ++ [">>>"] := by
  have h1 : promptLines "<<<TEXT" = ["<<<TEXT"] := by decide
  have h2 : promptLines ">>>" = [">>>"] := by decide
  have hne : ∃ x xs, instr ++ ["<<<TEXT", text, ">>>"] = x :: xs := by
    cases instr with
    | nil => exact ⟨_, _, rfl⟩
    | cons a as => exact ⟨_, _, rfl⟩
  obtain ⟨x, xs, hx⟩ := hne
  rw [hx, promptLines_joinLines, ← hx, List.flatMap_append,
    flatMap_promptLines_of_single instr h]
  simp only [List.flatMap_cons, List.flatMap_nil, h1, h2, List.append_nil, List.append_assoc]

theorem onePayloadBlock_of (instr : List String) (text : String)
    (h : ∀ l ∈ instr, promptLines l = [l]) (hn : "<<<TEXT" ∉ instr) :
    OnePayloadBlock instr text (joinLines (instr ++ ["<<<TEXT", text, ">>>"])) := by
  have hl := promptLines_payload instr text h
  refine ⟨rfl, hl, ?_, ?_⟩
  · rw [hl, List.getLast?_append]
    rfl
  · rw [hl]
    simp only [List.count_append, List.count_eq_zero.mpr hn, List.count_singleton]
    simp

theorem shortenPrompt_block (text : String) :
    OnePayloadBlock shortenLines text (_shortenPrompt text) :=
  onePayloadBlock_of shortenLines text (by decide) (by decide)

theorem expandPrompt_block (text : String) :
    OnePayloadBlock expandLines text (_expandPrompt text) :=
  onePayloadBlock_of expandLines text (by decide) (by decide)

theorem proofreadPrompt_block (text : String) :
    OnePayloadBlock proofreadLines text (_proofreadPrompt text) :=
  onePayloadBlock_of proofreadLines text (by decide) (by decide)

/-- The prompt of a rewrite is the instruction lines its mode selects followed
by one payload block. -/
theorem rewritePrompt_block (mode : Option String) (text : String) :
    OnePayloadBlock
      (if rewriteModeKey mode = "formal" then formalLines
       else if rewriteModeKey mode = "casual" then casualLines
       else if rewriteModeKey mode = "grammar" then grammarLines
       else defaultLines)
      text (_rewritePrompt mode text) := by
  have hk : rewriteModeKey mode = jsToLowerCase (match mode with
      | some x => x
      | none => "") := by
    cases mode <;> rfl
  simp only [_rewritePrompt, ← hk]
  split_ifs
  · exact onePayloadBlock_of formalLines text (by decide) (by decide)
  · exact onePayloadBlock_of casualLines text (by decide) (by decide)
  · exact onePayloadBlock_of grammarLines text (by decide) (by decide)
  · exact onePayloadBlock_of defaultLines text (by decide) (by decide)

/-- The first line of a prompt with a payload block after the instruction lines
`a :: rest` is `a`. -/
theorem onePayloadBlock_head (a : String) (rest : List String) (text prompt : String)
    (h : OnePayloadBlock (a :: rest) text prompt) : (promptLines prompt).head? = some a := by
  rw [h.2.1]
  rfl

/-! ## One delimited payload block per prompt -/

/-- C25, as the claim states it, fails: for the text "<<<TEXT" the prompt of
`shorten` has two lines equal to "<<<TEXT", the delimiter and the text. -/
theorem payload_delimiter_not_unique :
    (promptLines (_shortenPrompt "<<<TEXT")).count "<<<TEXT" = 2 ∧
    promptLines (_shortenPrompt "<<<TEXT") =
      shortenLines ++ ["<<<TEXT", "<<<TEXT", ">>>"] := by
  decide

/-- C25 (amended): for every text, the prompt built for rewrite (any mode),
shorten, expand and proofread is the instruction lines of the task followed by
one payload block: the line "<<<TEXT", the text verbatim, and the line ">>>",
which is the last line.  The text is not escaped: the prompt has one line equal
to "<<<TEXT" more than the text has, so it has exactly one such line whenever
no line of the text is "<<<TEXT". -/
theorem prompts_have_one_payload_block (text : String) (mode : Option String) :
    OnePayloadBlock shortenLines text (_shortenPrompt text) ∧
    OnePayloadBlock expandLines text (_expandPrompt text) ∧
    OnePayloadBlock proofreadLines text (_proofreadPrompt text) ∧
    (OnePayloadBlock formalLines text (_rewritePrompt mode text) ∨
      OnePayloadBlock casualLines text (_rewritePrompt mode text) ∨
      OnePayloadBlock grammarLines text (_rewritePrompt mode text) ∨
      OnePayloadBlock defaultLines text (_rewritePrompt mode text)) ∧
    ("<<<TEXT" ∉ promptLines text →
      (promptLines (_shortenPrompt text)).count "<<<TEXT" = 1 ∧
      (promptLines (_expandPrompt text)).count "<<<TEXT" = 1 ∧
      (promptLines (_proofreadPrompt text)).count "<<<TEXT" = 1 ∧
      (promptLines (_rewritePrompt mode text)).count "<<<TEXT" = 1) := by
  have hr := rewritePrompt_block mode text
  refine ⟨shortenPrompt_block text, expandPrompt_block text, proofreadPrompt_block text, ?_,
    fun hn => ?_⟩
  · split_ifs at hr
    · exact Or.inl hr
    · exact Or.inr (Or.inl hr)
    · exact Or.inr (Or.inr (Or.inl hr))
    · exact Or.inr (Or.inr (Or.inr hr))
  · have h0 := List.count_eq_zero.mpr hn
    refine ⟨?_, ?_, ?_, ?_⟩
    · rw [(shortenPrompt_block text).2.2.2, h0]
    · rw [(expandPrompt_block text).2.2.2, h0]
    · rw [(proofreadPrompt_block text).2.2.2, h0]
    · rw [hr.2.2.2, h0]

/-- Witness for C25: a text of two lines, neither of them the delimiter. -/
theorem prompts_have_one_payload_block_witness :
    (promptLines (_shortenPrompt "first line\nsecond line")).count "<<<TEXT" = 1 :=
  ((prompts_have_one_payload_block "first line\nsecond line" none).2.2.2.2 (by decide)).1

/-! ## Rewrite mode selection -/

/-- C27: for every mode and text, `_rewritePrompt` builds its prompt from the
formal-tone instruction lines iff the mode lower-cased is "formal", from the
casual-tone lines iff it is "casual", from the grammar-fix lines, with "Do not
change tone or meaning.", iff it is "grammar", and from the default lines,
starting "Rewrite the text to improve clarity and flow without changing its
meaning.", for every other mode, the empty and the missing mode included; and
every variant has a line that tells the model to return only the resulting
text. -/
theorem rewrite_mode_selection (mode : Option String) (text : String) :
    (OnePayloadBlock formalLines text (_rewritePrompt mode text) ↔
      rewriteModeKey mode = "formal") ∧
    (OnePayloadBlock casualLines text (_rewritePrompt mode text) ↔
      rewriteModeKey mode = "casual") ∧
    (OnePayloadBlock grammarLines text (_rewritePrompt mode text) ↔
      rewriteModeKey mode = "grammar") ∧
    (OnePayloadBlock defaultLines text (_rewritePrompt mode text) ↔
      (rewriteModeKey mode ≠ "formal" ∧ rewriteModeKey mode ≠ "casual" ∧
        rewriteModeKey mode ≠ "grammar")) ∧
    rewriteModeKey none = "" ∧ rewriteModeKey (some "") = "" ∧
    rewriteModeKey (some "FORMAL") = "formal" ∧
    "Do not change tone or meaning." ∈ grammarLines ∧
    defaultLines.head? =
      some "Rewrite the text to improve clarity and flow without changing its meaning." ∧
    "Return only the rewritten text." ∈ formalLines ∧
    "Return only the rewritten text." ∈ casualLines ∧
    "Return only the corrected text." ∈ grammarLines ∧
    "Return only the rewritten text." ∈ defaultLines := by
  have hr := rewritePrompt_block mode text
  have hF : ∀ h : OnePayloadBlock formalLines text (_rewritePrompt mode text),
      (promptLines (_rewritePrompt mode text)).head? =
        some "Rewrite the text in a professional and formal tone." :=
    fun h => onePayloadBlock_head _ _ _ _ h
  have hC : ∀ h : OnePayloadBlock casualLines text (_rewritePrompt mode text),
      (promptLines (_rewritePrompt mode text)).head? =
        some "Rewrite the text in a relaxed, natural tone suitable for friendly conversation." :=
    fun h => onePayloadBlock_head _ _ _ _ h
  have hG : ∀ h : OnePayloadBlock grammarLines text (_rewritePrompt mode text),
      (promptLines (_rewritePrompt mode text)).head? =
        some "Fix grammar, spelling, and clarity." :=
    fun h => onePayloadBlock_head _ _ _ _ h
  have hD : ∀ h : OnePayloadBlock defaultLines text (_rewritePrompt mode text),
      (promptLines (_rewritePrompt mode text)).head? =
        some "Rewrite the text to improve clarity and flow without changing its meaning." :=
    fun h => onePayloadBlock_head _ _ _ _ h
  refine ⟨?_, ?_, ?_, ?_, by decide, by decide, by decide, by decide, by decide, by decide,
    by decide, by decide, by decide⟩
  all_goals
    by_cases h1 : rewriteModeKey mode = "formal"
    · simp only [h1, if_true] at hr
      have e := hF hr
      constructor
      · intro h
        first
          | exact h1
          | (have e2 := hC h; rw [e] at e2; exact absurd e2 (by decide))
          | (have e2 := hG h; rw [e] at e2; exact absurd e2 (by decide))
          | (have e2 := hD h; rw [e] at e2; exact absurd e2 (by decide))
      · intro h
        first
          | exact hr
          | (rw [h1] at h; exact absurd h (by decide))
    · by_cases h2 : rewriteModeKey mode = "casual"
      · simp only [h2, String.reduceEq, if_false, if_true] at hr
        have e := hC hr
        constructor
        · intro h
          first
            | exact h2
            | (have e2 := hF h; rw [e] at e2; exact absurd e2 (by decide))
            | (have e2 := hG h; rw [e] at e2; exact absurd e2 (by decide))
            | (have e2 := hD h; rw [e] at e2; exact absurd e2 (by decide))
        · intro h
          first
            | exact hr
            | (rw [h2] at h; exact absurd h (by decide))
      · by_cases h3 : rewriteModeKey mode = "grammar"
        · simp only [h3, String.reduceEq, if_false, if_true] at hr
          have e := hG hr
          constructor
          · intro h
            first
              | exact h3
              | (have e2 := hF h; rw [e] at e2; exact absurd e2 (by decide))
              | (have e2 := hC h; rw [e] at e2; exact absurd e2 (by decide))
              | (have e2 := hD h; rw [e] at e2; exact absurd e2 (by decide))
          · intro h
            first
              | exact hr
              | (rw [h3] at h; exact absurd h (by decide))
        · simp only [h1, h2, h3, if_false] at hr
          have e := hD hr
          constructor
          · intro h
            first
              | exact ⟨h1, h2, h3⟩
              | (have e2 := hF h; rw [e] at e2; exact absurd e2 (by decide))
              | (have e2 := hC h; rw [e] at e2; exact absurd e2 (by decide))
              | (have e2 := hG h; rw [e] at e2; exact absurd e2 (by decide))
          · intro h
            first
              | exact hr
              | exact absurd h h1
              | exact absurd h h2
              | exact absurd h h3

/-- Witness for C27: the mode "Casual" selects the casual-tone lines. -/
theorem rewrite_mode_selection_witness :
    OnePayloadBlock casualLines "see you" (_rewritePrompt (some "Casual") "see you") :=
  (rewrite_mode_selection (some "Casual") "see you").2.1.mpr (by decide)


/-! ## The context block of the write prompt -/

/-- The lines of the prompt of `write`. -/
theorem writePrompt_lines (instruction context : String) :
    promptLines (_writePrompt instruction context) =
      writeLines ++
        (if isBlank context then []
         else [contextNote, "<<<CONTEXT"] ++ promptLines context ++ [">>>"]) ++
        ["<<<INSTRUCTION"] ++ promptLines instruction ++ [">>>"] := by
  have h1 : promptLines "<<<INSTRUCTION" = ["<<<INSTRUCTION"] := by decide
  have h2 : promptLines ">>>" = [">>>"] := by decide
  have h3 : promptLines "<<<CONTEXT" = ["<<<CONTEXT"] := by decide
  have h4 : promptLines "You may use the context to tailor wording without adding new facts." =
      ["You may use the context to tailor wording without adding new facts."] := by decide
  have h5 : promptLines "Follow the instruction and draft a concise response." =
      ["Follow the instruction and draft a concise response."] := by decide
  have h6 : promptLines "Use clear, direct language." = ["Use clear, direct language."] := by
    decide
  have h7 : promptLines "Return only the draft." = ["Return only the draft."] := by decide
  unfold _writePrompt
  by_cases hb : isBlank context = true
  · simp only [hb, Bool.not_true, Bool.false_eq_true, if_false, if_true, List.cons_append,
      List.nil_append, promptLines_joinLines, List.flatMap_cons, List.flatMap_nil, h1, h2, h5,
      h6, h7, writeLines, List.append_nil, List.append_assoc, List.singleton_append]
  · have hb2 : isBlank context = false := by
      cases h : isBlank context
      · rfl
      · exact absurd h hb
    simp only [hb2, Bool.not_false, if_true, Bool.false_eq_true, if_false, List.cons_append,
      List.nil_append, promptLines_joinLines, List.flatMap_cons, List.flatMap_nil, h1, h2, h3,
      h4, h5, h6, h7, writeLines, contextNote, List.append_nil, List.append_assoc,
      List.singleton_append]

/-- C26: for every instruction and context, the prompt `_writePrompt` builds is
the three instruction lines of `write`, then, iff the context is not empty after
trimming, the context block (the line "You may use the context to tailor wording
without adding new facts.", the line "<<<CONTEXT", the context verbatim and the
line ">>>"), and then in both cases the lines "<<<INSTRUCTION", the instruction
verbatim and ">>>", which end the prompt. -/
theorem write_prompt_context_block (instruction context : String) :
    (_writePrompt instruction context =
      joinLines (writeLines ++
        (if isBlank context then [] else [contextNote, "<<<CONTEXT", context, ">>>"]) ++
        ["<<<INSTRUCTION", instruction, ">>>"])) ∧
    ((∃ rest, promptLines (_writePrompt instruction context) =
        writeLines ++ [contextNote, "<<<CONTEXT"] ++ promptLines context ++ [">>>"] ++ rest) ↔
      isBlank context = false) ∧
    (isBlank context = true →
      promptLines (_writePrompt instruction context) =
        writeLines ++ ["<<<INSTRUCTION"] ++ promptLines instruction ++ [">>>"]) ∧
    (∃ front, promptLines (_writePrompt instruction context) =
        front ++ ["<<<INSTRUCTION"] ++ promptLines instruction ++ [">>>"]) ∧
    (promptLines (_writePrompt instruction context)).getLast? = some ">>>" := by
  have hl := writePrompt_lines instruction context
  refine ⟨?_, ?_, ?_, ?_, ?_⟩
  · unfold _writePrompt
    by_cases hb : isBlank context = true
    · simp [hb, writeLines]
    · simp [hb, writeLines, contextNote]
  · constructor
    · rintro ⟨rest, hr⟩
      cases hb : isBlank context
      · rfl
      · rw [hl, hb] at hr
        simp [writeLines, contextNote] at hr
    · intro hb
      refine ⟨["<<<INSTRUCTION"] ++ promptLines instruction ++ [">>>"], ?_⟩
      rw [hl, hb]
      simp only [Bool.false_eq_true, if_false, List.append_assoc]
  · intro hb
    rw [hl, hb]
    simp only [if_true, List.append_nil]
  · exact ⟨_, hl⟩
  · rw [hl, List.getLast?_append]
    rfl

/-- Witness for C26: a blank context leaves the block out. -/
theorem write_prompt_context_block_witness :
    promptLines (_writePrompt "Say thanks" "  ") =
      writeLines ++ ["<<<INSTRUCTION"] ++ promptLines "Say thanks" ++ [">>>"] :=
  (write_prompt_context_block "Say thanks" "  ").2.2.1 (by decide)


/-! ## The sampling values of proofread on the shared Session -/

theorem checkOutput_state (out : JsVal) (s : St) : (checkOutput out s).2 = s := by
  cases out with
  | str o =>
    by_cases ho : jsTrim o = ""
    · simp [checkOutput, ho]
    · simp [checkOutput, ho]
  | undefined => simp [checkOutput]
  | null => simp [checkOutput]
  | other t r => simp [checkOutput]

/-- The state `_prompt` leaves behind on a non-blank text once the Session is
there: the Session with the guarded writes is stored and prompted. -/
theorem prompt_state (W : World) (s s1 : St) (text : String) (params : PromptParams)
    (sess0 : Session) (ht : isBlank text = false) (hs : _ensureSession W s = (.ok sess0, s1)) :
    (_prompt W text params s).2 =
      { s1 with session := some (applyParams W params sess0),
                log := s1.log ++ [Call.prompt (applyParams W params sess0) text s1.lang] } := by
  simp only [_prompt, ht, Bool.false_eq_true, if_false, bind_run, hs, modifySt_run,
    tryCatchJs_run, getSt_run, callWorld_run]
  cases hp : W.prompt (s1.log ++ [Call.prompt (applyParams W params sess0) text s1.lang]) with
  | error err => simp
  | ok v =>
    have hc := checkOutput_state v
      { s1 with session := some (applyParams W params sess0),
                log := s1.log ++ [Call.prompt (applyParams W params sess0) text s1.lang] }
    simp only
    cases hr : checkOutput v
        { s1 with session := some (applyParams W params sess0),
                  log := s1.log ++ [Call.prompt (applyParams W params sess0) text s1.lang] } with
    | mk r s2 =>
      rw [hr] at hc
      simp only at hc
      rw [hc]
      cases r <;> rfl

theorem applyParams_noParams (W : World) (sess : Session) :
    applyParams W noParams sess = sess := by
  simp [applyParams, noParams]

theorem applyParams_tuned (W : World) (sess : Session) (h : Tuned sess) :
    Tuned (applyParams W proofreadParams sess) := by
  obtain ⟨h1, h2⟩ := h
  cases hw : W.sessionWritable <;> simp [applyParams, proofreadParams, Tuned, hw, h1, h2]

theorem applyParams_writable (W : World) (sess : Session) (hw : W.sessionWritable = true) :
    Tuned (applyParams W proofreadParams sess) := by
  simp [applyParams, proofreadParams, Tuned, hw]

theorem pe_of {α : Type} (I : St → Prop) (Q : Call → Prop) (x : M α)
    (hp : Preserves I x) (he : Emits Q x) : PreservesEmits I Q x :=
  fun s hs => ⟨hp s hs, he s⟩

theorem pe_throw {α : Type} (I : St → Prop) (Q : Call → Prop) (e : Thrown) :
    PreservesEmits I Q (throwJs e : M α) :=
  pe_of I Q _ (preserves_throw I e) (emits_throw Q e)

theorem pe_ite {α : Type} (I : St → Prop) (Q : Call → Prop) (c : Prop) [Decidable c]
    (x y : M α) (hx : PreservesEmits I Q x) (hy : PreservesEmits I Q y) :
    PreservesEmits I Q (if c then x else y) := by
  split_ifs
  · exact hx
  · exact hy

theorem pe_bind {α β : Type} (I : St → Prop) (Q : Call → Prop) (x : M α) (f : α → M β)
    (hx : PreservesEmits I Q x) (hf : ∀ a, PreservesEmits I Q (f a)) :
    PreservesEmits I Q (x >>= f) := by
  intro s hs
  obtain ⟨i1, l1, h1, q1⟩ := hx s hs
  rw [bind_run]
  cases hxs : x s with
  | mk r s1 =>
    rw [hxs] at h1 i1
    cases r with
    | ok a =>
      obtain ⟨i2, l2, h2, q2⟩ := hf a s1 i1
      refine ⟨i2, l1 ++ l2, ?_, ?_⟩
      · simp only at h1 ⊢
        rw [h2, h1, List.append_assoc]
      · intro c hc
        rcases List.mem_append.mp hc with hc | hc
        · exact q1 c hc
        · exact q2 c hc
    | throw e => exact ⟨i1, l1, h1, q1⟩

/-- What keeps the Session reference keeps what holds of the Session. -/
theorem preserves_sessionIs_of_keeps {α : Type} (J : Session → Prop) (x : M α)
    (h : Keeps St.session x) : Preserves (SessionIs J) x := by
  intro s hs
  unfold SessionIs at hs ⊢
  rw [h s]
  exact hs

theorem ensureSession_preserves_sessionIs (W : World) (J : Session → Prop) :
    Preserves (SessionIs J) (_ensureSession W) := by
  intro s hs
  obtain ⟨sess, h, hj⟩ := hs
  rw [ensureSession_some W s sess h]
  exact ⟨sess, h, hj⟩

theorem init_preserves_sessionIs (W : World) (J : Session → Prop) :
    Preserves (SessionIs J) (init W) := by
  unfold init
  refine preserves_bind _ _ _ (preserves_sessionIs_of_keeps J _ (refresh_keeps_session W))
    (fun _ => ?_)
  refine preserves_bind _ _ _ (preserves_getSt _) (fun _ => ?_)
  refine preserves_ite _ _ _ _ (preserves_throw _ _) ?_
  refine preserves_ite _ _ _ _ (preserves_pure _ _) ?_
  exact preserves_bind _ _ _ (ensureSession_preserves_sessionIs W J) (fun _ => preserves_pure _ _)

theorem throwIfDownloading_emits (Q : Call → Prop) : Emits Q throwIfDownloading := by
  unfold throwIfDownloading
  refine emits_bind _ _ _ (emits_getSt _) (fun _ => ?_)
  exact emits_ite _ _ _ _ (emits_throw _ _) (emits_pure _ _)

/-- From a state whose Session satisfies `J`, `_prompt` prompts that Session
after its guarded writes and makes no other call. -/
theorem prompt_pe (W : World) (text : String) (params : PromptParams) (J : Session → Prop)
    (Q : Call → Prop) (hJ : ∀ sess, J sess → J (applyParams W params sess))
    (hQ : ∀ sess t lang, J sess → Q (Call.prompt sess t lang)) :
    PreservesEmits (SessionIs J) Q (_prompt W text params) := by
  intro s hs
  obtain ⟨sess, h, hj⟩ := hs
  by_cases ht : isBlank text = true
  · have : _prompt W text params s = (.throw (mkError "No text provided."), s) := by
      simp [_prompt, ht]
    rw [this]
    exact ⟨⟨sess, h, hj⟩, [], by simp, by simp⟩
  · have ht2 : isBlank text = false := by
      cases hb : isBlank text
      · rfl
      · exact absurd hb ht
    rw [prompt_state W s s text params sess ht2 (ensureSession_some W s sess h)]
    refine ⟨⟨_, rfl, hJ sess hj⟩, [Call.prompt (applyParams W params sess) text s.lang], rfl, ?_⟩
    intro c hc
    rw [List.mem_singleton] at hc
    rw [hc]
    exact hQ _ _ _ (hJ sess hj)

theorem taskBody_pe (W : World) (prompt : String) (params : PromptParams) (J : Session → Prop)
    (Q : Call → Prop) (hJ : ∀ sess, J sess → J (applyParams W params sess))
    (hQ : ∀ sess t lang, J sess → Q (Call.prompt sess t lang))
    (hQ0 : ∀ c, c.isPrompt = false → Q c) :
    PreservesEmits (SessionIs J) Q (taskBody W prompt params) := by
  unfold taskBody
  refine pe_bind _ _ _ _ (pe_of _ _ _
    (preserves_sessionIs_of_keeps J _ (throwIfDownloading_keeps _))
    (throwIfDownloading_emits Q)) (fun _ => ?_)
  refine pe_bind _ _ _ _ (pe_of _ _ _ (init_preserves_sessionIs W J)
    (emits_mono _ _ _ hQ0 (init_emits W))) (fun _ => ?_)
  exact prompt_pe W prompt params J Q hJ hQ

/-- One call of a public operation keeps what holds of the Session, if the
guarded writes of the call keep it. -/
theorem runTask_pe (W : World) (t : TaskCall) (J : Session → Prop) (Q : Call → Prop)
    (hJ : t.isProofread = true → ∀ sess, J sess → J (applyParams W proofreadParams sess))
    (hQ : ∀ sess t lang, J sess → Q (Call.prompt sess t lang))
    (hQ0 : ∀ c, c.isPrompt = false → Q c) :
    PreservesEmits (SessionIs J) Q (runTask W t) := by
  have hn : ∀ sess, J sess → J (applyParams W noParams sess) := by
    intro sess hj
    rw [applyParams_noParams]
    exact hj
  cases t with
  | rewrite text mode =>
    show PreservesEmits _ _ (rewrite W text mode)
    rw [rewrite_eq]
    exact pe_ite _ _ _ _ _ (pe_throw _ _ _) (taskBody_pe W _ _ J Q hn hQ hQ0)
  | shorten text =>
    show PreservesEmits _ _ (shorten W text)
    rw [shorten_eq]
    exact pe_ite _ _ _ _ _ (pe_throw _ _ _) (taskBody_pe W _ _ J Q hn hQ hQ0)
  | expand text =>
    show PreservesEmits _ _ (expand W text)
    rw [expand_eq]
    exact pe_ite _ _ _ _ _ (pe_throw _ _ _) (taskBody_pe W _ _ J Q hn hQ hQ0)
  | proofread text =>
    show PreservesEmits _ _ (proofread W text)
    rw [proofread_eq]
    exact pe_ite _ _ _ _ _ (pe_throw _ _ _) (taskBody_pe W _ _ J Q (hJ rfl) hQ hQ0)
  | write instruction context =>
    show PreservesEmits _ _ (write W instruction context)
    rw [write_eq]
    exact pe_ite _ _ _ _ _ (pe_throw _ _ _) (taskBody_pe W _ _ J Q hn hQ hQ0)

theorem tunedCall_of_not_prompt (c : Call) (h : c.isPrompt = false) : TunedCall c := by
  cases c <;> trivial

/-- A sequence of calls keeps a tuned Session tuned, and every call it logs is
made on a tuned Session if it is a `prompt`. -/
theorem runTasks_tuned (W : World) (ts : List TaskCall) (s : St) (hs : TunedState s) :
    TunedState (runTasks W ts s) ∧
    ∃ l, (runTasks W ts s).log = s.log ++ l ∧ ∀ c ∈ l, TunedCall c := by
  induction ts generalizing s with
  | nil => exact ⟨hs, [], by simp [runTasks], by simp⟩
  | cons t ts ih =>
    obtain ⟨i1, l1, h1, q1⟩ := runTask_pe W t Tuned TunedCall
      (fun _ sess hj => applyParams_tuned W sess hj) (fun _ _ _ hj => hj)
      tunedCall_of_not_prompt s hs
    obtain ⟨i2, l2, h2, q2⟩ := ih (runTask W t s).2 i1
    refine ⟨i2, l1 ++ l2, ?_, ?_⟩
    · show (runTasks W ts (runTask W t s).2).log = _
      rw [h2, h1, List.append_assoc]
    · intro c hc
      rcases List.mem_append.mp hc with hc | hc
      · exact q1 c hc
      · exact q2 c hc

theorem tunes_throw {α : Type} (e : Thrown) : TunesOnPrompt (throwJs e : M α) :=
  fun _ => ⟨[], by simp, by simp, by simp⟩

theorem tunes_ite {α : Type} (c : Prop) [Decidable c] (x y : M α)
    (hx : TunesOnPrompt x) (hy : TunesOnPrompt y) : TunesOnPrompt (if c then x else y) := by
  split_ifs
  · exact hx
  · exact hy

theorem any_isPrompt_false (l : List Call) (h : ∀ c ∈ l, c.isPrompt = false) :
    l.any Call.isPrompt = false := by
  rw [List.any_eq_false]
  intro c hc
  rw [h c hc]
  exact Bool.false_ne_true

/-- A step that prompts no Session, followed by one that tunes. -/
theorem tunes_bind_quiet {α β : Type} (x : M α) (f : α → M β)
    (hx : Emits (fun c => c.isPrompt = false) x) (hf : ∀ a, TunesOnPrompt (f a)) :
    TunesOnPrompt (x >>= f) := by
  intro s
  obtain ⟨l1, h1, q1⟩ := hx s
  have hn := any_isPrompt_false l1 q1
  rw [bind_run]
  cases hxs : x s with
  | mk r s1 =>
    rw [hxs] at h1
    cases r with
    | ok a =>
      obtain ⟨l2, h2, q2, t2⟩ := hf a s1
      refine ⟨l1 ++ l2, ?_, ?_, ?_⟩
      · simp only at h1 ⊢
        rw [h2, h1, List.append_assoc]
      · intro c hc
        rcases List.mem_append.mp hc with hc | hc
        · exact tunedCall_of_not_prompt c (q1 c hc)
        · exact q2 c hc
      · intro ha
        rw [List.any_append, hn, Bool.false_or] at ha
        exact t2 ha
    | throw e =>
      refine ⟨l1, h1, fun c hc => tunedCall_of_not_prompt c (q1 c hc), ?_⟩
      intro ha
      rw [hn] at ha
      exact absurd ha Bool.false_ne_true

/-- On a Session that lets its sampling fields be written, `_prompt` with the
values of `proofread` prompts a tuned Session and leaves it in place. -/
theorem prompt_tunes (W : World) (text : String) (hw : W.sessionWritable = true) :
    TunesOnPrompt (_prompt W text proofreadParams) := by
  intro s
  by_cases ht : isBlank text = true
  · have : _prompt W text proofreadParams s = (.throw (mkError "No text provided."), s) := by
      simp [_prompt, ht]
    rw [this]
    exact ⟨[], by simp, by simp, by simp⟩
  · have ht2 : isBlank text = false := by
      cases hb : isBlank text
      · rfl
      · exact absurd hb ht
    obtain ⟨l1, h1, q1⟩ := ensureSession_emits W s
    have hn := any_isPrompt_false l1 q1
    cases hes : _ensureSession W s with
    | mk r s1 =>
      rw [hes] at h1
      simp only at h1
      cases r with
      | ok sess0 =>
        rw [prompt_state W s s1 text proofreadParams sess0 ht2 hes]
        refine ⟨l1 ++ [Call.prompt (applyParams W proofreadParams sess0) text s1.lang],
          ?_, ?_, ?_⟩
        · simp only
          rw [h1, List.append_assoc]
        · intro c hc
          rcases List.mem_append.mp hc with hc | hc
          · exact tunedCall_of_not_prompt c (q1 c hc)
          · rw [List.mem_singleton] at hc
            rw [hc]
            exact applyParams_writable W sess0 hw
        · intro _
          exact ⟨_, rfl, applyParams_writable W sess0 hw⟩
      | throw e =>
        have : _prompt W text proofreadParams s = (.throw e, s1) := by
          simp [_prompt, ht2, hes]
        rw [this]
        refine ⟨l1, h1, fun c hc => tunedCall_of_not_prompt c (q1 c hc), ?_⟩
        intro ha
        rw [hn] at ha
        exact absurd ha Bool.false_ne_true

theorem proofread_tunes (W : World) (text : Option String) (hw : W.sessionWritable = true) :
    TunesOnPrompt (proofread W text) := by
  rw [proofread_eq]
  refine tunes_ite _ _ _ (tunes_throw _) ?_
  unfold taskBody
  refine tunes_bind_quiet _ _ (throwIfDownloading_emits _) (fun _ => ?_)
  refine tunes_bind_quiet _ _ (init_emits W) (fun _ => ?_)
  exact prompt_tunes W _ hw

/-- C29, as the claim states it, fails: on a Session that does not let its
sampling fields be written (the two writes of `_prompt` are inside `try` and
`catch`), `proofread` and the `shorten` after it both prompt the Session with
the values it was created with, `topK` 3 and `temperature` 1.0. -/
theorem proofread_overrides_need_writable_session :
    (callsSince coldState
      (runTasks { stubWorld (.str "available") (.ok (.str "ok")) with sessionWritable := false }
        [.proofread (some "teh cat"), .shorten (some "the cat sat")] coldState)).filterMap
        Call.promptSession =
      [{ id := 1, topK := some 3, temperature := some 1 },
       { id := 1, topK := some 3, temperature := some 1 }] ∧
    (runTasks { stubWorld (.str "available") (.ok (.str "ok")) with sessionWritable := false }
      [.proofread (some "teh cat"), .shorten (some "the cat sat")] coldState).session =
      some { id := 1, topK := some 3, temperature := some 1 } := by
  decide

/-- A call that is not a `proofread`, or any call on a Session that does not
let its sampling fields be written, leaves the Session the engine holds as it
is and prompts that Session only. -/
theorem runTask_keeps_session (W : World) (t : TaskCall) (s0 : St) (sess : Session)
    (h : t.isProofread = false ∨ W.sessionWritable = false) (h0 : s0.session = some sess) :
    (runTask W t s0).2.session = some sess ∧
    ∀ c ∈ callsSince s0 (runTask W t s0).2, ∀ x, c.promptSession = some x → x = sess := by
  have hJ : t.isProofread = true →
      ∀ x, x = sess → applyParams W proofreadParams x = sess := by
    intro hpr x hx
    rcases h with h | h
    · rw [h] at hpr
      exact absurd hpr Bool.false_ne_true
    · rw [hx]
      simp [applyParams, h]
  obtain ⟨⟨sess1, e1, e2⟩, l, hl, q⟩ := runTask_pe W t (fun x => x = sess)
    (fun c => ∀ x, c.promptSession = some x → x = sess) hJ
    (fun x _ _ hx y hy => by
      simp only [Call.promptSession, Option.some.injEq] at hy
      rw [← hy]
      exact hx)
    (fun c hc y hy => by
      cases c <;> simp [Call.promptSession] at hy
      simp [Call.isPrompt] at hc)
    s0 ⟨sess, h0, rfl⟩
  refine ⟨by rw [e1, e2], ?_⟩
  rw [callsSince_of_log s0 _ l hl]
  exact q

/-- C29 (amended): if the Session lets its sampling fields be written, a
`proofread` that reaches its prompt runs it on a Session with `topK` 3 and
`temperature` 0.3 and leaves those values on the shared Session; then, for
every sequence of later calls of the five operations, the Session keeps them
and every `prompt` call of the sequence is made with them.  No operation other
than `proofread` changes the Session the engine holds; and on a Session that
does not let the fields be written no operation does, `proofread` included, so
every prompt runs with the values the Session already has. -/
theorem proofread_overrides_persist (W : World) (s : St) (text : Option String)
    (later : List TaskCall) (hw : W.sessionWritable = true)
    (hp : (callsSince s (proofread W text s).2).any Call.isPrompt = true) :
    TunedState (proofread W text s).2 ∧
    (∀ c ∈ callsSince s (proofread W text s).2, TunedCall c) ∧
    TunedState (runTasks W later (proofread W text s).2) ∧
    (∀ c ∈ callsSince (proofread W text s).2 (runTasks W later (proofread W text s).2),
      TunedCall c) ∧
    (∀ (W2 : World) (t : TaskCall) (s0 : St) (sess : Session),
      t.isProofread = false ∨ W2.sessionWritable = false → s0.session = some sess →
      (runTask W2 t s0).2.session = some sess ∧
      ∀ c ∈ callsSince s0 (runTask W2 t s0).2, ∀ x, c.promptSession = some x → x = sess) := by
  obtain ⟨l, hl, q, ht⟩ := proofread_tunes W text hw s
  rw [callsSince_of_log s _ l hl] at hp
  have h1 := ht hp
  obtain ⟨h2, l2, hl2, q2⟩ := runTasks_tuned W later _ h1
  refine ⟨h1, ?_, h2, ?_, ?_⟩
  · rw [callsSince_of_log s _ l hl]
    exact q
  · rw [callsSince_of_log _ _ l2 hl2]
    exact q2
  · intro W2 t s0 sess h h0
    exact runTask_keeps_session W2 t s0 sess h h0

/-- Witness for C29: the stub provider, whose Sessions are writable, a
`proofread` from the cold state and a `shorten` after it. -/
theorem proofread_overrides_persist_witness :
    TunedState (runTasks (stubWorld (.str "available") (.ok (.str "ok")))
      [.shorten (some "the cat sat")]
      (proofread (stubWorld (.str "available") (.ok (.str "ok"))) (some "teh cat")
        coldState).2) :=
  (proofread_overrides_persist (stubWorld (.str "available") (.ok (.str "ok"))) coldState
    (some "teh cat") [.shorten (some "the cat sat")] rfl (by decide)).2.2.1


/-! ## A downloading model during the warmup -/

theorem setLanguage_log (v : JsVal) (s : St) : (setLanguage v s).2.log = s.log := by
  cases v with
  | str l =>
    by_cases hl : l = ""
    · simp [setLanguage, hl]
    · simp [setLanguage, hl]
  | undefined => rfl
  | null => rfl
  | other t r => rfl

theorem applyPreferredLanguage_log (W : World) (s : St) :
    (applyPreferredLanguage W s).2.log = s.log ++ [Call.syncGetLanguage] := by
  simp only [applyPreferredLanguage, bind_run, callWorld_run]
  cases W.syncGetLanguage (s.log ++ [Call.syncGetLanguage]) with
  | error e => rfl
  | ok v =>
    simp only
    rw [setLanguage_log]

/-- An operation called while the stored snapshot is `downloadable` throws at
once and touches nothing. -/
theorem rewrite_downloading (W : World) (text mode : Option String) (s : St)
    (ht : isMissingOrBlank text = false) (hd : s.avail.languageModel = .downloadable) :
    rewrite W text mode s =
      (.throw (mkError "Local model is still downloading. Please try again shortly."), s) := by
  rw [rewrite_eq]
  simp [ht, taskBody, throwIfDownloading, hd]

/-- With a `downloadable` snapshot and a storage that answers, the rest of the
warmup cycle makes its two storage calls and returns true; the smoke test, if
it runs, is refused by the engine and its error is swallowed. -/
theorem warmupFinish_downloadable (W : World) (t : St)
    (hd : t.avail.languageModel = .downloadable)
    (hset : ∀ l, W.sessionSetWarmup l = .ok ())
    (hdbg : ∀ l, ∃ b, W.syncGetDebugMode l = .ok b) :
    warmupFinish W t =
      (.ok true, { t with log := t.log ++ [Call.sessionSetWarmup] ++ [Call.syncGetDebugMode] }) := by
  obtain ⟨b, hb⟩ := hdbg (t.log ++ [Call.sessionSetWarmup] ++ [Call.syncGetDebugMode])
  simp only [warmupFinish, bind_run, callWorld_run, hset, hb]
  cases b with
  | false => rfl
  | true =>
    simp only [if_true, tryCatchJs_run, bind_run]
    have hd2 : ({ t with log := t.log ++ [Call.sessionSetWarmup] ++ [Call.syncGetDebugMode] }
        : St).avail.languageModel = .downloadable := hd
    rw [rewrite_downloading W (some "test") (some "grammar") _ (by decide) hd2]
    rfl

/-- The `try` block of a warmup cycle when the language read returns, the
refresh reports `downloadable` and the storage answers: `init` returns false
and the block goes on to return true. -/
theorem warmupTry_downloadable (W : World) (s0 : St)
    (hl : (applyPreferredLanguage W s0).1 = .ok ())
    (hd : (refreshAvailability W (applyPreferredLanguage W s0).2).2.avail.languageModel =
      .downloadable)
    (hset : ∀ l, W.sessionSetWarmup l = .ok ())
    (hdbg : ∀ l, ∃ b, W.syncGetDebugMode l = .ok b) :
    init W (applyPreferredLanguage W s0).2 =
      (.ok false, (refreshAvailability W (applyPreferredLanguage W s0).2).2) ∧
    warmupTry W s0 =
      (.ok true,
        { (refreshAvailability W (applyPreferredLanguage W s0).2).2 with
          warmupComplete := true,
          log := (refreshAvailability W (applyPreferredLanguage W s0).2).2.log ++
            [Call.sessionSetWarmup] ++ [Call.syncGetDebugMode] }) := by
  have hi : init W (applyPreferredLanguage W s0).2 =
      (.ok false, (refreshAvailability W (applyPreferredLanguage W s0).2).2) := by
    rw [init_run, hd]
    simp
  refine ⟨hi, ?_⟩
  unfold warmupTry
  rw [bind_run_ok _ _ s0 () hl, bind_run_ok _ _ _ false (by rw [hi]), hi]
  simp only [bind_run, modifySt_run]
  exact warmupFinish_downloadable W _ hd hset hdbg

/-- A warmup cycle that runs returns false exactly when its `try` block throws,
and leaves the attempt counter at 0 exactly when what it threw passes the
transient test. -/
theorem warmupModels_reset_iff (W2 : World) (s2 : St) (hc2 : s2.warmupComplete = false)
    (ha2 : s2.warmupAttempts < MAX_WARMUP_ATTEMPTS) :
    ((warmupModels W2 s2).1 = .ok false ↔
      ∃ e, (warmupTry W2 (countAttempt s2)).1 = .throw e) ∧
    ((warmupModels W2 s2).2.warmupAttempts = 0 ↔
      ∃ e, (warmupTry W2 (countAttempt s2)).1 = .throw e ∧ isTransient e = true) := by
  have hk := warmupTry_keeps W2 (countAttempt s2)
  rw [warmupModels_cycle W2 s2 hc2 ha2]
  cases hw : warmupTry W2 (countAttempt s2) with
  | mk r s1 =>
    rw [hw] at hk
    simp only [Prod.mk.injEq] at hk
    have h1 : s1.warmupAttempts = s2.warmupAttempts + 1 := hk.2
    cases r with
    | ok b =>
      have hb := (warmupTry_ok W2 _ s1 b hw).1
      subst hb
      simp only
      refine ⟨⟨fun h => absurd h (by simp), fun ⟨e, he⟩ => absurd he (by simp)⟩,
        ⟨fun h => ?_, fun ⟨e, he, _⟩ => absurd he (by simp)⟩⟩
      rw [h1] at h
      exact absurd h (Nat.succ_ne_zero _)
    | throw e =>
      simp only
      refine ⟨⟨fun _ => ⟨e, rfl⟩, fun _ => trivial⟩, ⟨fun h => ?_, fun ⟨e2, he2, ht2⟩ => ?_⟩⟩
      · by_cases htr : isTransient e = true
        · exact ⟨e, rfl, htr⟩
        · simp only [htr, Bool.false_eq_true, if_false] at h
          rw [h1] at h
          exact absurd h (Nat.succ_ne_zero _)
      · simp only [Res.throw.injEq] at he2
        subst he2
        simp [ht2]

/-- C16 (amended): a downloading model makes the coordinator warm.  For every
warmup cycle that runs, in which the language read returns, the provider
reports `downloadable` (so `init` returns false) and the storage calls answer,
`warmupModels` returns true and sets `warmupComplete`; the attempt stays
counted, no Session is created and none is prompted.  A cycle returns false
only when its `try` block throws, and the attempt counter is 0 afterwards only
when the message of what it threw contains "downloadable" or "timeout". -/
theorem warmup_downloadable_is_warm (W : World) (s : St)
    (hc : s.warmupComplete = false) (ha : s.warmupAttempts < MAX_WARMUP_ATTEMPTS)
    (hl : (applyPreferredLanguage W (countAttempt s)).1 = .ok ())
    (hd : (refreshAvailability W
      (applyPreferredLanguage W (countAttempt s)).2).2.avail.languageModel = .downloadable)
    (hset : ∀ l, W.sessionSetWarmup l = .ok ())
    (hdbg : ∀ l, ∃ b, W.syncGetDebugMode l = .ok b) :
    (init W (applyPreferredLanguage W (countAttempt s)).2).1 = .ok false ∧
    (warmupModels W s).1 = .ok true ∧
    (warmupModels W s).2.warmupComplete = true ∧
    (warmupModels W s).2.warmupAttempts = s.warmupAttempts + 1 ∧
    (warmupModels W s).2.session = s.session ∧
    (warmupModels W s).2.avail.languageModel = .downloadable ∧
    (callsSince s (warmupModels W s).2).any Call.isCreate = false ∧
    (callsSince s (warmupModels W s).2).any Call.isPrompt = false ∧
    (∀ (W2 : World) (s2 : St), s2.warmupComplete = false →
      s2.warmupAttempts < MAX_WARMUP_ATTEMPTS →
      ((warmupModels W2 s2).1 = .ok false ↔
        ∃ e, (warmupTry W2 (countAttempt s2)).1 = .throw e) ∧
      ((warmupModels W2 s2).2.warmupAttempts = 0 ↔
        ∃ e, (warmupTry W2 (countAttempt s2)).1 = .throw e ∧ isTransient e = true)) := by
  obtain ⟨hi, ht⟩ := warmupTry_downloadable W (countAttempt s) hl hd hset hdbg
  have hks := applyPreferredLanguage_keeps_session W (countAttempt s)
  have hko := applyPreferredLanguage_keeps_outer W (countAttempt s)
  have hlog := applyPreferredLanguage_log W (countAttempt s)
  obtain ⟨a, l, hr, -, hcall⟩ := refresh_spec W (applyPreferredLanguage W (countAttempt s)).2
  have hrun : warmupModels W s =
      (.ok true,
        { (refreshAvailability W (applyPreferredLanguage W (countAttempt s)).2).2 with
          warmupComplete := true,
          log := (refreshAvailability W (applyPreferredLanguage W (countAttempt s)).2).2.log ++
            [Call.sessionSetWarmup] ++ [Call.syncGetDebugMode] }) := by
    simp only [warmupModels_cycle W s hc ha, ht]
  refine ⟨by rw [hi], by rw [hrun], by rw [hrun], ?_, ?_, ?_, ?_, ?_, ?_⟩
  · rw [hrun, hr]
    simp only [outer, Prod.mk.injEq] at hko
    exact hko.2.2
  · rw [hrun, hr]
    exact hks
  · rw [hrun]
    exact hd
  · have hl2 : (warmupModels W s).2.log =
        s.log ++ ([Call.syncGetLanguage] ++ l ++ [Call.sessionSetWarmup, Call.syncGetDebugMode]) := by
      rw [hrun, hr]
      show (applyPreferredLanguage W (countAttempt s)).2.log ++ l ++ [Call.sessionSetWarmup] ++
        [Call.syncGetDebugMode] = _
      rw [hlog]
      simp [countAttempt]
    rw [callsSince_of_log s _ _ hl2]
    rcases hcall with hcall | hcall <;> rw [hcall] <;> rfl
  · have hl2 : (warmupModels W s).2.log =
        s.log ++ ([Call.syncGetLanguage] ++ l ++ [Call.sessionSetWarmup, Call.syncGetDebugMode]) := by
      rw [hrun, hr]
      show (applyPreferredLanguage W (countAttempt s)).2.log ++ l ++ [Call.sessionSetWarmup] ++
        [Call.syncGetDebugMode] = _
      rw [hlog]
      simp [countAttempt]
    rw [callsSince_of_log s _ _ hl2]
    rcases hcall with hcall | hcall <;> rw [hcall] <;> rfl
  · intro W2 s2 hc2 ha2
    exact warmupModels_reset_iff W2 s2 hc2 ha2

/-- Witness for C16: a cold worker whose provider reports "downloadable". -/
theorem warmup_downloadable_is_warm_witness :
    (warmupModels (stubWorld (.str "downloadable") (.ok (.str "x"))) coldState).2.warmupComplete
      = true :=
  (warmup_downloadable_is_warm (stubWorld (.str "downloadable") (.ok (.str "x"))) coldState
    rfl (by decide) (by decide) (by decide) (fun _ => rfl) (fun _ => ⟨false, rfl⟩)).2.2.1

/-! ## What the retry-reset test of the warmup receives -/

theorem setLanguage_fst (v : JsVal) (s : St) : (setLanguage v s).1 = .ok () := by
  cases v with
  | str l =>
    by_cases hl : l = ""
    · simp [setLanguage, hl]
    · simp [setLanguage, hl]
  | undefined => rfl
  | null => rfl
  | other t r => rfl

theorem applyPreferredLanguage_throw (W : World) (s : St) (e : Thrown)
    (h : (applyPreferredLanguage W s).1 = .throw e) :
    W.syncGetLanguage (s.log ++ [Call.syncGetLanguage]) = .error e := by
  simp only [applyPreferredLanguage, bind_run, callWorld_run] at h
  cases hg : W.syncGetLanguage (s.log ++ [Call.syncGetLanguage]) with
  | error e1 =>
    rw [hg] at h
    have h2 : (Res.throw e1 : Res Unit) = .throw e := h
    rw [Res.throw.inj h2]
  | ok v =>
    rw [hg] at h
    simp only at h
    rw [setLanguage_fst] at h
    exact absurd h (by simp)

/-- An error `init` throws is one of the two it builds itself or a rejection of
`LanguageModel.create`. -/
theorem init_throw (W : World) (s : St) (e : Thrown) (h : (init W s).1 = .throw e) :
    e = mkError "Language model is unavailable in this browser." ∨
    e = mkError "Prompt API not found. Ensure Chrome 128 or newer with Built-in AI enabled." ∨
    ∃ l, W.create l = .error e := by
  rw [init_run] at h
  by_cases h1 : (refreshAvailability W s).2.avail.languageModel = .unavailable
  · rw [if_pos h1] at h
    have h2 : (Res.throw (mkError "Language model is unavailable in this browser.") : Res Bool)
        = .throw e := h
    exact Or.inl (Res.throw.inj h2).symm
  · rw [if_neg h1] at h
    by_cases h3 : (refreshAvailability W s).2.avail.languageModel = .downloadable
    · rw [if_pos h3] at h
      exact absurd h (by simp)
    · rw [if_neg h3] at h
      cases hs : (refreshAvailability W s).2.session with
      | some sess =>
        rw [ensureSession_some W _ sess hs] at h
        exact absurd h (by simp)
      | none =>
        by_cases hc : W.hasLanguageModel = false ∨ W.hasCreate = false
        · rw [ensureSession_no_create W _ hs hc] at h
          have h2 : (Res.throw (mkError
              "Prompt API not found. Ensure Chrome 128 or newer with Built-in AI enabled.")
              : Res Bool) = .throw e := h
          exact Or.inr (Or.inl (Res.throw.inj h2).symm)
        · push_neg at hc
          simp only [ne_eq, Bool.not_eq_false] at hc
          rw [ensureSession_create W _ hs hc.1 hc.2] at h
          cases hcr : W.create ((readDeviceDefaults W (refreshAvailability W s).2).2.log ++
              [Call.create systemPrompt (readDeviceDefaults W (refreshAvailability W s).2).2.topK
                (readDeviceDefaults W (refreshAvailability W s).2).2.temperature]) with
          | ok u =>
            rw [hcr] at h
            exact absurd h (by simp)
          | error e1 =>
            rw [hcr] at h
            have h2 : (Res.throw e1 : Res Bool) = .throw e := h
            rw [← Res.throw.inj h2]
            exact Or.inr (Or.inr ⟨_, hcr⟩)

/-- An error that leaves the rest of the warmup cycle is a rejection of one of
its two storage calls: what the smoke test throws is swallowed. -/
theorem warmupFinish_throw (W : World) (s : St) (e : Thrown)
    (h : (warmupFinish W s).1 = .throw e) :
    W.sessionSetWarmup (s.log ++ [Call.sessionSetWarmup]) = .error e ∨
    W.syncGetDebugMode (s.log ++ [Call.sessionSetWarmup] ++ [Call.syncGetDebugMode]) =
      .error e := by
  unfold warmupFinish at h
  rw [bind_run, callWorld_run] at h
  cases h1 : W.sessionSetWarmup (s.log ++ [Call.sessionSetWarmup]) with
  | error e1 =>
    rw [h1] at h
    have h2 : (Res.throw e1 : Res Bool) = .throw e := h
    rw [Res.throw.inj h2]
    exact Or.inl rfl
  | ok u =>
    rw [h1] at h
    simp only at h
    rw [bind_run, callWorld_run] at h
    cases h2 : W.syncGetDebugMode (s.log ++ [Call.sessionSetWarmup] ++ [Call.syncGetDebugMode]) with
    | error e2 =>
      rw [h2] at h
      have h3 : (Res.throw e2 : Res Bool) = .throw e := h
      rw [Res.throw.inj h3]
      exact Or.inr rfl
    | ok b =>
      rw [h2] at h
      exfalso
      cases b with
      | false => simp at h
      | true =>
        simp only [if_true] at h
        rw [bind_run_ok _ _ _ () (tryCatchJs_swallow _ _)] at h
        simp at h

theorem warmupTry_throw (W : World) (s : St) (e : Thrown)
    (h : (warmupTry W s).1 = .throw e) : WarmupErrorSource W e := by
  simp only [warmupTry, bind_run] at h
  cases h1 : applyPreferredLanguage W s with
  | mk r1 s1 =>
    rw [h1] at h
    cases r1 with
    | throw e1 =>
      simp only [Res.throw.injEq] at h
      subst h
      exact Or.inl ⟨_, applyPreferredLanguage_throw W s e1 (by rw [h1])⟩
    | ok u =>
      simp only at h
      cases h2 : init W s1 with
      | mk r2 s2 =>
        rw [h2] at h
        cases r2 with
        | throw e2 =>
          simp only [Res.throw.injEq] at h
          subst h
          rcases init_throw W s1 e2 (by rw [h2]) with hi | hi | hi
          · exact Or.inr (Or.inl hi)
          · exact Or.inr (Or.inr (Or.inl hi))
          · exact Or.inr (Or.inr (Or.inr (Or.inl hi)))
        | ok b =>
          simp only [modifySt_run] at h
          rcases warmupFinish_throw W _ e h with hf | hf
          · exact Or.inr (Or.inr (Or.inr (Or.inr (Or.inl ⟨_, hf⟩))))
          · exact Or.inr (Or.inr (Or.inr (Or.inr (Or.inr ⟨_, hf⟩))))

/-- C28 (amended): the two messages the engine emits for a timeout and for a
model that is still downloading contain neither "timeout" nor "downloadable"
and fail the retry-reset test of `warmupModels`; and that test never receives
them.  Every error that leaves the `try` block of a warmup cycle is a rejection
of a storage call or of `LanguageModel.create`, or one of the two errors `init`
builds itself, which fail the test as well; a cycle whose `try` block throws
has prompted no Session, and what the smoke test throws is swallowed, so that
the cycle returns true once the storage calls have answered.  So a cycle leaves
the attempt counter at 0 only after a storage call or `create` rejected with a
message that contains "downloadable" or "timeout". -/
theorem engine_transient_messages_not_tested (W : World) (s : St) :
    (∀ err, (jsIncludes (jsToLowerCase (promptErrMsg err)) "abort" = true ∨
        jsIncludes (jsToLowerCase (promptErrMsg err)) "timeout" = true) →
      remapPromptError err = mkError "Request timed out. Please try again.") ∧
    (s.avail.languageModel = .downloadable →
      (throwIfDownloading s).1 =
        .throw (mkError "Local model is still downloading. Please try again shortly.")) ∧
    isTransient (mkError "Request timed out. Please try again.") = false ∧
    isTransient (mkError "Local model is still downloading. Please try again shortly.")
      = false ∧
    (∀ e, (warmupTry W s).1 = .throw e →
      WarmupErrorSource W e ∧ (callsSince s (warmupTry W s).2).any Call.isPrompt = false) ∧
    isTransient (mkError "Language model is unavailable in this browser.") = false ∧
    isTransient
      (mkError "Prompt API not found. Ensure Chrome 128 or newer with Built-in AI enabled.")
      = false ∧
    (W.sessionSetWarmup (s.log ++ [Call.sessionSetWarmup]) = .ok () →
      (∃ b, W.syncGetDebugMode (s.log ++ [Call.sessionSetWarmup] ++ [Call.syncGetDebugMode]) =
        .ok b) →
      (warmupFinish W s).1 = .ok true) ∧
    (s.warmupComplete = false → s.warmupAttempts < MAX_WARMUP_ATTEMPTS →
      (warmupModels W s).2.warmupAttempts = 0 →
      ∃ e, (warmupTry W (countAttempt s)).1 = .throw e ∧ isTransient e = true ∧
        ((∃ l, W.syncGetLanguage l = .error e) ∨ (∃ l, W.create l = .error e) ∨
          (∃ l, W.sessionSetWarmup l = .error e) ∨ (∃ l, W.syncGetDebugMode l = .error e))) := by
  refine ⟨?_, ?_, by decide, by decide, ?_, by decide, by decide, ?_, ?_⟩
  · intro err h
    unfold remapPromptError
    rcases h with h | h <;> simp [h]
  · intro hd
    simp [throwIfDownloading, hd]
  · intro e he
    refine ⟨warmupTry_throw W s e he, ?_⟩
    obtain ⟨l, hl, hq⟩ := warmupTry_emitsOnThrow W s e he
    rw [callsSince_of_log s _ l hl]
    exact any_isPrompt_false l hq
  · intro h1 ⟨b, h2⟩
    cases hf : warmupFinish W s with
    | mk r s1 =>
      cases r with
      | ok b1 =>
        rw [warmupFinish_returns_true W s s1 b1 hf]
      | throw e =>
        rcases warmupFinish_throw W s e (by rw [hf]) with h | h
        · rw [h1] at h
          exact absurd h (by simp)
        · rw [h2] at h
          exact absurd h (by simp)
  · intro hc ha h0
    obtain ⟨e, he, ht⟩ := (warmupModels_reset_iff W s hc ha).2.mp h0
    refine ⟨e, he, ht, ?_⟩
    rcases warmupTry_throw W (countAttempt s) e he with h | h | h | h | h | h
    · exact Or.inl h
    · rw [h] at ht
      exact absurd ht (by decide)
    · rw [h] at ht
      exact absurd ht (by decide)
    · exact Or.inr (Or.inl h)
    · exact Or.inr (Or.inr (Or.inl h))
    · exact Or.inr (Or.inr (Or.inr h))

/-- Witness for C28: an aborted prompt is rethrown with the timeout message. -/
theorem engine_transient_messages_not_tested_witness :
    remapPromptError (.error "AbortError" "signal is aborted without reason") =
      mkError "Request timed out. Please try again." :=
  (engine_transient_messages_not_tested (stubWorld (.str "available") (.ok (.str "x")))
    coldState).1 _ (Or.inl (by decide))

end NanoComposer

